import Mathlib

/-!
# BufferViewer: the buffer table model, event changes and cameras

A shallow embedding of `qrenderdoc/Windows/BufferViewer.cpp`: the table
`BufferItemModel` with its cached column layout (`cacheColumns`, `endReset`),
header labels (`headerData`) and cell resolution (`data`); the effect of
`BufferViewer::OnEventChanged` on the VS-input table; the camera wrappers
`CameraWrapper`, `ArcballWrapper` and `FlycamWrapper`; the camera guesses of
`camGuess_changed`; and the VS-output columns of `ConfigureMeshColumns`.

Conventions of the embedding.

* `QList` and `QVector` are `List`; an access outside the list is a fault,
  which the functions below report as `none`.
* Pointers are addresses (`Nat`), the null pointer is `0`, and the bytes of
  the process are a `Memory`, a function from addresses to bytes.  The
  buffers are little-endian.  A load is defined at every address: a load
  outside `[data, end)` returns the bytes found there, so reading outside a
  buffer shows as a dependence of the result on bytes outside it.
* `uint32_t` values are `Nat`, `int` values are `Int`; the conversion of the
  `int` row of a `QModelIndex` to `uint32_t` is `toUInt32`, and the product
  `stride * idx` of a `size_t` and a `uint32_t` is taken modulo `2 ^ 64`.
* The pointer that `data` hands to the decoder is computed in the 64 bits of
  a pointer (`ptrAdd`): with a large stride the sum passes `2 ^ 64` and the
  pointer comes back below the buffer.  The pointer of an index entry,
  `indices.data + row * 4`, lies at most `2 ^ 34` bytes above the start of
  the index array and is taken as the plain sum.
* The decoder `FormatElement::GetVariants` and the text formatter
  `Formatter::Format` live outside this file and are parameters.
-/

namespace BufferViewer

/-! ## Data model -/

/-- Modelled from the spec: the `SpecialFormat` enumeration is declared in the
replay headers; the constructors are the case labels of the `switch` in
`cacheColumns`, plus `eSpecial_Unknown` for "no special encoding". -/
inductive SpecialFormat
  | eSpecial_Unknown
  | eSpecial_BC1
  | eSpecial_BC2
  | eSpecial_BC3
  | eSpecial_BC4
  | eSpecial_BC5
  | eSpecial_BC6
  | eSpecial_BC7
  | eSpecial_ETC2
  | eSpecial_EAC
  | eSpecial_ASTC
  | eSpecial_R10G10B10A2
  | eSpecial_R11G11B10
  | eSpecial_R5G6B5
  | eSpecial_R5G5B5A1
  | eSpecial_R9G9B9E5
  | eSpecial_R4G4B4A4
  | eSpecial_R4G4
  | eSpecial_D16S8
  | eSpecial_D24S8
  | eSpecial_D32S8
  | eSpecial_S8
  | eSpecial_YUV
  deriving DecidableEq, Repr

open SpecialFormat

/-- Modelled from the spec: the part of `ResourceFormat` that the table reads,
the special encoding and the nominal component count. -/
structure ResourceFormat where
  specialFormat : SpecialFormat
  compCount : Nat
  deriving DecidableEq, Repr

/-- Modelled from the spec: the fields of `FormatElement` (the spec's
AttributeLayout) that the table reads: name, format, source buffer index,
byte offset, per-instance flag, instance rate and the hex display flag. -/
structure FormatElement where
  name : String
  format : ResourceFormat
  buffer : Nat
  offset : Nat
  perinstance : Bool
  instancerate : Nat
  hex : Bool
  deriving DecidableEq, Repr

/-- The `BufferData` struct: a byte range `[data, end)` and a stride. The
default constructor gives the null range with stride 0. -/
structure BufferData where
  data : Nat := 0
  end_ : Nat := 0
  stride : Nat := 0
  deriving DecidableEq, Repr

/-- The state of a `BufferItemModel` (the view pointer apart). -/
structure BufferItemModel where
  curInstance : Nat := 0
  numRows : Nat := 0
  meshView : Bool := true
  indices : BufferData := {}
  columns : List FormatElement := []
  buffers : List BufferData := []
  columnLookup : List Nat := []
  componentLookup : List Nat := []
  m_ColumnCount : Int := 0
  deriving Repr

/-! ## Column layout -/

/-- The `switch` of `cacheColumns`: the value given to the local `compCount`
for one element. -/
def cacheColumns_compCount (fmt : ResourceFormat) : Nat :=
  match fmt.specialFormat with
  | eSpecial_BC6 | eSpecial_ETC2 | eSpecial_R11G11B10 | eSpecial_R5G6B5
  | eSpecial_R9G9B9E5 => 3
  | eSpecial_BC1 | eSpecial_BC7 | eSpecial_BC3 | eSpecial_BC2 | eSpecial_R10G10B10A2
  | eSpecial_R5G5B5A1 | eSpecial_R4G4B4A4 | eSpecial_ASTC => 4
  | eSpecial_BC5 | eSpecial_R4G4 | eSpecial_D16S8 | eSpecial_D24S8 | eSpecial_D32S8 => 2
  | eSpecial_BC4 | eSpecial_S8 => 1
  | eSpecial_YUV | eSpecial_EAC | eSpecial_Unknown => fmt.compCount

/-- The inner loop of `cacheColumns`: for `c` from 0 below `compCount`, push
`i` on `columnLookup` and `c` on `componentLookup`. The pair is
(`columnLookup`, `componentLookup`). -/
def cacheColumns_push (i compCount : Nat) (acc : List Nat × List Nat) : List Nat × List Nat :=
  (List.range compCount).foldl (fun a c => (a.1 ++ [i], a.2 ++ [c])) acc

/-- The outer loop of `cacheColumns`, for `i` from 0 below `columns.count()`,
started from the cleared vectors. -/
def cacheColumns_loop (columns : List FormatElement) : List Nat × List Nat :=
  (List.range columns.length).foldl
    (fun a i =>
      match columns[i]? with
      | some fmt => cacheColumns_push i (cacheColumns_compCount fmt.format) a
      | none => a)
    ([], [])

/-- The method `BufferItemModel::cacheColumns`: clear both vectors and run the loop. -/
def cacheColumns (m : BufferItemModel) : BufferItemModel :=
  { m with
    columnLookup := (cacheColumns_loop m.columns).1
    componentLookup := (cacheColumns_loop m.columns).2 }

/-- The method `BufferItemModel::reservedColumnCount`: `meshView ? 2 : 0`. -/
def reservedColumnCount (m : BufferItemModel) : Int :=
  if m.meshView then 2 else 0

/-- The method `BufferItemModel::endReset`: `cacheColumns()`, then
`m_ColumnCount = columnLookup.count() + reservedColumnCount()`. -/
def endReset (m : BufferItemModel) : BufferItemModel :=
  let m1 := cacheColumns m
  { m1 with m_ColumnCount := (m1.columnLookup.length : Int) + reservedColumnCount m1 }

/-- The method `BufferItemModel::columnCount`. -/
def columnCount (m : BufferItemModel) : Int :=
  m.m_ColumnCount

/-- The method `BufferItemModel::columnForIndex`:
`columns[columnLookup[col - reservedColumnCount()]]`;
`none` when one of the two accesses is outside its list. -/
def columnForIndex (m : BufferItemModel) (col : Int) : Option FormatElement :=
  let k := col - reservedColumnCount m
  if k < 0 then none
  else
    match m.columnLookup[k.toNat]? with
    | some a => m.columns[a]?
    | none => none

/-- The method `BufferItemModel::componentForIndex`:
`componentLookup[col - reservedColumnCount()]`;
`none` when the access is outside the list. -/
def componentForIndex (m : BufferItemModel) (col : Int) : Option Nat :=
  let k := col - reservedColumnCount m
  if k < 0 then none else m.componentLookup[k.toNat]?

/-! ## Values, memory and the outside collaborators -/

/-- The bit fields of an IEEE-754 binary value: sign bit, biased exponent
field and fraction field. A `double` has an 11-bit exponent field (all ones:
2047), a `float` an 8-bit one (all ones: 255). -/
structure FloatBits where
  sign : Bool
  exponent : Nat
  mantissa : Nat
  deriving DecidableEq, Repr

/-- The test `qIsNaN`: the exponent field is all ones and the fraction is not zero.
`expMax` is the all-ones exponent of the type. -/
def qIsNaN (expMax : Nat) (x : FloatBits) : Bool :=
  x.exponent == expMax && x.mantissa != 0

/-- The value is `+0.0` or `-0.0`. -/
def FloatBits.isZero (x : FloatBits) : Bool :=
  x.exponent == 0 && x.mantissa == 0

/-- The comparison `x < 0.0`: false for a NaN and for both zeros, otherwise
the sign bit. -/
def FloatBits.ltZero (expMax : Nat) (x : FloatBits) : Bool :=
  !qIsNaN expMax x && !x.isZero && x.sign

/-- The comparison `x > 0.0`: false for a NaN and for both zeros, otherwise
the negated sign bit. -/
def FloatBits.gtZero (expMax : Nat) (x : FloatBits) : Bool :=
  !qIsNaN expMax x && !x.isZero && !x.sign

/-- The literal `0.0`. -/
def FloatBits.zero : FloatBits := ⟨false, 0, 0⟩

/-- The all-ones exponent field of a `double`. -/
def doubleExpMax : Nat := 2047

/-- The all-ones exponent field of a `float`. -/
def floatExpMax : Nat := 255

/-- A `QVariant`, by its `QMetaType`: the invalid variant `QVariant()`, the
numeric types that `data` tells apart, a `QString`, the `QSize` that the
style computes for an item showing a text, and `Other` for every other type,
carrying its `toString()`. -/
inductive QVariant
  | Invalid
  | Double (d : FloatBits)
  | Float (f : FloatBits)
  | UInt (u : Nat)
  | UShort (u : Nat)
  | UChar (u : Nat)
  | Int (i : Int)
  | Short (i : Int)
  | SChar (i : Int)
  | QString (s : String)
  | QSize (text : String)
  | Other (text : String)
  deriving DecidableEq, Repr

/-- The conversion `QVariant::toString` on the variants that `data` returns or
passes on. -/
def QVariant.toString : QVariant → String
  | .UInt u => Nat.repr u
  | .QString s => s
  | .Other text => text
  | _ => ""

/-- The bytes of the process, by address. -/
abbrev Memory := Nat → Nat

/-- The byte at an address. -/
def readByte (mem : Memory) (a : Nat) : Nat :=
  mem a % 256

/-- The load `*(uint32_t *)p`: four bytes from address `p`, little-endian. -/
def readUInt32 (mem : Memory) (p : Nat) : Nat :=
  readByte mem p + 256 * readByte mem (p + 1) + 65536 * readByte mem (p + 2)
    + 16777216 * readByte mem (p + 3)

/-- A memory holding the given bytes from address `base` on, and 0 elsewhere. -/
def memoryOf (base : Nat) (bytes : List Nat) : Memory :=
  fun a => if base ≤ a then bytes.getD (a - base) 0 else 0

/-- The overloads of `Formatter::Format` that `data` calls, a collaborator
outside this file: for a `double`, for a `float` argument, for an unsigned
value with the hex flag, and for an `int`. -/
structure Formatter where
  FormatDouble : FloatBits → String
  FormatFloat : FloatBits → String
  FormatUInt : Nat → Bool → String
  FormatInt : Int → String

/-- The type of `FormatElement::GetVariants(data, end)`, a collaborator
outside this file: the element, the memory, the pointers `data` and `end`. -/
abbrev Decoder := FormatElement → Memory → Nat → Nat → List QVariant

/-- A `QModelIndex`: row, column and whether it carries a model. -/
structure QModelIndex where
  r : Int := -1
  c : Int := -1
  hasModel : Bool := false
  deriving DecidableEq, Repr

/-- The method `QModelIndex::isValid`: `(r >= 0) && (c >= 0) && (m != NULL)`. -/
def QModelIndex.isValid (index : QModelIndex) : Bool :=
  decide (0 ≤ index.r) && decide (0 ≤ index.c) && index.hasModel

/-- The item data roles that `data` and `headerData` tell apart. -/
inductive ItemDataRole
  | DisplayRole
  | SizeHintRole
  | OtherRole
  deriving DecidableEq, Repr

/-- The enumeration `Qt::Orientation`. -/
inductive Orientation
  | Horizontal
  | Vertical
  deriving DecidableEq, Repr

/-- The conversion of an `int` to `uint32_t`. -/
def toUInt32 (i : Int) : Nat :=
  (i % 4294967296).toNat

/-- The product of a `size_t` and a `uint32_t`, in `size_t`. -/
def sizeMul (a b : Nat) : Nat :=
  (a * b) % 18446744073709551616

/-! ## Header labels and cell resolution -/

/-- The local array `comps` of `headerData`. -/
def comps : List Char := ['x', 'y', 'z', 'w']

/-- The method `BufferItemModel::headerData`. The result is `none` when the
code reads outside `columnLookup`, `componentLookup`, `columns` or `comps`.
The call `QString("%1.%2").arg(el.name).arg(letter)` is the name, a dot and
the letter (attribute names carry no place marker of their own). -/
def headerData (m : BufferItemModel) (section_ : Int) (orientation : Orientation)
    (role : ItemDataRole) : Option QVariant :=
  if section_ < m.m_ColumnCount ∧ orientation = .Horizontal ∧ role = .DisplayRole then
    if section_ = 0 ∧ m.meshView = true then some (.QString "VTX")
    else if section_ = 1 ∧ m.meshView = true then some (.QString "IDX")
    else
      match columnForIndex m section_ with
      | none => none
      | some el =>
        if el.format.compCount = 1 then some (.QString el.name)
        else
          match componentForIndex m section_ with
          | none => none
          | some comp =>
            match comps[comp]? with
            | none => none
            | some ch => some (.QString (el.name ++ "." ++ ch.toString))
  else some .Invalid

/-- The text built for one decoded component in `data` (the `ret` string):
the branch on the variant's type and the sign padding. -/
def data_ret (F : Formatter) (el : FormatElement) (v : QVariant) : String :=
  match v with
  | .Double d =>
    if d.ltZero doubleExpMax then F.FormatDouble d
    else if d.gtZero doubleExpMax then " " ++ F.FormatDouble d
    else if qIsNaN doubleExpMax d then " NaN"
    else " " ++ F.FormatDouble FloatBits.zero
  | .Float f =>
    if f.ltZero floatExpMax then F.FormatFloat f
    else if f.gtZero floatExpMax then " " ++ F.FormatFloat f
    else if qIsNaN floatExpMax f then " NaN"
    else " " ++ F.FormatDouble FloatBits.zero
  | .UInt u => F.FormatUInt u el.hex
  | .UShort u => F.FormatUInt u el.hex
  | .UChar u => F.FormatUInt u el.hex
  | .Int i => if i > 0 then " " ++ F.FormatInt i else F.FormatInt i
  | .Short i => if i > 0 then " " ++ F.FormatInt i else F.FormatInt i
  | .SChar i => if i > 0 then " " ++ F.FormatInt i else F.FormatInt i
  | v => v.toString

/-- The local `idx` of `data` once the index buffer has passed its check: the
`uint32_t` loaded from `indices.data + row * sizeof(uint32_t)` when there is
an index buffer, the row otherwise. -/
def data_idx (mem : Memory) (m : BufferItemModel) (row : Nat) : Nat :=
  if m.indices.data ≠ 0 then readUInt32 mem (m.indices.data + row * 4) else row

/-- The local `instIdx` of `data`: `curInstance / el.instancerate` when the
rate is positive, 0 otherwise. -/
def data_instIdx (m : BufferItemModel) (el : FormatElement) : Nat :=
  if el.instancerate > 0 then m.curInstance / el.instancerate else 0

/-- The sum of a pointer and a byte count, in the 64 bits of a pointer. -/
def ptrAdd (p n : Nat) : Nat :=
  (p + n) % 18446744073709551616

/-- The pointer `data` that `data` hands to `GetVariants`: the start of the
buffer, advanced by the stride times `idx` or `instIdx` and then by the
element offset, each step in the 64 bits of a pointer. -/
def data_data (m : BufferItemModel) (el : FormatElement) (buf : BufferData) (idx : Nat) : Nat :=
  let data := buf.data
  let data :=
    if !el.perinstance then ptrAdd data (sizeMul buf.stride idx)
    else ptrAdd data (sizeMul buf.stride (data_instIdx m el))
  ptrAdd data el.offset

/-- The `Qt::DisplayRole` branch of `BufferItemModel::data`, for a valid
index. The result is `none` when the code reads outside `columnLookup`,
`componentLookup` or `columns`; `some .Invalid` is the empty `QVariant()`. -/
def data_display (F : Formatter) (GetVariants : Decoder) (mem : Memory)
    (m : BufferItemModel) (index : QModelIndex) : Option QVariant :=
  let row := toUInt32 index.r
  let col := index.c
  if 0 ≤ col ∧ col < m.m_ColumnCount ∧ row < m.numRows then
    if col = 0 ∧ m.meshView = true then some (.UInt row)
    else
      if m.indices.data ≠ 0 ∧ m.indices.data + row * 4 + 1 > m.indices.end_ then some .Invalid
      else
        let idx := data_idx mem m row
        if col = 1 ∧ m.meshView = true then some (.UInt idx)
        else
          match columnForIndex m col with
          | none => none
          | some el =>
            match m.buffers[el.buffer]? with
            | none => some .Invalid
            | some buf =>
              let list := GetVariants el mem (data_data m el buf idx) buf.end_
              match componentForIndex m col with
              | none => none
              | some comp =>
                match list[comp]? with
                | none => some .Invalid
                | some v => some (.QString (data_ret F el v))
  else some .Invalid

/-- The method `BufferItemModel::data`. For `Qt::SizeHintRole` the result is
the size that the style computes for the text `"999999"` in the reserved
columns of a mesh view and for the display text of the cell otherwise. -/
def data (F : Formatter) (GetVariants : Decoder) (mem : Memory)
    (m : BufferItemModel) (index : QModelIndex) (role : ItemDataRole) : Option QVariant :=
  if index.isValid then
    match role with
    | .SizeHintRole =>
      if index.c < 2 ∧ m.meshView = true then some (.QSize "999999")
      else
        match data_display F GetVariants mem m index with
        | none => none
        | some v => some (.QSize v.toString)
    | .DisplayRole => data_display F GetVariants mem m index
    | .OtherRole => some .Invalid
  else some .Invalid

/-! ## Sample inputs -/

/-- A sample decoder for the `GetVariants` collaborator: it reads
`compCount` consecutive little-endian `uint32_t` components, and returns the
empty list when fewer than `4 * compCount` bytes remain before `end`. -/
def sampleDecoder : Decoder :=
  fun el mem data end_ =>
    if data + 4 * el.format.compCount ≤ end_ then
      (List.range el.format.compCount).map (fun c => QVariant.UInt (readUInt32 mem (data + 4 * c)))
    else []

/-- A sample formatter for the `Formatter` collaborator. -/
def sampleFormatter : Formatter where
  FormatDouble := fun d => if d.isZero then "0.0" else if d.sign then "-f" else "f"
  FormatFloat := fun d => if d.isZero then "0.0" else if d.sign then "-f" else "f"
  FormatUInt := fun u hex => if hex then "0x" ++ String.mk (Nat.toDigits 16 u) else Nat.repr u
  FormatInt := fun i => if i < 0 then "-" ++ Nat.repr i.natAbs else Nat.repr i.natAbs

/-- A sample attribute: one unsigned component at offset 12, shown in hex. -/
def sampleElement : FormatElement :=
  ⟨"id", ⟨eSpecial_Unknown, 1⟩, 0, 12, false, 0, true⟩

/-- The layout of the spec's scenario: a three-component attribute at offset 0
and a one-component attribute, shown in hex, at offset 12. -/
def sampleColumns : List FormatElement :=
  [⟨"pos", ⟨eSpecial_Unknown, 3⟩, 0, 0, false, 0, false⟩,
   ⟨"id", ⟨eSpecial_Unknown, 1⟩, 0, 12, false, 0, true⟩]

/-- A raw (non-mesh) table over `sampleColumns`: two rows in one buffer of 32
bytes at address 4096 with stride 16, before `endReset`. -/
def sampleRawModel : BufferItemModel :=
  { meshView := false
    numRows := 2
    columns := sampleColumns
    buffers := [⟨4096, 4128, 16⟩] }

/-- A mesh table over `sampleColumns` with the index buffer `{0, 1000000}` of
8 bytes at address 256, before `endReset`. -/
def sampleMeshModel : BufferItemModel :=
  { meshView := true
    numRows := 2
    indices := ⟨256, 264, 4⟩
    columns := sampleColumns
    buffers := [⟨4096, 4128, 16⟩] }

/-- A memory for the samples: the index buffer `{0, 1000000}` at address 256
(1000000 is `0x000F4240`), zero elsewhere below 4096, and from 4096 the bytes
1, 2, 3, ... -/
def sampleMemory : Memory :=
  fun a =>
    if 4096 ≤ a then (a - 4095) % 256
    else (memoryOf 256 [0, 0, 0, 0, 0x40, 0x42, 0x0F, 0x00]) a

/-! ## Event changes: the buffers of the VS-input table

The slice of `BufferViewer` that `OnEventChanged` uses for the VS-input table
`m_ModelVSIn`. The capture context and the replay are outside this file: what
they supply for one event is the parameter `EventInputs`. A call of
`OnEventChanged` is run to its end, the parts that it queues on the replay
thread and on the GUI thread included, before the next call starts. -/

/-- The `qMax` template of Qt: `(a < b) ? b : a`. -/
def qMax {α : Type} [LT α] [DecidableRel (fun a b : α => a < b)] (a b : α) : α :=
  if a < b then b else a

/-- The answer of a fetch (`GetBufferData` or `GetTextureData`) once copied to
a fresh allocation `new byte[count]`: its address and its byte count. -/
structure FetchedData where
  addr : Nat
  count : Nat
  deriving DecidableEq, Repr

/-- Modelled from the spec: the fields of `VertexInputAttribute` that
`ConfigureMeshColumns` reads. -/
structure VertexInputAttribute where
  Name : String
  VertexBuffer : Nat
  RelativeByteOffset : Nat
  PerInstance : Bool
  InstanceRate : Nat
  Format : ResourceFormat
  Used : Bool
  deriving DecidableEq, Repr

/-- What the capture context and the replay supply for one event: the
current instance; for a mesh view the draw call (`numIndices`,
`indexByteWidth`; `none` when there is no draw call), the vertex inputs, the
byte stride of each bound vertex buffer, the byte count of the fetched index
data, the address of the `uint32_t` index array that is allocated, the
fetched bytes of each vertex buffer, and the two allocations and the two
formats of `CalcColumnWidth`; for a raw view the fetched bytes `rawData`. -/
structure EventInputs where
  curInstance : Nat
  draw : Option (Nat × Nat)
  vinputs : List VertexInputAttribute
  vbs : List Nat
  idataCount : Nat
  indexAddr : Nat
  fetched : Nat → FetchedData
  testIndexAddr : Nat
  testBufferAddr : Nat
  floatFmt : ResourceFormat
  intFmt : ResourceFormat
  rawData : FetchedData

/-- The body of the loop of `BufferViewer::ClearModels` for one model. -/
def ClearModels (m : BufferItemModel) : BufferItemModel :=
  endReset { m with indices := {}, buffers := [], columns := [], numRows := 0 }

/-- The effect of `BufferViewer::CalcColumnWidth` on `m_ModelVSIn`: five test
columns, two rows, a test index buffer of two entries and one test buffer of
`sizeof(TestData)` = 24 bytes. -/
def CalcColumnWidth (ev : EventInputs) (m : BufferItemModel) : BufferItemModel :=
  endReset { m with
    columns := [⟨"ColumnSizeTest", ev.floatFmt, 0, 0, false, 1, false⟩,
                ⟨"ColumnSizeTest", ev.floatFmt, 0, 4, false, 1, false⟩,
                ⟨"ColumnSizeTest", ev.floatFmt, 0, 8, false, 1, false⟩,
                ⟨"ColumnSizeTest", ev.intFmt, 0, 12, false, 1, true⟩,
                ⟨"ColumnSizeTest", ev.intFmt, 0, 16, false, 1, false⟩]
    numRows := 2
    indices := ⟨ev.testIndexAddr, ev.testIndexAddr + 8, 4⟩
    buffers := [⟨ev.testBufferAddr, ev.testBufferAddr + 24, 24⟩] }

/-- The effect of `BufferViewer::ConfigureMeshColumns` on `m_ModelVSIn`: one
column for each used vertex input, and the row count of the draw call. -/
def ConfigureMeshColumns (ev : EventInputs) (m : BufferItemModel) : BufferItemModel :=
  { m with
    columns := m.columns ++
      (ev.vinputs.filter (fun a => a.Used)).map
        (fun a => ⟨a.Name, a.Format, a.VertexBuffer, a.RelativeByteOffset, a.PerInstance,
                   a.InstanceRate, false⟩)
    numRows := match ev.draw with
      | none => 0
      | some d => d.1 }

/-- The loop over the bound vertex buffers in `BufferViewer::RT_FetchMeshData`:
for the buffer at `vbIdx`, `used` says whether a column names it; a used
buffer gets the fetched bytes and the stride `vb.ByteStride`, an unused one
stays the default `BufferData`; either is pushed on `buffers`. -/
def RT_FetchMeshData_buffers (ev : EventInputs) (m : BufferItemModel) : BufferItemModel :=
  ev.vbs.enum.foldl
    (fun s p =>
      let used := s.columns.any (fun col => col.buffer == p.1)
      let buf : BufferData :=
        if used then ⟨(ev.fetched p.1).addr, (ev.fetched p.1).addr + (ev.fetched p.1).count, p.2⟩
        else {}
      { s with buffers := s.buffers ++ [buf] })
    m

/-- The effect of `BufferViewer::RT_FetchMeshData` on `m_ModelVSIn`: the index
array, then the vertex buffers. -/
def RT_FetchMeshData (ev : EventInputs) (m : BufferItemModel) : BufferItemModel :=
  let indices : BufferData :=
    match ev.draw with
    | some d =>
      if d.2 ≠ 0 ∧ ev.idataCount ≠ 0 then ⟨ev.indexAddr, ev.indexAddr + 4 * d.1, 0⟩ else {}
    | none => {}
  RT_FetchMeshData_buffers ev { m with indices := indices }

/-- The method `BufferViewer::OnEventChanged` in mesh view, on `m_ModelVSIn`. -/
def OnEventChanged_mesh (ev : EventInputs) (m : BufferItemModel) : BufferItemModel :=
  let m1 := ClearModels (CalcColumnWidth ev (ClearModels m))
  let m2 := { m1 with curInstance := ev.curInstance }
  endReset (RT_FetchMeshData ev (ConfigureMeshColumns ev m2))

/-- The tight stride of the raw view in `OnEventChanged`: the sum of
`el.byteSize()` over the columns, then `qMax((size_t)1, stride)`. The method
`FormatElement::byteSize` is outside this file and is a parameter. -/
def OnEventChanged_stride (byteSize : FormatElement → Nat) (columns : List FormatElement) : Nat :=
  qMax 1 (columns.foldl (fun stride el => stride + byteSize el) 0)

/-- The method `BufferViewer::OnEventChanged` in raw (non-mesh) view, on
`m_ModelVSIn`: the fetched bytes become one more `BufferData`, pushed on
`buffers`. -/
def OnEventChanged_raw (byteSize : FormatElement → Nat) (ev : EventInputs)
    (m : BufferItemModel) : BufferItemModel :=
  let m1 := { m with curInstance := ev.curInstance }
  let stride := OnEventChanged_stride byteSize m1.columns
  let buf : BufferData := ⟨ev.rawData.addr, ev.rawData.addr + ev.rawData.count, stride⟩
  endReset { m1 with
    numRows := ((ev.rawData.count + stride - 1) / stride) % 4294967296
    buffers := m1.buffers ++ [buf] }

/-- The method `BufferViewer::OnEventChanged` on `m_ModelVSIn`; the flag
`m_MeshView` of the viewer is the `meshView` of its models. -/
def OnEventChanged (byteSize : FormatElement → Nat) (ev : EventInputs)
    (m : BufferItemModel) : BufferItemModel :=
  if m.meshView then OnEventChanged_mesh ev m else OnEventChanged_raw byteSize ev m

/-! ## Cameras

`CameraWrapper`, `ArcballWrapper` and `FlycamWrapper`. A `float` is a rational
number here: the arithmetic is exact, and rounding, infinities and NaN are
not represented, except that a division by a variable divisor is `floatDiv`,
whose result is `none` when the divisor is zero. The `Camera` of the replay
library is outside this file: it is the list of the calls made on it, and
`Camera_GetBasis` is a parameter. -/

/-- The `qAbs` template of Qt: `t >= 0 ? t : -t`. -/
def qAbs (t : ℚ) : ℚ :=
  if 0 ≤ t then t else -t

/-- A `float` division by a divisor that may be zero: `none` stands for the
infinity or NaN that a zero divisor gives. -/
def floatDiv (a b : ℚ) : Option ℚ :=
  if b = 0 then none else some (a / b)

/-- A `QPoint`. -/
structure QPoint where
  x : Int
  y : Int
  deriving DecidableEq, Repr

/-- A `QRect`, by its corners; the default rectangle is empty. -/
structure QRect where
  x1 : Int := 0
  y1 : Int := 0
  x2 : Int := -1
  y2 : Int := -1
  deriving DecidableEq, Repr

/-- The method `QRect::width`. -/
def QRect.width (r : QRect) : Int :=
  r.x2 - r.x1 + 1

/-- The method `QRect::height`. -/
def QRect.height (r : QRect) : Int :=
  r.y2 - r.y1 + 1

/-- A `FloatVector`; the default vector is zero. -/
structure FloatVector where
  x : ℚ := 0
  y : ℚ := 0
  z : ℚ := 0
  w : ℚ := 0
  deriving DecidableEq, Repr

/-- The mouse button flag `Qt::LeftButton`. -/
def Qt.LeftButton : Nat := 1

/-- The mouse button flag `Qt::RightButton`. -/
def Qt.RightButton : Nat := 2

/-- The mouse button flag `Qt::MiddleButton`. -/
def Qt.MiddleButton : Nat := 4

/-- The keyboard modifier flag `Qt::ShiftModifier`. -/
def Qt.ShiftModifier : Nat := 0x02000000

/-- The keyboard modifier flag `Qt::ControlModifier`. -/
def Qt.ControlModifier : Nat := 0x04000000

/-- The keyboard modifier flag `Qt::AltModifier`. -/
def Qt.AltModifier : Nat := 0x08000000

/-- The key code `Qt::Key_A`. -/
def Qt.Key_A : Int := 0x41

/-- The key code `Qt::Key_D`. -/
def Qt.Key_D : Int := 0x44

/-- The key code `Qt::Key_E`. -/
def Qt.Key_E : Int := 0x45

/-- The key code `Qt::Key_Q`. -/
def Qt.Key_Q : Int := 0x51

/-- The key code `Qt::Key_S`. -/
def Qt.Key_S : Int := 0x53

/-- The key code `Qt::Key_W`. -/
def Qt.Key_W : Int := 0x57

/-- What the wrappers read of a `QMouseEvent`: position, held buttons and
keyboard modifiers. -/
structure QMouseEvent where
  pos : QPoint
  buttons : Nat
  modifiers : Nat := 0
  deriving DecidableEq, Repr

/-- What the wrappers read of a `QKeyEvent`: key code and modifiers. -/
structure QKeyEvent where
  key : Int
  modifiers : Nat := 0
  deriving DecidableEq, Repr

/-- What the wrappers read of a `QWheelEvent`: the wheel delta. -/
structure QWheelEvent where
  delta : Int
  deriving DecidableEq, Repr

/-- A call made on the `Camera` of the replay library. -/
inductive CameraCall
  | ResetArcball
  | SetPosition (x y z : ℚ)
  | SetFPSRotation (x y z : ℚ)
  | SetArcballDistance (dist : ℚ)
  | RotateArcball (ax ay bx by_ : Option ℚ)
  deriving DecidableEq, Repr

/-- The `Camera` behind a wrapper: the calls made on it so far, oldest first. -/
abbrev Camera := List CameraCall

/-- The four vectors that `Camera_GetBasis` returns. -/
structure Basis where
  pos : FloatVector
  fwd : FloatVector
  right : FloatVector
  up : FloatVector
  deriving DecidableEq, Repr

/-- The enumeration `CameraWrapper::Direction` (without its count `Num`). -/
inductive Direction
  | Fwd
  | Horiz
  | Vert
  deriving DecidableEq, Repr

/-- The state of a `CameraWrapper`; the array `m_CurrentMove` is its three
entries. -/
structure CameraWrapper where
  SpeedMultiplier : ℚ := 1 / 20
  m_CurrentSpeed : ℚ := 1
  m_CurrentMove_Fwd : Int := 0
  m_CurrentMove_Horiz : Int := 0
  m_CurrentMove_Vert : Int := 0
  m_DragStartPos : QPoint := ⟨-1, -1⟩
  deriving DecidableEq, Repr

/-- The method `CameraWrapper::move`: `m_CurrentMove[(int)dir]`. -/
def CameraWrapper.move (s : CameraWrapper) (dir : Direction) : Int :=
  match dir with
  | .Fwd => s.m_CurrentMove_Fwd
  | .Horiz => s.m_CurrentMove_Horiz
  | .Vert => s.m_CurrentMove_Vert

/-- The method `CameraWrapper::setMove`: `m_CurrentMove[(int)dir] = val`. -/
def CameraWrapper.setMove (s : CameraWrapper) (dir : Direction) (val : Int) : CameraWrapper :=
  match dir with
  | .Fwd => { s with m_CurrentMove_Fwd := val }
  | .Horiz => { s with m_CurrentMove_Horiz := val }
  | .Vert => { s with m_CurrentMove_Vert := val }

/-- The method `CameraWrapper::currentSpeed`. -/
def CameraWrapper.currentSpeed (s : CameraWrapper) : ℚ :=
  s.m_CurrentSpeed * s.SpeedMultiplier

/-- The method `CameraWrapper::dragStartPos`. -/
def CameraWrapper.dragStartPos (s : CameraWrapper) : QPoint :=
  s.m_DragStartPos

/-- The method `CameraWrapper::MouseClick`. -/
def CameraWrapper.MouseClick (s : CameraWrapper) (e : QMouseEvent) : CameraWrapper :=
  { s with m_DragStartPos := e.pos }

/-- The method `CameraWrapper::MouseMove`. -/
def CameraWrapper.MouseMove (s : CameraWrapper) (e : QMouseEvent) : CameraWrapper :=
  if e.buttons &&& Qt.LeftButton ≠ 0 then
    let s1 := if s.m_DragStartPos.x < 0 then { s with m_DragStartPos := e.pos } else s
    { s1 with m_DragStartPos := e.pos }
  else
    { s with m_DragStartPos := ⟨-1, -1⟩ }

/-- The speed chosen at the end of `KeyUp` and `KeyDown`:
`e->modifiers() && Qt::ShiftModifier` is the logical conjunction of the two
operands, each read as "is not zero". -/
def CameraWrapper.setSpeed (s : CameraWrapper) (e : QKeyEvent) : CameraWrapper :=
  if e.modifiers ≠ 0 ∧ Qt.ShiftModifier ≠ 0 then { s with m_CurrentSpeed := 3 }
  else { s with m_CurrentSpeed := 1 }

/-- The method `CameraWrapper::KeyUp`. -/
def CameraWrapper.KeyUp (s : CameraWrapper) (e : QKeyEvent) : CameraWrapper :=
  let s1 := if e.key = Qt.Key_A ∨ e.key = Qt.Key_D then s.setMove .Horiz 0 else s
  let s2 := if e.key = Qt.Key_Q ∨ e.key = Qt.Key_E then s1.setMove .Vert 0 else s1
  let s3 := if e.key = Qt.Key_W ∨ e.key = Qt.Key_S then s2.setMove .Fwd 0 else s2
  s3.setSpeed e

/-- The method `CameraWrapper::KeyDown`. -/
def CameraWrapper.KeyDown (s : CameraWrapper) (e : QKeyEvent) : CameraWrapper :=
  let s1 := if e.key = Qt.Key_W then s.setMove .Fwd 1 else s
  let s2 := if e.key = Qt.Key_S then s1.setMove .Fwd (-1) else s1
  let s3 := if e.key = Qt.Key_Q then s2.setMove .Vert 1 else s2
  let s4 := if e.key = Qt.Key_E then s3.setMove .Vert (-1) else s3
  let s5 := if e.key = Qt.Key_D then s4.setMove .Horiz 1 else s4
  let s6 := if e.key = Qt.Key_A then s5.setMove .Horiz (-1) else s5
  s6.setSpeed e

/-- The state of an `ArcballWrapper`. -/
structure ArcballWrapper extends CameraWrapper where
  m_Cam : Camera := []
  m_WinSize : QRect := {}
  m_Distance : ℚ := 10
  m_LookAt : FloatVector := {}
  deriving DecidableEq, Repr

/-- The method `ArcballWrapper::setLookAtPos`. -/
def ArcballWrapper.setLookAtPos (s : ArcballWrapper) (v : FloatVector) : ArcballWrapper :=
  { s with m_LookAt := v, m_Cam := s.m_Cam ++ [.SetPosition v.x v.y v.z] }

/-- The method `ArcballWrapper::SetDistance`. -/
def ArcballWrapper.SetDistance (s : ArcballWrapper) (dist : ℚ) : ArcballWrapper :=
  { s with m_Distance := qAbs dist, m_Cam := s.m_Cam ++ [.SetArcballDistance (qAbs dist)] }

/-- The method `ArcballWrapper::Reset`. -/
def ArcballWrapper.Reset (s : ArcballWrapper) (pos : FloatVector) (dist : ℚ) : ArcballWrapper :=
  (({ s with m_Cam := s.m_Cam ++ [.ResetArcball] } : ArcballWrapper).setLookAtPos pos).SetDistance
    dist

/-- The method `ArcballWrapper::Update`: the new state and the returned flag. -/
def ArcballWrapper.Update (s : ArcballWrapper) (size : QRect) : ArcballWrapper × Bool :=
  ({ s with m_WinSize := size }, false)

/-- The method `ArcballWrapper::MouseWheel`; `1e-6f` is `1 / 1000000`. -/
def ArcballWrapper.MouseWheel (s : ArcballWrapper) (e : QWheelEvent) : ArcballWrapper :=
  let mod : ℚ := 1 - (e.delta : ℚ) / 2500
  s.SetDistance (qMax (1 / 1000000) (s.m_Distance * mod))

/-- The method `ArcballWrapper::RotateArcball`. The first values of `ax`, `ay`,
`bx`, `by`, computed from the width and the height, are overwritten before
they are used; the values passed on are computed from `minDimension`. -/
def ArcballWrapper.RotateArcball (s : ArcballWrapper) (from_ to_ : QPoint) : ArcballWrapper :=
  let minDimension : Int := min s.m_WinSize.width s.m_WinSize.height
  let ax : Option ℚ := some 0
  let ay : Option ℚ := some 0
  let bx : Option ℚ := (floatDiv ((to_.x - from_.x : Int) : ℚ) (minDimension : ℚ)).map (· * 2)
  let by_ : Option ℚ := (floatDiv ((to_.y - from_.y : Int) : ℚ) (minDimension : ℚ)).map (· * 2)
  let ay := ay.map (fun v => -v)
  let by_ := by_.map (fun v => -v)
  { s with m_Cam := s.m_Cam ++ [.RotateArcball ax ay bx by_] }

/-- The method `ArcballWrapper::MouseMove`. -/
def ArcballWrapper.MouseMove (Camera_GetBasis : Camera → Basis) (s : ArcballWrapper)
    (e : QMouseEvent) : ArcballWrapper :=
  let s1 : ArcballWrapper :=
    if s.dragStartPos.x > 0 then
      if e.buttons = Qt.MiddleButton ∨
          (e.buttons = Qt.LeftButton ∧ e.modifiers &&& Qt.AltModifier ≠ 0) then
        let xdelta : ℚ := ((e.pos.x - s.dragStartPos.x : Int) : ℚ) / 300
        let ydelta : ℚ := ((e.pos.y - s.dragStartPos.y : Int) : ℚ) / 300
        let xdelta := xdelta * qMax 1 s.m_Distance
        let ydelta := ydelta * qMax 1 s.m_Distance
        let b := Camera_GetBasis s.m_Cam
        let lookAt : FloatVector :=
          { s.m_LookAt with
            x := s.m_LookAt.x - b.right.x * xdelta + b.up.x * ydelta
            y := s.m_LookAt.y - b.right.y * xdelta + b.up.y * ydelta
            z := s.m_LookAt.z - b.right.z * xdelta + b.up.z * ydelta }
        { s with
          m_LookAt := lookAt
          m_Cam := s.m_Cam ++ [.SetPosition lookAt.x lookAt.y lookAt.z] }
      else if e.buttons = Qt.LeftButton then
        s.RotateArcball s.dragStartPos e.pos
      else s
    else s
  { s1 with toCameraWrapper := s1.toCameraWrapper.MouseMove e }

/-- The state of a `FlycamWrapper`. -/
structure FlycamWrapper extends CameraWrapper where
  m_Cam : Camera := []
  m_Position : FloatVector := {}
  m_Rotation : FloatVector := {}
  deriving DecidableEq, Repr

/-- The method `FlycamWrapper::Reset`. -/
def FlycamWrapper.Reset (s : FlycamWrapper) (pos : FloatVector) : FlycamWrapper :=
  { s with
    m_Position := pos
    m_Rotation := {}
    m_Cam := s.m_Cam ++ [.SetPosition pos.x pos.y pos.z, .SetFPSRotation 0 0 0] }

/-- The method `FlycamWrapper::Update`: the new state and the returned flag. -/
def FlycamWrapper.Update (Camera_GetBasis : Camera → Basis) (s : FlycamWrapper)
    (_size : QRect) : FlycamWrapper × Bool :=
  let b := Camera_GetBasis s.m_Cam
  let speed := s.currentSpeed
  let horizMove := s.move .Horiz
  let p1 : FloatVector :=
    if horizMove ≠ 0 then
      { s.m_Position with
        x := s.m_Position.x + b.right.x * speed * (horizMove : ℚ)
        y := s.m_Position.y + b.right.y * speed * (horizMove : ℚ)
        z := s.m_Position.z + b.right.z * speed * (horizMove : ℚ) }
    else s.m_Position
  let vertMove := s.move .Vert
  let p2 : FloatVector :=
    if vertMove ≠ 0 then { p1 with y := p1.y + speed * (vertMove : ℚ) } else p1
  let fwdMove := s.move .Fwd
  let p3 : FloatVector :=
    if fwdMove ≠ 0 then
      { p2 with
        x := p2.x + b.fwd.x * speed * (fwdMove : ℚ)
        y := p2.y + b.fwd.y * speed * (fwdMove : ℚ)
        z := p2.z + b.fwd.z * speed * (fwdMove : ℚ) }
    else p2
  if horizMove ≠ 0 ∨ vertMove ≠ 0 ∨ fwdMove ≠ 0 then
    ({ s with m_Position := p3, m_Cam := s.m_Cam ++ [.SetPosition p3.x p3.y p3.z] }, true)
  else
    ({ s with m_Position := p3 }, false)

/-- The method `FlycamWrapper::MouseWheel`, which is empty. -/
def FlycamWrapper.MouseWheel (s : FlycamWrapper) (_e : QWheelEvent) : FlycamWrapper :=
  s

/-- The method `FlycamWrapper::MouseMove`. -/
def FlycamWrapper.MouseMove (s : FlycamWrapper) (e : QMouseEvent) : FlycamWrapper :=
  let s1 : FlycamWrapper :=
    if s.dragStartPos.x > 0 ∧ e.buttons = Qt.LeftButton then
      let rot : FloatVector :=
        { s.m_Rotation with
          y := s.m_Rotation.y - ((e.pos.x - s.dragStartPos.x : Int) : ℚ) / 300
          x := s.m_Rotation.x - ((e.pos.y - s.dragStartPos.y : Int) : ℚ) / 300 }
      { s with m_Rotation := rot, m_Cam := s.m_Cam ++ [.SetFPSRotation rot.x rot.y rot.z] }
    else s
  { s1 with toCameraWrapper := s1.toCameraWrapper.MouseMove e }

/-- The method `MouseClick` that `ArcballWrapper` inherits. -/
def ArcballWrapper.MouseClick (s : ArcballWrapper) (e : QMouseEvent) : ArcballWrapper :=
  { s with toCameraWrapper := s.toCameraWrapper.MouseClick e }

/-- The method `MouseClick` that `FlycamWrapper` inherits. -/
def FlycamWrapper.MouseClick (s : FlycamWrapper) (e : QMouseEvent) : FlycamWrapper :=
  { s with toCameraWrapper := s.toCameraWrapper.MouseClick e }

/-- The method `KeyDown` that `FlycamWrapper` inherits. -/
def FlycamWrapper.KeyDown (s : FlycamWrapper) (e : QKeyEvent) : FlycamWrapper :=
  { s with toCameraWrapper := s.toCameraWrapper.KeyDown e }

/-- The method `KeyUp` that `FlycamWrapper` inherits. -/
def FlycamWrapper.KeyUp (s : FlycamWrapper) (e : QKeyEvent) : FlycamWrapper :=
  { s with toCameraWrapper := s.toCameraWrapper.KeyUp e }

/-- A key event as the viewer forwards it: `render_keyPress` calls `KeyDown`,
`render_keyRelease` calls `KeyUp`. -/
inductive KeyInput
  | press (e : QKeyEvent)
  | release (e : QKeyEvent)
  deriving DecidableEq, Repr

/-- The camera after a sequence of key events, oldest first. -/
def CameraWrapper.keyInputs (s : CameraWrapper) (es : List KeyInput) : CameraWrapper :=
  es.foldl
    (fun c k =>
      match k with
      | .press e => c.KeyDown e
      | .release e => c.KeyUp e)
    s

/-- A sample `byteSize`: four bytes for each nominal component. -/
def sampleByteSize (el : FormatElement) : Nat :=
  4 * el.format.compCount

/-- A sample event: no draw call and no vertex inputs, and 32 fetched bytes at
address `addr` for the raw view. -/
def sampleEvent (addr : Nat) : EventInputs where
  curInstance := 0
  draw := none
  vinputs := []
  vbs := []
  idataCount := 0
  indexAddr := 0
  fetched := fun _ => ⟨0, 0⟩
  testIndexAddr := 512
  testBufferAddr := 1024
  floatFmt := ⟨eSpecial_Unknown, 1⟩
  intFmt := ⟨eSpecial_Unknown, 1⟩
  rawData := ⟨addr, 32⟩

/-- The VS-input table of a raw view once `processFormat` has cleared it and
stored the parsed columns `sampleColumns`. -/
def sampleRawStart : BufferItemModel :=
  { ClearModels { meshView := false } with columns := sampleColumns }

/-- A sample `Camera_GetBasis`: the camera looks along z, with x to the right
and y up, whatever calls were made on it. -/
def sampleBasis : Camera → Basis :=
  fun _ => ⟨{}, ⟨0, 0, 1, 0⟩, ⟨1, 0, 0, 0⟩, ⟨0, 1, 0, 0⟩⟩

/-! ## Camera guesses -/

/-- Modelled from the spec: the `MeshDataStage` enumeration is declared in the
replay headers; the constructors are the values this file compares
`m_CurStage` with. -/
inductive MeshDataStage
  | eMeshDataStage_Unknown
  | eMeshDataStage_VSIn
  | eMeshDataStage_VSOut
  | eMeshDataStage_GSOut
  deriving DecidableEq, Repr

open MeshDataStage

/-- Modelled from the spec: the two fields of `MeshFormat` that the camera
guesses read and write, the near and the far plane. `memset` to zero gives the
default. -/
structure MeshFormat where
  nearPlane : ℚ := 0
  farPlane : ℚ := 0
  deriving DecidableEq, Repr

/-- Modelled from the spec: the fields of `MeshDisplay` (the member
`m_Config`) that the camera guesses write. The aspect is the result of a
`float` division, which is `none` when the viewport height is zero. -/
structure MeshDisplay where
  ortho : Bool := false
  fov : ℚ := 0
  aspect : Option ℚ := some 0
  highlightVert : Nat := 0
  position : MeshFormat := {}
  deriving DecidableEq, Repr

/-- The values of the camera controls of the window: the current index of
`ui->matrixType` and the values of the four spin boxes. -/
structure GuessControls where
  matrixType : Int
  fovGuess : ℚ
  aspectGuess : ℚ
  nearGuess : ℚ
  farGuess : ℚ
  deriving DecidableEq, Repr

/-- Modelled from the spec: the width and height of the `Viewport` returned by
`CurPipelineState.GetViewport(0)`. -/
structure Viewport where
  width : ℚ
  height : ℚ
  deriving DecidableEq, Repr

/-- The members of `BufferViewer` that the camera guesses touch. The
constructor sets `m_CurStage` to `eMeshDataStage_VSIn`. -/
structure GuessState where
  m_CurStage : MeshDataStage := eMeshDataStage_VSIn
  m_PostVS : MeshFormat := {}
  m_PostGS : MeshFormat := {}
  m_Config : MeshDisplay := {}
  deriving DecidableEq, Repr

/-- The method `BufferViewer::camGuess_changed`, one assignment after the
other. The first value `1.0f` of the aspect is overwritten by the next
statement and is left out; the last step, `RT_UpdateAndDisplay`, hands
`m_Config` to the output and leaves these members as they are. -/
def camGuess_changed (ui : GuessControls) (vp : Viewport) (s : GuessState) : GuessState :=
  let ortho : Bool := ui.matrixType == 1
  let fov : ℚ := ui.fovGuess
  let aspect : Option ℚ := floatDiv vp.width vp.height
  let aspect : Option ℚ := if ui.aspectGuess > 0 then some ui.aspectGuess else aspect
  let nearPlane : ℚ := 1 / 10
  let nearPlane : ℚ :=
    if s.m_CurStage = eMeshDataStage_VSOut then s.m_PostVS.nearPlane
    else if s.m_CurStage = eMeshDataStage_GSOut then s.m_PostGS.nearPlane
    else nearPlane
  let nearPlane : ℚ := if ui.nearGuess > 0 then ui.nearGuess else nearPlane
  let farPlane : ℚ := 100
  let farPlane : ℚ :=
    if s.m_CurStage = eMeshDataStage_VSOut then s.m_PostVS.farPlane
    else if s.m_CurStage = eMeshDataStage_GSOut then s.m_PostGS.farPlane
    else farPlane
  let farPlane : ℚ := if ui.nearGuess > 0 then ui.nearGuess else farPlane
  let nearPlane : ℚ := if ui.farGuess > 0 then ui.farGuess else nearPlane
  { s with
    m_Config := { s.m_Config with
      ortho := ortho
      fov := fov
      aspect := aspect
      position := { s.m_Config.position with nearPlane := nearPlane, farPlane := farPlane } } }

/-- The camera guesses of `BufferViewer::ConfigureMeshColumns`: field of view,
aspect and highlighted vertex go to `m_Config`, and a near or far guess above
zero is stored as the near or the far plane of both output stages. -/
def ConfigureMeshColumns_guesses (ui : GuessControls) (vp : Viewport) (s : GuessState) :
    GuessState :=
  let aspect : Option ℚ := floatDiv vp.width vp.height
  let aspect : Option ℚ := if ui.aspectGuess > 0 then some ui.aspectGuess else aspect
  let s1 : GuessState :=
    { s with m_Config := { s.m_Config with fov := ui.fovGuess, aspect := aspect,
                                            highlightVert := 0 } }
  let s2 : GuessState :=
    if ui.nearGuess > 0 then
      { s1 with m_PostGS := { s1.m_PostGS with nearPlane := ui.nearGuess }
                m_PostVS := { s1.m_PostVS with nearPlane := ui.nearGuess } }
    else s1
  if ui.farGuess > 0 then
    { s2 with m_PostGS := { s2.m_PostGS with farPlane := ui.farGuess }
              m_PostVS := { s2.m_PostVS with farPlane := ui.farGuess } }
  else s2

/-- Sample camera controls: no field-of-view or aspect override, a near guess
of 1 and a far guess of 1000. -/
def sampleGuesses : GuessControls :=
  ⟨0, 90, 0, 1, 1000⟩

/-- A sample viewport of 1280 by 720. -/
def sampleViewport : Viewport :=
  ⟨1280, 720⟩

/-! ## VS-output columns -/

/-- Modelled from the spec: the fields of `SigParameter` that
`ConfigureMeshColumns` reads. The component type and the system value are the
numbers of their enumerations. -/
structure SigParameter where
  varName : String
  semanticIdxName : String
  compCount : Nat
  compType : Nat
  systemValue : Nat
  deriving DecidableEq, Repr

/-- What the VS-output part of `ConfigureMeshColumns` takes from outside this
file: the enumeration values `eAttr_Position` and `eCompType_Double`, the
answer of `CurPipelineState.HasAlignedPostVSData()`, and the helper
`AlignUp`. -/
structure PostVSInputs where
  eAttr_Position : Nat
  eCompType_Double : Nat
  HasAlignedPostVSData : Bool
  AlignUp : Nat → Nat → Nat

/-- The `FormatElement` that the first loop of `ConfigureMeshColumns` builds
for one signature parameter: buffer 0, the variable name or else the semantic
name, the parameter's component count, no special encoding, not per-instance,
instance rate 1. The offset is assigned by the second loop. -/
def ConfigureMeshColumns_element (sig : SigParameter) : FormatElement :=
  { name := if sig.varName.length > 0 then sig.varName else sig.semanticIdxName
    format := ⟨eSpecial_Unknown, sig.compCount⟩
    buffer := 0
    offset := 0
    perinstance := false
    instancerate := 1
    hex := false }

/-- The first loop of `ConfigureMeshColumns` over `vs->OutputSig`: the state
is the column list, the counter `i` and `posidx`, starting from the empty
list, 0 and -1. -/
def ConfigureMeshColumns_build (env : PostVSInputs) (OutputSig : List SigParameter) :
    List FormatElement × Int × Int :=
  OutputSig.foldl
    (fun st sig =>
      let f := ConfigureMeshColumns_element sig
      let posidx : Int := if sig.systemValue = env.eAttr_Position then st.2.1 else st.2.2
      (st.1 ++ [f], st.2.1 + 1, posidx))
    ([], 0, -1)

/-- The second loop of `ConfigureMeshColumns` over `vs->OutputSig`, from the
counter `i` and the running `uint32_t` offset: align the offset when the
post-VS data is aligned, store it in `columns[i]`, and advance it by the size
of the parameter. -/
def ConfigureMeshColumns_offsets (env : PostVSInputs) :
    List SigParameter → Nat → Nat → List FormatElement → List FormatElement
  | [], _, _, columns => columns
  | sig :: rest, i, offset, columns =>
    let numComps : Nat := sig.compCount
    let elemSize : Nat := if sig.compType = env.eCompType_Double then 8 else 4
    let offset : Nat :=
      if env.HasAlignedPostVSData then
        if numComps = 2 then env.AlignUp offset (2 * elemSize)
        else if numComps > 2 then env.AlignUp offset (4 * elemSize)
        else offset
      else offset
    let columns : List FormatElement :=
      match columns[i]? with
      | some el => columns.set i { el with offset := offset }
      | none => columns
    ConfigureMeshColumns_offsets env rest (i + 1) ((offset + numComps * elemSize) % 2 ^ 32)
      columns

/-- The columns of `m_ModelVSOut` after the two loops of
`ConfigureMeshColumns`, in the order of the signature. -/
def ConfigureMeshColumns_signatureOrder (env : PostVSInputs) (OutputSig : List SigParameter) :
    List FormatElement :=
  ConfigureMeshColumns_offsets env OutputSig 0 0 (ConfigureMeshColumns_build env OutputSig).1

/-- The last step of `ConfigureMeshColumns`: when `posidx > 0`,
`columns.insert(0, columns.takeAt(posidx))`. -/
def ConfigureMeshColumns_shift (columns : List FormatElement) (posidx : Int) :
    List FormatElement :=
  if posidx > 0 then
    match columns[posidx.toNat]? with
    | some pos => pos :: columns.eraseIdx posidx.toNat
    | none => columns
  else columns

/-- The effect of `BufferViewer::ConfigureMeshColumns` on `m_ModelVSOut`: the
columns are cleared, and when there is a draw call and a vertex shader
(`drawAndVs`) they are rebuilt from the shader's output signature. -/
def ConfigureMeshColumns_VSOut (env : PostVSInputs) (drawAndVs : Bool)
    (OutputSig : List SigParameter) (m : BufferItemModel) : BufferItemModel :=
  let m1 : BufferItemModel := { m with columns := [] }
  if drawAndVs then
    let posidx : Int := (ConfigureMeshColumns_build env OutputSig).2.2
    let columns := ConfigureMeshColumns_signatureOrder env OutputSig
    { m1 with columns := ConfigureMeshColumns_shift columns posidx }
  else m1

/-- Sample inputs of the VS-output columns: position is system value 1, double
is component type 5, the post-VS data is aligned, and `AlignUp` rounds up to
the next multiple. -/
def samplePostVS : PostVSInputs :=
  ⟨1, 5, true, fun x a => (x + a - 1) / a * a⟩

/-- A sample output signature: a colour, a texture coordinate, and the
position as the third parameter. -/
def sampleSignature : List SigParameter :=
  [⟨"col", "COLOR0", 3, 3, 0⟩, ⟨"", "TEXCOORD0", 2, 3, 0⟩, ⟨"pos", "SV_Position", 4, 3, 1⟩]

/-- A sample raw table with the single attribute `tex`, of special encoding
BC1 and the nominal component count `n`. -/
def sampleSpecialTable (n : Nat) : BufferItemModel :=
  endReset { meshView := false, columns := [⟨"tex", ⟨eSpecial_BC1, n⟩, 0, 0, false, 1, false⟩] }

/-- For the sample decoders: the `float` with the given 32 bits, that is sign
bit, 8 exponent bits and 23 fraction bits. -/
def sampleFloatOfBits (u : Nat) : FloatBits :=
  ⟨u / 2147483648 % 2 == 1, u / 8388608 % 256, u % 8388608⟩

/-- For the sample decoders: the `int` with the given 32 bits, in two's
complement. -/
def sampleIntOfBits (u : Nat) : Int :=
  if u % 4294967296 < 2147483648 then (u % 4294967296 : Nat)
  else ((u % 4294967296 : Nat) : Int) - 4294967296

/-- A sample decoder like `sampleDecoder` for components of another type: `mk`
makes the variant from the 32 bits of a component. -/
def sampleTypedDecoder (mk : Nat → QVariant) : Decoder :=
  fun el mem data end_ =>
    if data + 4 * el.format.compCount ≤ end_ then
      (List.range el.format.compCount).map (fun c => mk (readUInt32 mem (data + 4 * c)))
    else []

/-- A sample raw table with the single attribute `s`, of the special encoding
`sf` and the nominal component count `n`. -/
def sampleAttributeTable (sf : SpecialFormat) (n : Nat) : BufferItemModel :=
  endReset { meshView := false, columns := [⟨"s", ⟨sf, n⟩, 0, 0, false, 1, false⟩] }

/-! ## Proofs -/

theorem cacheColumns_push_eq (i n : Nat) (acc : List Nat × List Nat) :
    cacheColumns_push i n acc = (acc.1 ++ List.replicate n i, acc.2 ++ List.range n) := by
  unfold cacheColumns_push
  induction n with
  | zero => simp
  | succ k ih =>
    rw [List.range_succ, List.foldl_append, ih]
    simp [List.replicate_succ', List.range_succ]

theorem cacheColumns_loop_prefix (columns : List FormatElement) (k : Nat)
    (hk : k ≤ columns.length) :
    (List.range k).foldl
      (fun a i =>
        match columns[i]? with
        | some fmt => cacheColumns_push i (cacheColumns_compCount fmt.format) a
        | none => a)
      ([], []) =
    (((columns.take k).enum).flatMap
        (fun p => List.replicate (cacheColumns_compCount p.2.format) p.1),
     ((columns.take k).enum).flatMap
        (fun p => List.range (cacheColumns_compCount p.2.format))) := by
  induction k with
  | zero => simp
  | succ k ih =>
    have hk1 : k < columns.length := hk
    rw [List.range_succ, List.foldl_append, ih (Nat.le_of_lt hk1)]
    have htake : columns.take (k + 1) = columns.take k ++ [columns[k]] := by
      rw [List.take_succ, List.getElem?_eq_getElem hk1]
      rfl
    have hlen : (columns.take k).length = k := by
      rw [List.length_take]
      exact Nat.min_eq_left (Nat.le_of_lt hk1)
    rw [htake, List.enum, List.enumFrom_append, List.flatMap_append, List.flatMap_append, hlen]
    simp [List.getElem?_eq_getElem hk1, cacheColumns_push_eq, List.enumFrom]

theorem cacheColumns_loop_eq (columns : List FormatElement) :
    cacheColumns_loop columns =
    (columns.enum.flatMap (fun p => List.replicate (cacheColumns_compCount p.2.format) p.1),
     columns.enum.flatMap (fun p => List.range (cacheColumns_compCount p.2.format))) := by
  have h := cacheColumns_loop_prefix columns columns.length (Nat.le_refl _)
  rw [List.take_length] at h
  exact h

theorem count_flatMap_replicate_enumFrom (g : FormatElement → Nat) (l : List FormatElement)
    (n i : Nat) :
    List.count i ((l.enumFrom n).flatMap (fun p => List.replicate (g p.2) p.1)) =
      match l[i - n]? with
      | some el => if n ≤ i then g el else 0
      | none => 0 := by
  induction l generalizing n with
  | nil => simp
  | cons a l ih =>
    simp only [List.enumFrom_cons, List.flatMap_cons, List.count_append, List.count_replicate, ih]
    rcases Nat.lt_trichotomy i n with hlt | heq | hgt
    · have h1 : ¬ n ≤ i := by omega
      have h2 : ¬ n + 1 ≤ i := by omega
      have h3 : ¬ n = i := by omega
      simp only [h1, h2, if_false, beq_iff_eq, h3]
      cases (a :: l)[i - n]? <;> cases l[i - (n + 1)]? <;> simp
    · subst heq
      have h2 : ¬ i + 1 ≤ i := by omega
      simp only [h2, if_false, Nat.sub_self, beq_self_eq_true, if_true, Nat.le_refl]
      cases l[i - (i + 1)]? <;> simp
    · have h1 : n ≤ i := by omega
      have h2 : n + 1 ≤ i := by omega
      have h3 : ¬ n = i := by omega
      have h4 : i - n = (i - (n + 1)) + 1 := by omega
      simp only [h1, h2, if_true, beq_iff_eq, h3, if_false, Nat.zero_add]
      rw [h4, List.getElem?_cons_succ]

theorem count_columnLookup (m : BufferItemModel) (i : Nat) (el : FormatElement)
    (h : m.columns[i]? = some el) :
    (cacheColumns m).columnLookup.count i = cacheColumns_compCount el.format := by
  have hc : (cacheColumns m).columnLookup = (cacheColumns_loop m.columns).1 := rfl
  rw [hc, cacheColumns_loop_eq]
  have := count_flatMap_replicate_enumFrom (fun e => cacheColumns_compCount e.format) m.columns 0 i
  simp only [Nat.sub_zero, h, Nat.zero_le, if_true] at this
  exact this

/-- C1: the number of table columns that `cacheColumns` emits for attribute `i`
(the entries of `columnLookup` equal to `i`) is 3 for BC6, ETC2, R11G11B10,
R5G6B5, R9G9B9E5; 4 for BC1, BC2, BC3, BC7, R10G10B10A2, R5G5B5A1, R4G4B4A4,
ASTC; 2 for BC5, R4G4, D16S8, D24S8, D32S8; 1 for BC4, S8, whatever the nominal
`compCount`; and the nominal `compCount` for YUV, EAC and no special encoding. -/
theorem cacheColumns_effective_component_count (m : BufferItemModel) (i : Nat)
    (el : FormatElement) (h : m.columns[i]? = some el) :
    (el.format.specialFormat ∈ [eSpecial_BC6, eSpecial_ETC2, eSpecial_R11G11B10,
        eSpecial_R5G6B5, eSpecial_R9G9B9E5] →
      (cacheColumns m).columnLookup.count i = 3) ∧
    (el.format.specialFormat ∈ [eSpecial_BC1, eSpecial_BC2, eSpecial_BC3, eSpecial_BC7,
        eSpecial_R10G10B10A2, eSpecial_R5G5B5A1, eSpecial_R4G4B4A4, eSpecial_ASTC] →
      (cacheColumns m).columnLookup.count i = 4) ∧
    (el.format.specialFormat ∈ [eSpecial_BC5, eSpecial_R4G4, eSpecial_D16S8,
        eSpecial_D24S8, eSpecial_D32S8] →
      (cacheColumns m).columnLookup.count i = 2) ∧
    (el.format.specialFormat ∈ [eSpecial_BC4, eSpecial_S8] →
      (cacheColumns m).columnLookup.count i = 1) ∧
    (el.format.specialFormat ∈ [eSpecial_YUV, eSpecial_EAC, eSpecial_Unknown] →
      (cacheColumns m).columnLookup.count i = el.format.compCount) := by
  rw [count_columnLookup m i el h]
  unfold cacheColumns_compCount
  generalize el.format = fmt
  rcases fmt with ⟨sf, cc⟩
  cases sf <;> simp

/-- Witness for C1: a BC1 attribute of nominal component count 2 gets 4 columns. -/
theorem cacheColumns_effective_component_count_witness :
    (cacheColumns
      { columns := [⟨"colour", ⟨eSpecial_BC1, 2⟩, 0, 0, false, 0, false⟩] }).columnLookup.count 0
      = 4 :=
  (cacheColumns_effective_component_count
    { columns := [⟨"colour", ⟨eSpecial_BC1, 2⟩, 0, 0, false, 0, false⟩] } 0
    ⟨"colour", ⟨eSpecial_BC1, 2⟩, 0, 0, false, 0, false⟩ rfl).2.1 (by decide)

theorem length_columnLookup (columns : List FormatElement) :
    (cacheColumns_loop columns).1.length =
      (columns.map (fun el => cacheColumns_compCount el.format)).sum := by
  rw [cacheColumns_loop_eq, List.length_flatMap]
  have h : (List.length ∘ fun p : Nat × FormatElement =>
      List.replicate (cacheColumns_compCount p.2.format) p.1) =
      (fun el : FormatElement => cacheColumns_compCount el.format) ∘ Prod.snd := by
    funext p
    simp
  rw [h, ← List.map_map, List.enum_map_snd]

/-- C2: after `endReset`, `columnCount()` is the sum over the attributes of
their effective component counts plus the reserved columns, 2 in mesh view
and 0 otherwise. A float32x3 attribute followed by a uint32 attribute in a
table without reserved columns has 4 columns; a BC1 attribute of nominal
count 1 has 4 columns, not 1. -/
theorem endReset_columnCount :
    (∀ m : BufferItemModel,
      columnCount (endReset m) =
        ((m.columns.map (fun el => cacheColumns_compCount el.format)).sum : Nat)
          + (if m.meshView then 2 else 0)) ∧
    columnCount (endReset
      { meshView := false
        columns := [⟨"pos", ⟨eSpecial_Unknown, 3⟩, 0, 0, false, 0, false⟩,
                    ⟨"id", ⟨eSpecial_Unknown, 1⟩, 0, 12, false, 0, true⟩] }) = 4 ∧
    columnCount (endReset
      { meshView := false
        columns := [⟨"tex", ⟨eSpecial_BC1, 1⟩, 0, 0, false, 0, false⟩] }) = 4 := by
  refine ⟨?_, by decide, by decide⟩
  intro m
  simp only [columnCount, endReset, cacheColumns, reservedColumnCount, length_columnLookup]

theorem zip_replicate_range (n i : Nat) :
    (List.replicate n i).zip (List.range n) = (List.range n).map (fun c => (i, c)) := by
  induction n with
  | zero => simp
  | succ k ih =>
    rw [List.replicate_succ', List.range_succ, List.zip_append (by simp), ih]
    simp

theorem zip_flatMap_flatMap {α β γ : Type} (l : List α) (f : α → List β) (g : α → List γ)
    (hfg : ∀ a, (f a).length = (g a).length) :
    (l.flatMap f).zip (l.flatMap g) = l.flatMap (fun a => (f a).zip (g a)) := by
  induction l with
  | nil => simp
  | cons a l ih =>
    simp only [List.flatMap_cons]
    rw [List.zip_append (hfg a), ih]

theorem zip_cacheColumns_loop (columns : List FormatElement) :
    (cacheColumns_loop columns).1.zip (cacheColumns_loop columns).2 =
      columns.enum.flatMap
        (fun p => (List.range (cacheColumns_compCount p.2.format)).map (fun c => (p.1, c))) := by
  rw [cacheColumns_loop_eq]
  simp only
  rw [zip_flatMap_flatMap _ _ _ (by intro a; simp)]
  simp only [zip_replicate_range]

theorem length_componentLookup (columns : List FormatElement) :
    (cacheColumns_loop columns).2.length = (cacheColumns_loop columns).1.length := by
  rw [cacheColumns_loop_eq]
  simp only [List.length_flatMap]
  congr 1
  apply List.map_congr_left
  intro a _
  simp

/-- C3: `cacheColumns` builds the flattened layout in attribute order.
`columnLookup` and `componentLookup` have the same length; read in parallel
they give, for attribute `i` = 0, 1, 2, ... in turn, the pairs `(i, 0)`, ...,
`(i, n_i - 1)`, with `n_i` the effective component count of attribute `i`;
for float4, float3, int they are `{0,0,0,0,1,1,1,2}` and `{0,1,2,3,0,1,2,0}`;
and a table column `col` at or after the reserved columns is resolved by the
pair at position `col - reservedColumnCount()`. -/
theorem cacheColumns_layout :
    (∀ m : BufferItemModel,
      (cacheColumns m).columnLookup.length = (cacheColumns m).componentLookup.length ∧
      (cacheColumns m).columnLookup.zip (cacheColumns m).componentLookup =
        m.columns.enum.flatMap
          (fun p => (List.range (cacheColumns_compCount p.2.format)).map (fun c => (p.1, c)))) ∧
    ((cacheColumns
        { columns := [⟨"a", ⟨eSpecial_Unknown, 4⟩, 0, 0, false, 0, false⟩,
                      ⟨"b", ⟨eSpecial_Unknown, 3⟩, 0, 16, false, 0, false⟩,
                      ⟨"c", ⟨eSpecial_Unknown, 1⟩, 0, 28, false, 0, false⟩] }).columnLookup
        = [0, 0, 0, 0, 1, 1, 1, 2] ∧
     (cacheColumns
        { columns := [⟨"a", ⟨eSpecial_Unknown, 4⟩, 0, 0, false, 0, false⟩,
                      ⟨"b", ⟨eSpecial_Unknown, 3⟩, 0, 16, false, 0, false⟩,
                      ⟨"c", ⟨eSpecial_Unknown, 1⟩, 0, 28, false, 0, false⟩] }).componentLookup
        = [0, 1, 2, 3, 0, 1, 2, 0]) ∧
    (∀ (m : BufferItemModel) (k : Nat),
      columnForIndex (cacheColumns m) (reservedColumnCount m + k) =
        ((cacheColumns m).columnLookup[k]?).bind (fun a => m.columns[a]?) ∧
      componentForIndex (cacheColumns m) (reservedColumnCount m + k) =
        (cacheColumns m).componentLookup[k]?) := by
  refine ⟨?_, ⟨by decide, by decide⟩, ?_⟩
  · intro m
    exact ⟨(length_componentLookup m.columns).symm, zip_cacheColumns_loop m.columns⟩
  · intro m k
    have hres : reservedColumnCount (cacheColumns m) = reservedColumnCount m := rfl
    have hk : ¬ (reservedColumnCount m + (k : Int) - reservedColumnCount m < 0) := by omega
    have hk2 : (reservedColumnCount m + (k : Int) - reservedColumnCount m).toNat = k := by omega
    constructor
    · simp only [columnForIndex, hres, hk, if_false, hk2]
      cases (cacheColumns m).columnLookup[k]? <;> rfl
    · simp only [componentForIndex, hres, hk, if_false, hk2]

/-- The pointer handed to the decoder is the sum of the start of the buffer,
the stride times the index, and the element offset, in the 64 bits of a
pointer; the index is `instIdx` for a per-instance element and `idx`
otherwise. -/
theorem data_data_eq (m : BufferItemModel) (el : FormatElement) (buf : BufferData)
    (idx : Nat) :
    data_data m el buf idx =
      (buf.data + buf.stride * (if el.perinstance then data_instIdx m el else idx)
        + el.offset) % 2 ^ 64 := by
  unfold data_data ptrAdd sizeMul
  cases el.perinstance
  · simp only [Bool.not_false, if_true, Bool.false_eq_true, if_false]
    generalize buf.stride * idx = t
    omega
  · simp only [Bool.not_true, Bool.false_eq_true, if_false, if_true]
    generalize buf.stride * data_instIdx m el = t
    omega

/-- The cell of a data column: when the row and column are in range, the
index buffer passes its check and the lookups and the buffer exist, `data`
is the formatted component `comp` of the list decoded at `data_data`. -/
theorem data_display_cell (F : Formatter) (gv : Decoder) (mem : Memory) (m : BufferItemModel)
    (index : QModelIndex) (el : FormatElement) (buf : BufferData) (comp : Nat)
    (hlo : reservedColumnCount m ≤ index.c) (hhi : index.c < m.m_ColumnCount)
    (hrow : toUInt32 index.r < m.numRows)
    (hidx : m.indices.data = 0 ∨ m.indices.data + toUInt32 index.r * 4 + 1 ≤ m.indices.end_)
    (hel : columnForIndex m index.c = some el) (hcomp : componentForIndex m index.c = some comp)
    (hbuf : m.buffers[el.buffer]? = some buf) :
    data_display F gv mem m index =
      match (gv el mem (data_data m el buf (data_idx mem m (toUInt32 index.r))) buf.end_)[comp]? with
      | none => some .Invalid
      | some v => some (.QString (data_ret F el v)) := by
  have h0 : 0 ≤ index.c := by
    unfold reservedColumnCount at hlo
    split at hlo <;> omega
  have hm0 : ¬ (index.c = 0 ∧ m.meshView = true) := by
    rintro ⟨hc, hm⟩
    simp only [reservedColumnCount, hm, if_true] at hlo
    omega
  have hm1 : ¬ (index.c = 1 ∧ m.meshView = true) := by
    rintro ⟨hc, hm⟩
    simp only [reservedColumnCount, hm, if_true] at hlo
    omega
  have hg : ¬ (m.indices.data ≠ 0 ∧ m.indices.data + toUInt32 index.r * 4 + 1 > m.indices.end_) := by
    rintro ⟨h1, h2⟩
    rcases hidx with h | h
    · exact h1 h
    · omega
  simp only [data_display, h0, hhi, hrow, and_self, if_true, hm0, hm1, hg, if_false, hel, hbuf,
    hcomp]

/-- C4: for a data column whose attribute names a valid buffer, the decoder is
called at the pointer `data + stride*idx + offset`: the sum in the 64 bits of
a pointer, which is the plain sum whenever that is below `2 ^ 64`. For a
per-vertex attribute `idx` is the index-buffer entry at the row, or the row
itself when there is no index buffer; for a per-instance attribute with
`instancerate > 0` it is `curInstance / instancerate`, whatever the row. -/
theorem data_decoder_position (F : Formatter) (gv : Decoder) (mem : Memory)
    (m : BufferItemModel) (index : QModelIndex) (el : FormatElement) (buf : BufferData)
    (comp : Nat) (hv : index.isValid = true)
    (hlo : reservedColumnCount m ≤ index.c) (hhi : index.c < m.m_ColumnCount)
    (hrow : toUInt32 index.r < m.numRows)
    (hidx : m.indices.data = 0 ∨ m.indices.data + toUInt32 index.r * 4 + 1 ≤ m.indices.end_)
    (hel : columnForIndex m index.c = some el) (hcomp : componentForIndex m index.c = some comp)
    (hbuf : m.buffers[el.buffer]? = some buf) :
    ∃ idx pos : Nat,
      (el.perinstance = false →
        idx = if m.indices.data = 0 then toUInt32 index.r
              else readUInt32 mem (m.indices.data + 4 * toUInt32 index.r)) ∧
      (el.perinstance = true → 0 < el.instancerate → idx = m.curInstance / el.instancerate) ∧
      pos = (buf.data + buf.stride * idx + el.offset) % 2 ^ 64 ∧
      (buf.data + buf.stride * idx + el.offset < 2 ^ 64 →
        pos = buf.data + buf.stride * idx + el.offset) ∧
      data F gv mem m index .DisplayRole =
        match (gv el mem pos buf.end_)[comp]? with
        | none => some .Invalid
        | some v => some (.QString (data_ret F el v)) := by
  have hcell := data_display_cell F gv mem m index el buf comp hlo hhi hrow hidx hel hcomp hbuf
  have hdata : data F gv mem m index .DisplayRole = data_display F gv mem m index := by
    simp only [data, hv, if_true]
  rw [hdata, hcell, data_data_eq]
  cases hp : el.perinstance with
  | false =>
    refine ⟨data_idx mem m (toUInt32 index.r), _, ?_, ?_, rfl, ?_, ?_⟩
    · intro _
      unfold data_idx
      by_cases h : m.indices.data = 0
      · simp [h]
      · simp [h, Nat.mul_comm]
    · intro h
      exact absurd h (by simp)
    · intro h
      exact Nat.mod_eq_of_lt h
    · simp only [Bool.false_eq_true, if_false]
  | true =>
    refine ⟨data_instIdx m el, _, ?_, ?_, rfl, ?_, ?_⟩
    · intro h
      exact absurd h (by simp)
    · intro _ hr
      simp [data_instIdx, hr]
    · intro h
      exact Nat.mod_eq_of_lt h
    · simp only [if_true]

/-- Witness for C4: column 3 of row 1 of the raw sample table is decoded at
`4096 + 16 * 1 + 12`; and with the stride `2 ^ 64 - 16` in place of 16 the
pointer passes `2 ^ 64` and the same cell is decoded at `4096 - 4`, below the
buffer. -/
theorem data_decoder_position_witness :
    (∃ idx pos : Nat,
      (false = false → idx = if (endReset sampleRawModel).indices.data = 0 then toUInt32 1
              else readUInt32 sampleMemory ((endReset sampleRawModel).indices.data + 4 * toUInt32 1)) ∧
      (false = true → 0 < 0 → idx = (endReset sampleRawModel).curInstance / 0) ∧
      pos = (4096 + 16 * idx + 12) % 2 ^ 64 ∧
      (4096 + 16 * idx + 12 < 2 ^ 64 → pos = 4096 + 16 * idx + 12) ∧
      data sampleFormatter sampleDecoder sampleMemory (endReset sampleRawModel) ⟨1, 3, true⟩
          .DisplayRole =
        match (sampleDecoder ⟨"id", ⟨eSpecial_Unknown, 1⟩, 0, 12, false, 0, true⟩ sampleMemory
                pos 4128)[0]? with
        | none => some .Invalid
        | some v => some (.QString (data_ret sampleFormatter
            ⟨"id", ⟨eSpecial_Unknown, 1⟩, 0, 12, false, 0, true⟩ v))) ∧
    data sampleFormatter sampleDecoder sampleMemory
        (endReset { sampleRawModel with buffers := [⟨4096, 4128, 18446744073709551600⟩] })
        ⟨1, 3, true⟩ .DisplayRole =
      match (sampleDecoder sampleElement sampleMemory 4092 4128)[0]? with
      | none => some .Invalid
      | some v => some (.QString (data_ret sampleFormatter sampleElement v)) := by
  refine ⟨data_decoder_position sampleFormatter sampleDecoder sampleMemory
    (endReset sampleRawModel) ⟨1, 3, true⟩ ⟨"id", ⟨eSpecial_Unknown, 1⟩, 0, 12, false, 0, true⟩
    ⟨4096, 4128, 16⟩ 0 (by decide) (by decide) (by decide) (by decide) (by decide) (by decide)
    (by decide) (by decide), ?_⟩
  obtain ⟨idx, pos, h1, -, h3, -, h5⟩ := data_decoder_position sampleFormatter sampleDecoder
    sampleMemory (endReset { sampleRawModel with buffers := [⟨4096, 4128, 18446744073709551600⟩] })
    ⟨1, 3, true⟩ sampleElement ⟨4096, 4128, 18446744073709551600⟩ 0
    (by decide) (by decide) (by decide) (by decide) (by decide) (by decide) (by decide) (by decide)
  have hidx : idx = 1 := (h1 rfl).trans (by decide)
  have hpos : pos = 4092 := by
    rw [h3, hidx]
    decide
  rw [h5, hpos]

theorem endReset_fields (m : BufferItemModel) :
    (endReset m).meshView = m.meshView ∧ (endReset m).numRows = m.numRows ∧
    (endReset m).indices = m.indices ∧ (endReset m).columns = m.columns ∧
    (endReset m).buffers = m.buffers ∧ (endReset m).curInstance = m.curInstance ∧
    (endReset m).columnLookup = (cacheColumns_loop m.columns).1 ∧
    (endReset m).componentLookup = (cacheColumns_loop m.columns).2 ∧
    (endReset m).m_ColumnCount =
      ((cacheColumns_loop m.columns).1.length : Int) + reservedColumnCount m ∧
    reservedColumnCount (endReset m) = reservedColumnCount m :=
  ⟨rfl, rfl, rfl, rfl, rfl, rfl, rfl, rfl, rfl, rfl⟩

theorem data_eq_data_display (F : Formatter) (gv : Decoder) (mem : Memory)
    (m : BufferItemModel) (index : QModelIndex) (hv : index.isValid = true) :
    data F gv mem m index .DisplayRole = data_display F gv mem m index := by
  simp only [data, hv, if_true]

theorem first_column_lookup (el : FormatElement) (rest : List FormatElement)
    (hn : 0 < cacheColumns_compCount el.format) :
    (cacheColumns_loop (el :: rest)).1[0]? = some 0 ∧
    (cacheColumns_loop (el :: rest)).2[0]? = some 0 := by
  obtain ⟨k, hk⟩ := Nat.exists_eq_succ_of_ne_zero (Nat.pos_iff_ne_zero.mp hn)
  rw [cacheColumns_loop_eq]
  simp [List.enum, List.enumFrom, hk, List.replicate_succ, List.range_succ_eq_map]

/-- C5: in mesh view, for every row below `numRows`, column 0 of `data` is the
row number and column 1 is the `uint32_t` stored at position `row` of the
index buffer, or the row itself when there is no index buffer. In a non-mesh
view no column is reserved: column 0 resolves component 0 of the first
attribute. With the index buffer `{0, 1000000}` over 2 rows, row 1, column 1
is 1000000. -/
theorem data_reserved_columns :
    (∀ (F : Formatter) (gv : Decoder) (mem : Memory) (m : BufferItemModel) (index : QModelIndex),
      index.isValid = true → m.meshView = true → toUInt32 index.r < m.numRows →
      (index.c = 0 →
        data F gv mem (endReset m) index .DisplayRole = some (.UInt (toUInt32 index.r))) ∧
      (index.c = 1 → m.indices.data = 0 →
        data F gv mem (endReset m) index .DisplayRole = some (.UInt (toUInt32 index.r))) ∧
      (index.c = 1 → m.indices.data ≠ 0 →
        m.indices.data + 4 * toUInt32 index.r + 4 ≤ m.indices.end_ →
        data F gv mem (endReset m) index .DisplayRole =
          some (.UInt (readUInt32 mem (m.indices.data + 4 * toUInt32 index.r))))) ∧
    (∀ (F : Formatter) (gv : Decoder) (mem : Memory) (m : BufferItemModel) (index : QModelIndex)
      (el : FormatElement) (rest : List FormatElement) (buf : BufferData),
      index.isValid = true → m.meshView = false → toUInt32 index.r < m.numRows →
      (m.indices.data = 0 ∨ m.indices.data + toUInt32 index.r * 4 + 1 ≤ m.indices.end_) →
      m.columns = el :: rest → 0 < cacheColumns_compCount el.format →
      m.buffers[el.buffer]? = some buf → index.c = 0 →
      reservedColumnCount (endReset m) = 0 ∧
      data F gv mem (endReset m) index .DisplayRole =
        match (gv el mem (data_data m el buf (data_idx mem m (toUInt32 index.r)))
                buf.end_)[0]? with
        | none => some .Invalid
        | some v => some (.QString (data_ret F el v))) ∧
    data sampleFormatter sampleDecoder sampleMemory (endReset sampleMeshModel) ⟨1, 1, true⟩
      .DisplayRole = some (.UInt 1000000) := by
  refine ⟨?_, ?_, by decide⟩
  · intro F gv mem m index hv hmesh hrow
    obtain ⟨hmv, hnr, hind, -, -, -, -, -, hcc, -⟩ := endReset_fields m
    have hcount : (2 : Int) ≤ (endReset m).m_ColumnCount := by
      rw [hcc]
      simp only [reservedColumnCount, hmesh, if_true]
      omega
    rw [data_eq_data_display F gv mem _ index hv]
    refine ⟨?_, ?_, ?_⟩
    · intro hc
      have h1 : index.c < (endReset m).m_ColumnCount := by omega
      simp [data_display, hc, hmv, hmesh, hnr, hrow, hc ▸ h1]
    · intro hc hnull
      have h1 : (1 : Int) < (endReset m).m_ColumnCount := by omega
      simp [data_display, data_idx, hc, hmv, hmesh, hnr, hrow, h1, hind, hnull]
    · intro hc hnn hin
      have h1 : (1 : Int) < (endReset m).m_ColumnCount := by omega
      have hg : ¬ (m.indices.end_ < m.indices.data + toUInt32 index.r * 4 + 1) := by omega
      simp [data_display, data_idx, hc, hmv, hmesh, hnr, hrow, h1, hind, hnn, hg, Nat.mul_comm]
  · intro F gv mem m index el rest buf hv hmesh hrow hnull hcols hn hbuf hc
    obtain ⟨hmv, hnr, hind, hcl, hbf, -, hlk, hcl2, hcc, hres⟩ := endReset_fields m
    have hr0 : reservedColumnCount m = 0 := by simp [reservedColumnCount, hmesh]
    obtain ⟨hl1, hl2⟩ := first_column_lookup el rest hn
    have hlen : 0 < (cacheColumns_loop (el :: rest)).1.length := by
      rcases List.getElem?_eq_some.mp hl1 with ⟨h, -⟩
      exact h
    refine ⟨by rw [hres, hr0], ?_⟩
    have hcell := data_display_cell F gv mem (endReset m) index el buf 0
      (by rw [hres, hr0, hc])
      (by rw [hcc, hr0, hc, hcols]; omega)
      (by rw [hnr]; exact hrow)
      (by rw [hind]; exact hnull)
      (by simp [columnForIndex, hres, hr0, hc, hlk, hcols, hl1, hcl])
      (by simp [componentForIndex, hres, hr0, hc, hcl2, hcols, hl2])
      (by rw [hbf]; exact hbuf)
    rw [data_eq_data_display F gv mem _ index hv, hcell]
    rfl

/-- Witness for C5: rows and columns of the mesh sample table and of the raw
sample table. -/
theorem data_reserved_columns_witness :
    data sampleFormatter sampleDecoder sampleMemory (endReset sampleMeshModel) ⟨1, 0, true⟩
      .DisplayRole = some (.UInt (toUInt32 1)) ∧
    data sampleFormatter sampleDecoder sampleMemory (endReset sampleMeshModel) ⟨1, 1, true⟩
      .DisplayRole = some (.UInt (readUInt32 sampleMemory (256 + 4 * toUInt32 1))) ∧
    (reservedColumnCount (endReset sampleRawModel) = 0 ∧
      data sampleFormatter sampleDecoder sampleMemory (endReset sampleRawModel) ⟨1, 0, true⟩
        .DisplayRole =
        match (sampleDecoder ⟨"pos", ⟨eSpecial_Unknown, 3⟩, 0, 0, false, 0, false⟩ sampleMemory
          (data_data sampleRawModel ⟨"pos", ⟨eSpecial_Unknown, 3⟩, 0, 0, false, 0, false⟩
            ⟨4096, 4128, 16⟩ (data_idx sampleMemory sampleRawModel (toUInt32 1))) 4128)[0]? with
        | none => some .Invalid
        | some v => some (.QString (data_ret sampleFormatter
            ⟨"pos", ⟨eSpecial_Unknown, 3⟩, 0, 0, false, 0, false⟩ v))) :=
  ⟨(data_reserved_columns.1 sampleFormatter sampleDecoder sampleMemory sampleMeshModel
      ⟨1, 0, true⟩ (by decide) (by decide) (by decide)).1 (by decide),
   (data_reserved_columns.1 sampleFormatter sampleDecoder sampleMemory sampleMeshModel
      ⟨1, 1, true⟩ (by decide) (by decide) (by decide)).2.2 (by decide) (by decide) (by decide),
   data_reserved_columns.2.1 sampleFormatter sampleDecoder sampleMemory sampleRawModel
      ⟨1, 0, true⟩ ⟨"pos", ⟨eSpecial_Unknown, 3⟩, 0, 0, false, 0, false⟩
      [⟨"id", ⟨eSpecial_Unknown, 1⟩, 0, 12, false, 0, true⟩] ⟨4096, 4128, 16⟩
      (by decide) (by decide) (by decide) (by decide) (by decide) (by decide) (by decide)
      (by decide)⟩

/-- The one-byte check of the index buffer agrees with a four-byte check when
the buffer holds a whole number of `uint32_t` entries. -/
theorem index_check_of_whole_entries (dataPtr n row : Nat) :
    dataPtr + row * 4 + 1 ≤ dataPtr + 4 * n ↔ dataPtr + row * 4 + 4 ≤ dataPtr + 4 * n := by
  omega

/-- The loop over the bound vertex buffers leaves the index buffer alone. -/
theorem RT_FetchMeshData_buffers_indices (ev : EventInputs) (m : BufferItemModel) :
    (RT_FetchMeshData_buffers ev m).indices = m.indices := by
  unfold RT_FetchMeshData_buffers
  generalize ev.vbs.enum = l
  induction l generalizing m with
  | nil => rfl
  | cons p rest ih =>
    rw [List.foldl_cons, ih]

/-- Every writer of the index buffer leaves it null or an array of whole
`uint32_t` entries: `RT_FetchMeshData` allocates `new uint32_t[numIndices]`,
`CalcColumnWidth` allocates `sizeof(uint32_t) * 2` bytes, `ClearModels` and
the constructor store the default `BufferData`. -/
theorem indices_whole_entries (ev : EventInputs) (m : BufferItemModel) :
    (∃ n, (RT_FetchMeshData ev m).indices.end_ = (RT_FetchMeshData ev m).indices.data + 4 * n) ∧
    (∃ n, (CalcColumnWidth ev m).indices.end_ = (CalcColumnWidth ev m).indices.data + 4 * n) ∧
    (∃ n, (ClearModels m).indices.end_ = (ClearModels m).indices.data + 4 * n) ∧
    (∃ n, (OnEventChanged_mesh ev m).indices.end_
      = (OnEventChanged_mesh ev m).indices.data + 4 * n) ∧
    (∃ n, ({} : BufferItemModel).indices.end_ = ({} : BufferItemModel).indices.data + 4 * n) := by
  have hfetch : ∀ m0 : BufferItemModel, (RT_FetchMeshData ev m0).indices =
      match ev.draw with
      | some d =>
        if d.2 ≠ 0 ∧ ev.idataCount ≠ 0 then ⟨ev.indexAddr, ev.indexAddr + 4 * d.1, 0⟩ else {}
      | none => {} := by
    intro m0
    unfold RT_FetchMeshData
    rw [RT_FetchMeshData_buffers_indices]
  have hwhole : ∀ m0 : BufferItemModel,
      ∃ n, (RT_FetchMeshData ev m0).indices.end_ = (RT_FetchMeshData ev m0).indices.data + 4 * n := by
    intro m0
    rw [hfetch m0]
    cases ev.draw with
    | none => exact ⟨0, rfl⟩
    | some d =>
      by_cases h : d.2 ≠ 0 ∧ ev.idataCount ≠ 0
      · simp only [h, ne_eq, not_false_eq_true, and_self, if_true]
        exact ⟨d.1, rfl⟩
      · simp only [h, if_false]
        exact ⟨0, rfl⟩
  exact ⟨hwhole m, ⟨2, rfl⟩, ⟨0, rfl⟩, hwhole _, ⟨0, rfl⟩⟩

/-- The index load of a row that passes the check reads inside the buffer:
two memories that agree on the bytes of a buffer of whole entries give the
same index. -/
theorem data_idx_inside (mem mem2 : Memory) (m : BufferItemModel) (row n : Nat)
    (hw : m.indices.end_ = m.indices.data + 4 * n)
    (hg : m.indices.data + row * 4 + 1 ≤ m.indices.end_)
    (hmem : ∀ a, m.indices.data ≤ a → a < m.indices.end_ → mem a = mem2 a) :
    data_idx mem m row = data_idx mem2 m row := by
  unfold data_idx
  by_cases h0 : m.indices.data = 0
  · simp only [h0, ne_eq, not_true_eq_false, if_false]
  · simp only [h0, ne_eq, not_false_eq_true, if_true]
    unfold readUInt32 readByte
    rw [hmem _ (by omega) (by omega), hmem _ (by omega) (by omega),
      hmem _ (by omega) (by omega), hmem _ (by omega) (by omega)]

/-- C6: for every index buffer as the writers build it, `n` whole `uint32_t`
entries, so `N = 4 * n` bytes, and every row: when the 4-byte range of the row
does not lie inside the buffer (`4 * row + 4 > N`), `data` returns no value
for every column that consults the index (all but the row-number column of a
mesh view); when it does, column 1 of a mesh view is the `uint32_t` at
`4 * row`; and `data` never reads an index byte at or beyond `data + N`:
with the decoder's own reads set apart, two memories that agree on the bytes
`[data, data + N)` give the same result for every role. -/
theorem data_index_within_buffer (F : Formatter)
    (g : FormatElement → Nat → Nat → List QVariant) (gv : Decoder) (mem mem2 : Memory)
    (m : BufferItemModel) (index : QModelIndex) (n : Nat)
    (hnn : m.indices.data ≠ 0) (hw : m.indices.end_ = m.indices.data + 4 * n) :
    (¬ (index.c = 0 ∧ m.meshView = true) → 4 * toUInt32 index.r + 4 > 4 * n →
      data F gv mem m index .DisplayRole = some .Invalid) ∧
    (index.isValid = true → index.c = 1 → m.meshView = true → 1 < m.m_ColumnCount →
      toUInt32 index.r < m.numRows → 4 * toUInt32 index.r + 4 ≤ 4 * n →
      data F gv mem m index .DisplayRole
        = some (.UInt (readUInt32 mem (m.indices.data + 4 * toUInt32 index.r)))) ∧
    ((∀ a, m.indices.data ≤ a → a < m.indices.data + 4 * n → mem a = mem2 a) →
      ∀ role, data F (fun el _ p e => g el p e) mem m index role
        = data F (fun el _ p e => g el p e) mem2 m index role) := by
  refine ⟨?_, ?_, ?_⟩
  · intro hc hout
    have hg : m.indices.data + toUInt32 index.r * 4 + 1 > m.indices.end_ := by omega
    unfold data
    by_cases hv : index.isValid = true
    · simp only [hv, if_true, data_display, hc, if_false, hnn, ne_eq, not_false_eq_true, hg,
        and_self, ite_self]
    · simp only [hv, Bool.false_eq_true, if_false]
  · intro hv hc hmesh hcc hrow hin
    have hg : ¬ (m.indices.data + toUInt32 index.r * 4 + 1 > m.indices.end_) := by omega
    have h0 : ¬ ((1 : Int) = 0 ∧ m.meshView = true) := by
      rintro ⟨h, -⟩
      exact absurd h (by decide)
    simp only [data, hv, if_true, data_display, hc, hcc, hrow, hmesh, and_self, h0, if_false,
      hg, and_false, data_idx, hnn, ne_eq, not_false_eq_true, Nat.mul_comm, Int.reduceLE,
      true_and]
    rw [if_neg (by decide)]
  · intro hmem role
    have hdisp : data_display F (fun el _ p e => g el p e) mem m index
        = data_display F (fun el _ p e => g el p e) mem2 m index := by
      by_cases hg : m.indices.data + toUInt32 index.r * 4 + 1 > m.indices.end_
      · simp only [data_display, hnn, ne_eq, not_false_eq_true, hg, and_self, if_true]
      · have hidx := data_idx_inside mem mem2 m (toUInt32 index.r) n hw (by omega)
          (by
            intro a h1 h2
            exact hmem a h1 (by omega))
        simp only [data_display, hidx]
    unfold data
    rw [hdisp]

/-- Witness for C6: the mesh sample table has an index buffer of two entries
at `[256, 264)`. With three rows, row 2 of column 1 has no value; row 1 of
column 1 is the entry loaded at `256 + 4`; and changing the byte at address
264, the first one after the buffer, changes no cell. -/
theorem data_index_within_buffer_witness :
    data sampleFormatter sampleDecoder sampleMemory
      (endReset { sampleMeshModel with numRows := 3 }) ⟨2, 1, true⟩ .DisplayRole
      = some .Invalid ∧
    data sampleFormatter sampleDecoder sampleMemory (endReset sampleMeshModel) ⟨1, 1, true⟩
      .DisplayRole = some (.UInt (readUInt32 sampleMemory (256 + 4 * toUInt32 1))) ∧
    (∀ role, data sampleFormatter (fun el _ p e => sampleDecoder el (fun _ => 0) p e)
        sampleMemory (endReset sampleMeshModel) ⟨1, 3, true⟩ role
      = data sampleFormatter (fun el _ p e => sampleDecoder el (fun _ => 0) p e)
        (fun a => if a = 264 then 7 else sampleMemory a) (endReset sampleMeshModel)
        ⟨1, 3, true⟩ role) :=
  ⟨(data_index_within_buffer sampleFormatter (fun _ _ _ => []) sampleDecoder sampleMemory
      sampleMemory (endReset { sampleMeshModel with numRows := 3 }) ⟨2, 1, true⟩ 2
      (by decide) (by decide)).1 (by decide) (by decide),
   (data_index_within_buffer sampleFormatter (fun _ _ _ => []) sampleDecoder sampleMemory
      sampleMemory (endReset sampleMeshModel) ⟨1, 1, true⟩ 2
      (by decide) (by decide)).2.1 (by decide) (by decide) (by decide) (by decide) (by decide)
      (by decide),
   (data_index_within_buffer sampleFormatter (fun el p e => sampleDecoder el (fun _ => 0) p e)
      sampleDecoder sampleMemory (fun a => if a = 264 then 7 else sampleMemory a)
      (endReset sampleMeshModel) ⟨1, 3, true⟩ 2 (by decide) (by decide)).2.2
      (by
        intro a _ h2
        have hne : a ≠ 264 := by
          have h3 : a < 264 := h2
          omega
        simp only [hne, if_false])⟩

theorem mem_columnLookup_lt (columns : List FormatElement) (a : Nat)
    (h : a ∈ (cacheColumns_loop columns).1) : a < columns.length := by
  rw [cacheColumns_loop_eq] at h
  simp only at h
  obtain ⟨p, hp, ha⟩ := List.mem_flatMap.mp h
  rw [(List.mem_replicate.mp ha).2]
  exact List.fst_lt_of_mem_enum hp

theorem lookups_endReset (m : BufferItemModel) (col : Int)
    (hlo : reservedColumnCount m ≤ col) (hhi : col < (endReset m).m_ColumnCount) :
    (∃ el, columnForIndex (endReset m) col = some el) ∧
    (∃ comp, componentForIndex (endReset m) col = some comp) := by
  obtain ⟨-, -, -, hcl, -, -, hlk, hcl2, hcc, hres⟩ := endReset_fields m
  have hk0 : ¬ (col - reservedColumnCount m < 0) := by omega
  have hk : (col - reservedColumnCount m).toNat < (cacheColumns_loop m.columns).1.length := by
    rw [hcc] at hhi
    omega
  have hk2 : (col - reservedColumnCount m).toNat < (cacheColumns_loop m.columns).2.length := by
    rw [length_componentLookup]
    exact hk
  have ha : (cacheColumns_loop m.columns).1[(col - reservedColumnCount m).toNat] < m.columns.length :=
    mem_columnLookup_lt m.columns _ (List.getElem_mem hk)
  constructor
  · refine ⟨m.columns[(cacheColumns_loop m.columns).1[(col - reservedColumnCount m).toNat]], ?_⟩
    simp only [columnForIndex, hres, hk0, if_false, hlk, List.getElem?_eq_getElem hk, hcl,
      List.getElem?_eq_getElem ha]
  · refine ⟨(cacheColumns_loop m.columns).2[(col - reservedColumnCount m).toNat], ?_⟩
    simp only [componentForIndex, hres, hk0, if_false, hcl2, List.getElem?_eq_getElem hk2]

theorem data_display_no_fault (F : Formatter) (gv : Decoder) (mem : Memory)
    (m : BufferItemModel) (index : QModelIndex) :
    data_display F gv mem (endReset m) index ≠ none := by
  obtain ⟨hmv, -, -, -, -, -, -, -, -, hres⟩ := endReset_fields m
  unfold data_display
  simp only
  split_ifs with h1 h2 h3 h4
  · simp
  · simp
  · simp
  · have hlo : reservedColumnCount m ≤ index.c := by
      unfold reservedColumnCount
      rw [hmv] at h2 h4
      by_cases hm : m.meshView = true
      · simp only [hm, if_true]
        have h20 : index.c ≠ 0 := fun h => h2 ⟨h, hm⟩
        have h21 : index.c ≠ 1 := fun h => h4 ⟨h, hm⟩
        omega
      · simp only [hm, if_false]
        exact h1.1
    obtain ⟨⟨el, hel⟩, ⟨comp, hcomp⟩⟩ := lookups_endReset m index.c hlo h1.2.1
    rw [hel]
    simp only
    cases (endReset m).buffers[el.buffer]? with
    | none => simp
    | some buf =>
      simp only [hcomp]
      split <;> simp
  · simp

theorem data_no_fault (F : Formatter) (gv : Decoder) (mem : Memory)
    (m : BufferItemModel) (index : QModelIndex) (role : ItemDataRole) :
    data F gv mem (endReset m) index role ≠ none := by
  have h := data_display_no_fault F gv mem m index
  by_cases hv : index.isValid = true
  · cases role with
    | DisplayRole =>
      rw [data_eq_data_display F gv mem _ index hv]
      exact h
    | SizeHintRole =>
      simp only [data, hv, if_true]
      by_cases hc : index.c < 2 ∧ (endReset m).meshView = true
      · simp [hc]
      · simp only [hc, if_false]
        cases hd : data_display F gv mem (endReset m) index with
        | none => exact absurd hd h
        | some v => simp
    | OtherRole => simp [data, hv]
  · simp [data, hv]

/-- C7: after `endReset`, `data` for the display role reads inside its lists
(the result is never the fault `none`), and it is the empty `QVariant()`
whenever the row is not below `numRows`, the column is negative or not below
the column count, the attribute of the column names a buffer outside the
buffer list, or the decoded list has no element at the component index of
the column. -/
theorem data_no_value (F : Formatter) (gv : Decoder) (mem : Memory)
    (m : BufferItemModel) (index : QModelIndex) :
    data F gv mem (endReset m) index .DisplayRole ≠ none ∧
    ((m.numRows ≤ toUInt32 index.r ∨ index.c < 0 ∨ columnCount (endReset m) ≤ index.c ∨
      (∃ el, columnForIndex (endReset m) index.c = some el ∧ m.buffers.length ≤ el.buffer) ∨
      (∃ el buf comp, columnForIndex (endReset m) index.c = some el ∧
        m.buffers[el.buffer]? = some buf ∧ componentForIndex (endReset m) index.c = some comp ∧
        (gv el mem (data_data m el buf (data_idx mem m (toUInt32 index.r))) buf.end_).length
          ≤ comp)) →
      data F gv mem (endReset m) index .DisplayRole = some .Invalid) := by
  refine ⟨data_no_fault F gv mem m index .DisplayRole, ?_⟩
  obtain ⟨hmv, hnr, hind, hcl, hbf, -, hlk, hcl2, hcc, hres⟩ := endReset_fields m
  intro hcond
  by_cases hv : index.isValid = true
  swap
  · simp [data, hv]
  rw [data_eq_data_display F gv mem _ index hv]
  -- the three range conditions
  by_cases hrange : 0 ≤ index.c ∧ index.c < (endReset m).m_ColumnCount ∧
      toUInt32 index.r < (endReset m).numRows
  swap
  · simp only [data_display, hrange, if_false]
  obtain ⟨hc0, hc1, hr⟩ := hrange
  rw [hnr] at hr
  rcases hcond with h | h | h | ⟨el, hel, hb⟩ | ⟨el, buf, comp, hel, hb, hcomp, hlen⟩
  · omega
  · omega
  · unfold columnCount at h
    omega
  · -- the attribute names no buffer
    have hlo : reservedColumnCount (endReset m) ≤ index.c := by
      unfold columnForIndex at hel
      by_contra hneg
      have : index.c - reservedColumnCount (endReset m) < 0 := by omega
      simp [this] at hel
    by_cases hg : (endReset m).indices.data = 0 ∨
        (endReset m).indices.data + toUInt32 index.r * 4 + 1 ≤ (endReset m).indices.end_
    · obtain ⟨-, ⟨comp, hcomp⟩⟩ := lookups_endReset m index.c (hres ▸ hlo) hc1
      have hm0 : ¬ (index.c = 0 ∧ (endReset m).meshView = true) := by
        rintro ⟨hc, hm⟩
        simp only [reservedColumnCount, hm, if_true] at hlo
        omega
      have hm1 : ¬ (index.c = 1 ∧ (endReset m).meshView = true) := by
        rintro ⟨hc, hm⟩
        simp only [reservedColumnCount, hm, if_true] at hlo
        omega
      have hg2 : ¬ ((endReset m).indices.data ≠ 0 ∧
          (endReset m).indices.data + toUInt32 index.r * 4 + 1 > (endReset m).indices.end_) := by
        rintro ⟨h1, h2⟩
        rcases hg with h | h
        · exact h1 h
        · omega
      have hnone : (endReset m).buffers[el.buffer]? = none := by
        rw [hbf]
        exact List.getElem?_eq_none hb
      simp only [data_display, hc0, hc1, hnr, hr, and_self, if_true, hm0, hm1, hg2, if_false,
        hel, hnone]
    · have hm0 : ¬ (index.c = 0 ∧ (endReset m).meshView = true) := by
        rintro ⟨hc, hm⟩
        simp only [reservedColumnCount, hm, if_true] at hlo
        omega
      have hg2 : (endReset m).indices.data ≠ 0 ∧
          (endReset m).indices.data + toUInt32 index.r * 4 + 1 > (endReset m).indices.end_ := by
        constructor
        · intro h0
          exact hg (Or.inl h0)
        · by_contra h1
          exact hg (Or.inr (by omega))
      simp only [data_display, hc0, hc1, hnr, hr, and_self, if_true, hm0, if_false]
      rw [if_pos hg2]
  · -- the decoded list is too short
    have hlo : reservedColumnCount (endReset m) ≤ index.c := by
      unfold columnForIndex at hel
      by_contra hneg
      have : index.c - reservedColumnCount (endReset m) < 0 := by omega
      simp [this] at hel
    have hm0 : ¬ (index.c = 0 ∧ (endReset m).meshView = true) := by
      rintro ⟨hc, hm⟩
      simp only [reservedColumnCount, hm, if_true] at hlo
      omega
    by_cases hg : (endReset m).indices.data = 0 ∨
        (endReset m).indices.data + toUInt32 index.r * 4 + 1 ≤ (endReset m).indices.end_
    · have hcell := data_display_cell F gv mem (endReset m) index el buf comp hlo hc1
        (by rw [hnr]; exact hr) hg hel hcomp (by rw [hbf]; exact hb)
      rw [hcell]
      have hnone : (gv el mem (data_data (endReset m) el buf
          (data_idx mem (endReset m) (toUInt32 index.r))) buf.end_)[comp]? = none :=
        List.getElem?_eq_none hlen
      rw [hnone]
    · have hg2 : (endReset m).indices.data ≠ 0 ∧
          (endReset m).indices.data + toUInt32 index.r * 4 + 1 > (endReset m).indices.end_ := by
        constructor
        · intro h0
          exact hg (Or.inl h0)
        · by_contra h1
          exact hg (Or.inr (by omega))
      simp only [data_display, hc0, hc1, hnr, hr, and_self, if_true, hm0, if_false]
      rw [if_pos hg2]

/-- Witness for C7: in the raw sample table with its buffer cut to 30 bytes,
the decoder finds too few bytes for column 3 of row 1 and the cell is empty. -/
theorem data_no_value_witness :
    data sampleFormatter sampleDecoder sampleMemory
      (endReset { sampleRawModel with buffers := [⟨4096, 4126, 16⟩] }) ⟨1, 3, true⟩
      .DisplayRole = some .Invalid :=
  (data_no_value sampleFormatter sampleDecoder sampleMemory
    { sampleRawModel with buffers := [⟨4096, 4126, 16⟩] } ⟨1, 3, true⟩).2
    (Or.inr (Or.inr (Or.inr (Or.inr
      ⟨⟨"id", ⟨eSpecial_Unknown, 1⟩, 0, 12, false, 0, true⟩, ⟨4096, 4126, 16⟩, 0,
        by decide, by decide, by decide, by decide⟩))))

/-- The `ret` string of a floating-point component `v`, `double` or `float`:
the four branches on `v < 0`, `v > 0`, NaN and zero. -/
theorem data_ret_floating (F : Formatter) (el : FormatElement) (v : FloatBits) :
    (v.ltZero doubleExpMax = true → data_ret F el (.Double v) = F.FormatDouble v) ∧
    (v.gtZero doubleExpMax = true → data_ret F el (.Double v) = " " ++ F.FormatDouble v) ∧
    (qIsNaN doubleExpMax v = true → data_ret F el (.Double v) = " NaN") ∧
    (v.isZero = true → data_ret F el (.Double v) = " " ++ F.FormatDouble FloatBits.zero) ∧
    (v.ltZero floatExpMax = true → data_ret F el (.Float v) = F.FormatFloat v) ∧
    (v.gtZero floatExpMax = true → data_ret F el (.Float v) = " " ++ F.FormatFloat v) ∧
    (qIsNaN floatExpMax v = true → data_ret F el (.Float v) = " NaN") ∧
    (v.isZero = true → data_ret F el (.Float v) = " " ++ F.FormatDouble FloatBits.zero) ∧
    data_ret F el (.Double ⟨false, 0, 0⟩) = data_ret F el (.Double ⟨true, 0, 0⟩) ∧
    data_ret F el (.Float ⟨false, 0, 0⟩) = data_ret F el (.Float ⟨true, 0, 0⟩) := by
  rcases v with ⟨s, e, f⟩
  refine ⟨?_, ?_, ?_, ?_, ?_, ?_, ?_, ?_, ?_, ?_⟩
  · intro h
    simp only [data_ret, h, if_true]
  · intro h
    have h1 : FloatBits.ltZero doubleExpMax ⟨s, e, f⟩ = false := by
      simp only [FloatBits.gtZero, FloatBits.ltZero] at h ⊢
      cases s <;> simp_all
    simp only [data_ret, h, h1, if_true]
    simp
  · intro h
    have h1 : FloatBits.ltZero doubleExpMax ⟨s, e, f⟩ = false := by
      simp [FloatBits.ltZero, h]
    have h2 : FloatBits.gtZero doubleExpMax ⟨s, e, f⟩ = false := by
      simp [FloatBits.gtZero, h]
    simp [data_ret, h, h1, h2]
  · intro h
    have h1 : FloatBits.ltZero doubleExpMax ⟨s, e, f⟩ = false := by
      simp [FloatBits.ltZero, h]
    have h2 : FloatBits.gtZero doubleExpMax ⟨s, e, f⟩ = false := by
      simp [FloatBits.gtZero, h]
    have h3 : qIsNaN doubleExpMax ⟨s, e, f⟩ = false := by
      simp only [FloatBits.isZero, Bool.and_eq_true, beq_iff_eq] at h
      simp [qIsNaN, h.1, h.2]
    simp [data_ret, h1, h2, h3]
  · intro h
    simp only [data_ret, h, if_true]
  · intro h
    have h1 : FloatBits.ltZero floatExpMax ⟨s, e, f⟩ = false := by
      simp only [FloatBits.gtZero, FloatBits.ltZero] at h ⊢
      cases s <;> simp_all
    simp only [data_ret, h, h1, if_true]
    simp
  · intro h
    have h1 : FloatBits.ltZero floatExpMax ⟨s, e, f⟩ = false := by
      simp [FloatBits.ltZero, h]
    have h2 : FloatBits.gtZero floatExpMax ⟨s, e, f⟩ = false := by
      simp [FloatBits.gtZero, h]
    simp [data_ret, h, h1, h2]
  · intro h
    have h1 : FloatBits.ltZero floatExpMax ⟨s, e, f⟩ = false := by
      simp [FloatBits.ltZero, h]
    have h2 : FloatBits.gtZero floatExpMax ⟨s, e, f⟩ = false := by
      simp [FloatBits.gtZero, h]
    have h3 : qIsNaN floatExpMax ⟨s, e, f⟩ = false := by
      simp only [FloatBits.isZero, Bool.and_eq_true, beq_iff_eq] at h
      simp [qIsNaN, h.1, h.2]
    simp [data_ret, h1, h2, h3]
  · rfl
  · rfl

/-- The `ret` string of a signed and of an unsigned integer component. -/
theorem data_ret_integer (F : Formatter) (el : FormatElement) (i : Int) (u : Nat) :
    (0 < i → data_ret F el (.Int i) = " " ++ F.FormatInt i ∧
             data_ret F el (.Short i) = " " ++ F.FormatInt i ∧
             data_ret F el (.SChar i) = " " ++ F.FormatInt i) ∧
    (i ≤ 0 → data_ret F el (.Int i) = F.FormatInt i ∧
             data_ret F el (.Short i) = F.FormatInt i ∧
             data_ret F el (.SChar i) = F.FormatInt i) ∧
    data_ret F el (.UInt u) = F.FormatUInt u el.hex ∧
    data_ret F el (.UShort u) = F.FormatUInt u el.hex ∧
    data_ret F el (.UChar u) = F.FormatUInt u el.hex := by
  refine ⟨?_, ?_, rfl, rfl, rfl⟩
  · intro h
    simp [data_ret, h]
  · intro h
    have h1 : ¬ (0 < i) := by omega
    simp [data_ret, h1]

/-- C8: the text of a cell whose decoded component is a floating-point value
`v`, `double` or `float`. `data` returns the formatter's output for `v` when
`v < 0`; one space and the formatter's output for `v` when `v > 0`; `" NaN"`
when `v` is a NaN; one space and the formatter's output for `0.0` when `v` is
`+0.0` or `-0.0`, so both zeros give the same text. Every value is in one of
the four cases. -/
theorem data_floating_text (F : Formatter) (gv : Decoder) (mem : Memory)
    (m : BufferItemModel) (index : QModelIndex) (el : FormatElement) (buf : BufferData)
    (comp : Nat) (v : FloatBits) (hv : index.isValid = true)
    (hlo : reservedColumnCount m ≤ index.c) (hhi : index.c < m.m_ColumnCount)
    (hrow : toUInt32 index.r < m.numRows)
    (hidx : m.indices.data = 0 ∨ m.indices.data + toUInt32 index.r * 4 + 1 ≤ m.indices.end_)
    (hel : columnForIndex m index.c = some el) (hcomp : componentForIndex m index.c = some comp)
    (hbuf : m.buffers[el.buffer]? = some buf) :
    ((gv el mem (data_data m el buf (data_idx mem m (toUInt32 index.r))) buf.end_)[comp]?
        = some (.Double v) →
      (v.ltZero doubleExpMax = true →
        data F gv mem m index .DisplayRole = some (.QString (F.FormatDouble v))) ∧
      (v.gtZero doubleExpMax = true →
        data F gv mem m index .DisplayRole = some (.QString (" " ++ F.FormatDouble v))) ∧
      (qIsNaN doubleExpMax v = true →
        data F gv mem m index .DisplayRole = some (.QString " NaN")) ∧
      (v.isZero = true →
        data F gv mem m index .DisplayRole
          = some (.QString (" " ++ F.FormatDouble FloatBits.zero)))) ∧
    ((gv el mem (data_data m el buf (data_idx mem m (toUInt32 index.r))) buf.end_)[comp]?
        = some (.Float v) →
      (v.ltZero floatExpMax = true →
        data F gv mem m index .DisplayRole = some (.QString (F.FormatFloat v))) ∧
      (v.gtZero floatExpMax = true →
        data F gv mem m index .DisplayRole = some (.QString (" " ++ F.FormatFloat v))) ∧
      (qIsNaN floatExpMax v = true →
        data F gv mem m index .DisplayRole = some (.QString " NaN")) ∧
      (v.isZero = true →
        data F gv mem m index .DisplayRole
          = some (.QString (" " ++ F.FormatDouble FloatBits.zero)))) ∧
    (v.ltZero doubleExpMax = true ∨ v.gtZero doubleExpMax = true ∨
      qIsNaN doubleExpMax v = true ∨ v.isZero = true) ∧
    (v.ltZero floatExpMax = true ∨ v.gtZero floatExpMax = true ∨
      qIsNaN floatExpMax v = true ∨ v.isZero = true) := by
  have hcell := data_display_cell F gv mem m index el buf comp hlo hhi hrow hidx hel hcomp hbuf
  have hret := data_ret_floating F el v
  have hcases : ∀ e : Nat, v.ltZero e = true ∨ v.gtZero e = true ∨ qIsNaN e v = true ∨
      v.isZero = true := by
    intro e
    unfold FloatBits.ltZero FloatBits.gtZero
    cases qIsNaN e v <;> cases v.isZero <;> cases v.sign <;> simp
  refine ⟨?_, ?_, hcases _, hcases _⟩
  · intro hl
    rw [data_eq_data_display F gv mem m index hv, hcell, hl]
    refine ⟨?_, ?_, ?_, ?_⟩
    · intro h
      simp only [hret.1 h]
    · intro h
      simp only [hret.2.1 h]
    · intro h
      simp only [hret.2.2.1 h]
    · intro h
      simp only [hret.2.2.2.1 h]
  · intro hl
    rw [data_eq_data_display F gv mem m index hv, hcell, hl]
    refine ⟨?_, ?_, ?_, ?_⟩
    · intro h
      simp only [hret.2.2.2.2.1 h]
    · intro h
      simp only [hret.2.2.2.2.2.1 h]
    · intro h
      simp only [hret.2.2.2.2.2.2.1 h]
    · intro h
      simp only [hret.2.2.2.2.2.2.2.1 h]

/-- Witness for C8: the raw sample table decoded as floats. Over the sample
memory the first component of row 0 is a positive float, shown as one space
and the formatter's output; over a memory of zero bytes it is `+0.0`, and over
a memory holding the bits of `-0.0` it is `-0.0`: both are shown as one space
and the formatter's output for `0.0`. -/
theorem data_floating_text_witness :
    data sampleFormatter (sampleTypedDecoder (fun u => .Float (sampleFloatOfBits u))) sampleMemory
        (endReset sampleRawModel) ⟨0, 0, true⟩ .DisplayRole
      = some (.QString (" " ++ sampleFormatter.FormatFloat (sampleFloatOfBits 67305985))) ∧
    data sampleFormatter (sampleTypedDecoder (fun u => .Float (sampleFloatOfBits u))) (fun _ => 0)
        (endReset sampleRawModel) ⟨0, 0, true⟩ .DisplayRole
      = some (.QString (" " ++ sampleFormatter.FormatDouble FloatBits.zero)) ∧
    data sampleFormatter (sampleTypedDecoder (fun u => .Float (sampleFloatOfBits u)))
        (fun a => if a % 4 = 3 then 128 else 0)
        (endReset sampleRawModel) ⟨0, 0, true⟩ .DisplayRole
      = some (.QString (" " ++ sampleFormatter.FormatDouble FloatBits.zero)) :=
  ⟨((data_floating_text sampleFormatter (sampleTypedDecoder (fun u => .Float (sampleFloatOfBits u)))
      sampleMemory (endReset sampleRawModel) ⟨0, 0, true⟩
      ⟨"pos", ⟨eSpecial_Unknown, 3⟩, 0, 0, false, 0, false⟩ ⟨4096, 4128, 16⟩ 0
      (sampleFloatOfBits 67305985) (by decide) (by decide) (by decide) (by decide) (by decide)
      (by decide) (by decide) (by decide)).2.1 (by decide)).2.1 (by decide),
   ((data_floating_text sampleFormatter (sampleTypedDecoder (fun u => .Float (sampleFloatOfBits u)))
      (fun _ => 0) (endReset sampleRawModel) ⟨0, 0, true⟩
      ⟨"pos", ⟨eSpecial_Unknown, 3⟩, 0, 0, false, 0, false⟩ ⟨4096, 4128, 16⟩ 0
      ⟨false, 0, 0⟩ (by decide) (by decide) (by decide) (by decide) (by decide)
      (by decide) (by decide) (by decide)).2.1 (by decide)).2.2.2 (by decide),
   ((data_floating_text sampleFormatter (sampleTypedDecoder (fun u => .Float (sampleFloatOfBits u)))
      (fun a => if a % 4 = 3 then 128 else 0) (endReset sampleRawModel) ⟨0, 0, true⟩
      ⟨"pos", ⟨eSpecial_Unknown, 3⟩, 0, 0, false, 0, false⟩ ⟨4096, 4128, 16⟩ 0
      ⟨true, 0, 0⟩ (by decide) (by decide) (by decide) (by decide) (by decide)
      (by decide) (by decide) (by decide)).2.1 (by decide)).2.2.2 (by decide)⟩

/-- C9: the text of a cell whose decoded component is an integer. For a signed
component `i` (int, short or signed char) `data` returns one space and the
formatted value when `i > 0` and the formatted value alone when `i <= 0`; for
an unsigned component `u` it returns the formatter's unsigned output, called
with the `hex` flag of the attribute, with no prefix. -/
theorem data_integer_text (F : Formatter) (gv : Decoder) (mem : Memory)
    (m : BufferItemModel) (index : QModelIndex) (el : FormatElement) (buf : BufferData)
    (comp : Nat) (i : Int) (u : Nat) (hv : index.isValid = true)
    (hlo : reservedColumnCount m ≤ index.c) (hhi : index.c < m.m_ColumnCount)
    (hrow : toUInt32 index.r < m.numRows)
    (hidx : m.indices.data = 0 ∨ m.indices.data + toUInt32 index.r * 4 + 1 ≤ m.indices.end_)
    (hel : columnForIndex m index.c = some el) (hcomp : componentForIndex m index.c = some comp)
    (hbuf : m.buffers[el.buffer]? = some buf) :
    ((gv el mem (data_data m el buf (data_idx mem m (toUInt32 index.r))) buf.end_)[comp]?
        ∈ [some (.Int i), some (.Short i), some (.SChar i)] →
      (0 < i → data F gv mem m index .DisplayRole = some (.QString (" " ++ F.FormatInt i))) ∧
      (i ≤ 0 → data F gv mem m index .DisplayRole = some (.QString (F.FormatInt i)))) ∧
    ((gv el mem (data_data m el buf (data_idx mem m (toUInt32 index.r))) buf.end_)[comp]?
        ∈ [some (.UInt u), some (.UShort u), some (.UChar u)] →
      data F gv mem m index .DisplayRole = some (.QString (F.FormatUInt u el.hex))) := by
  have hcell := data_display_cell F gv mem m index el buf comp hlo hhi hrow hidx hel hcomp hbuf
  have hret := data_ret_integer F el i u
  rw [data_eq_data_display F gv mem m index hv, hcell]
  refine ⟨?_, ?_⟩
  · intro hl
    simp only [List.mem_cons, List.mem_singleton, List.mem_nil_iff, or_false] at hl
    refine ⟨?_, ?_⟩
    · intro h
      obtain ⟨h1, h2, h3⟩ := hret.1 h
      rcases hl with hl | hl | hl <;> rw [hl] <;> simp only [h1, h2, h3]
    · intro h
      obtain ⟨h1, h2, h3⟩ := hret.2.1 h
      rcases hl with hl | hl | hl <;> rw [hl] <;> simp only [h1, h2, h3]
  · intro hl
    simp only [List.mem_cons, List.mem_singleton, List.mem_nil_iff, or_false] at hl
    obtain ⟨h1, h2, h3⟩ := hret.2.2
    rcases hl with hl | hl | hl <;> rw [hl] <;> simp only [h1, h2, h3]

/-- Witness for C9: the raw sample table. Decoded as ints, the first component
of row 0 is 67305985 over the sample memory, shown with a leading space, and
-1 over a memory of bytes 255, shown without; decoded as unsigned values, the
hex attribute `id` of row 1 is shown by the unsigned formatter with the hex
flag set. -/
theorem data_integer_text_witness :
    data sampleFormatter (sampleTypedDecoder (fun u => .Int (sampleIntOfBits u))) sampleMemory
        (endReset sampleRawModel) ⟨0, 0, true⟩ .DisplayRole
      = some (.QString (" " ++ sampleFormatter.FormatInt 67305985)) ∧
    data sampleFormatter (sampleTypedDecoder (fun u => .Int (sampleIntOfBits u))) (fun _ => 255)
        (endReset sampleRawModel) ⟨0, 0, true⟩ .DisplayRole
      = some (.QString (sampleFormatter.FormatInt (-1))) ∧
    data sampleFormatter sampleDecoder sampleMemory (endReset sampleRawModel) ⟨1, 3, true⟩
        .DisplayRole
      = some (.QString (sampleFormatter.FormatUInt 538910237 true)) :=
  ⟨((data_integer_text sampleFormatter (sampleTypedDecoder (fun u => .Int (sampleIntOfBits u)))
      sampleMemory (endReset sampleRawModel) ⟨0, 0, true⟩
      ⟨"pos", ⟨eSpecial_Unknown, 3⟩, 0, 0, false, 0, false⟩ ⟨4096, 4128, 16⟩ 0 67305985 0
      (by decide) (by decide) (by decide) (by decide) (by decide)
      (by decide) (by decide) (by decide)).1 (by decide)).1 (by decide),
   ((data_integer_text sampleFormatter (sampleTypedDecoder (fun u => .Int (sampleIntOfBits u)))
      (fun _ => 255) (endReset sampleRawModel) ⟨0, 0, true⟩
      ⟨"pos", ⟨eSpecial_Unknown, 3⟩, 0, 0, false, 0, false⟩ ⟨4096, 4128, 16⟩ 0 (-1) 0
      (by decide) (by decide) (by decide) (by decide) (by decide)
      (by decide) (by decide) (by decide)).1 (by decide)).2 (by decide),
   (data_integer_text sampleFormatter sampleDecoder sampleMemory (endReset sampleRawModel)
      ⟨1, 3, true⟩ sampleElement ⟨4096, 4128, 16⟩ 0 0 538910237
      (by decide) (by decide) (by decide) (by decide) (by decide)
      (by decide) (by decide) (by decide)).2 (by decide)⟩

theorem lookup_pair_bound (columns : List FormatElement) (k a c : Nat)
    (h1 : (cacheColumns_loop columns).1[k]? = some a)
    (h2 : (cacheColumns_loop columns).2[k]? = some c) :
    ∃ el, columns[a]? = some el ∧ c < cacheColumns_compCount el.format := by
  have hz : ((cacheColumns_loop columns).1.zip (cacheColumns_loop columns).2)[k]? = some (a, c) :=
    List.getElem?_zip_eq_some.mpr ⟨h1, h2⟩
  have hmem := List.getElem?_mem hz
  rw [zip_cacheColumns_loop] at hmem
  obtain ⟨p, hp, hac⟩ := List.mem_flatMap.mp hmem
  obtain ⟨c', hc', heq⟩ := List.mem_map.mp hac
  have ha : p.1 = a := congrArg Prod.fst heq
  have hc : c' = c := congrArg Prod.snd heq
  refine ⟨p.2, ?_, ?_⟩
  · rw [← ha]
    exact List.mk_mem_enum_iff_getElem?.mp hp
  · rw [← hc]
    exact List.mem_range.mp hc'

theorem cacheColumns_compCount_le_four (fmt : ResourceFormat) (h : fmt.compCount ≤ 4) :
    cacheColumns_compCount fmt ≤ 4 := by
  rcases fmt with ⟨sf, cc⟩
  cases sf <;> simp [cacheColumns_compCount] <;> exact h

theorem component_bound_endReset (m : BufferItemModel) (col : Int) (el : FormatElement)
    (comp : Nat) (hel : columnForIndex (endReset m) col = some el)
    (hcomp : componentForIndex (endReset m) col = some comp) :
    comp < cacheColumns_compCount el.format := by
  obtain ⟨-, -, -, hcl, -, -, hlk, hcl2, -, hres⟩ := endReset_fields m
  unfold columnForIndex at hel
  unfold componentForIndex at hcomp
  simp only [hres, hlk, hcl] at hel
  simp only [hres, hcl2] at hcomp
  by_cases hk : col - reservedColumnCount m < 0
  · simp [hk] at hcomp
  · simp only [hk, if_false] at hel hcomp
    cases ha : (cacheColumns_loop m.columns).1[(col - reservedColumnCount m).toNat]? with
    | none => simp [ha] at hel
    | some a =>
      simp only [ha] at hel
      obtain ⟨el', hel', hlt⟩ := lookup_pair_bound m.columns _ a comp ha hcomp
      rw [hel] at hel'
      cases hel'
      exact hlt

/-- The labels that `headerData` returns for a horizontal display-role section
below the column count: in mesh view `"VTX"` for section 0 and `"IDX"` for
section 1; for a data column of an attribute whose nominal `compCount` is 1
the bare attribute name; and for a data column of any other attribute
`"<name>.<letter>"` with the letter x, y, z, w for the component index 0, 1,
2, 3 of the column (the component index is below 4 whenever `compCount` is at
most 4). -/
theorem headerData_labels (m : BufferItemModel) (section_ : Int)
    (hlt : section_ < columnCount (endReset m)) :
    (m.meshView = true → section_ = 0 →
      headerData (endReset m) section_ .Horizontal .DisplayRole = some (.QString "VTX")) ∧
    (m.meshView = true → section_ = 1 →
      headerData (endReset m) section_ .Horizontal .DisplayRole = some (.QString "IDX")) ∧
    (reservedColumnCount m ≤ section_ →
      ∃ el comp, columnForIndex (endReset m) section_ = some el ∧
        componentForIndex (endReset m) section_ = some comp ∧
        (el.format.compCount = 1 →
          headerData (endReset m) section_ .Horizontal .DisplayRole = some (.QString el.name)) ∧
        (el.format.compCount ≠ 1 → ∀ letter : String,
          (comp, letter) ∈ [(0, "x"), (1, "y"), (2, "z"), (3, "w")] →
          headerData (endReset m) section_ .Horizontal .DisplayRole =
            some (.QString (el.name ++ "." ++ letter))) ∧
        (el.format.compCount ≤ 4 → comp < 4)) := by
  obtain ⟨hmv, -, -, -, -, -, -, -, -, hres⟩ := endReset_fields m
  have hlt2 : section_ < (endReset m).m_ColumnCount := hlt
  refine ⟨?_, ?_, ?_⟩
  · intro hm hs
    subst hs
    simp [headerData, hlt2, hmv, hm]
  · intro hm hs
    subst hs
    simp [headerData, hlt2, hmv, hm]
  · intro hlo
    obtain ⟨⟨el, hel⟩, ⟨comp, hcomp⟩⟩ := lookups_endReset m section_ hlo hlt2
    have hm0 : ¬ (section_ = 0 ∧ (endReset m).meshView = true) := by
      rintro ⟨hc, hm⟩
      rw [hmv] at hm
      simp only [reservedColumnCount, hm, if_true] at hlo
      omega
    have hm1 : ¬ (section_ = 1 ∧ (endReset m).meshView = true) := by
      rintro ⟨hc, hm⟩
      rw [hmv] at hm
      simp only [reservedColumnCount, hm, if_true] at hlo
      omega
    refine ⟨el, comp, hel, hcomp, ?_, ?_, ?_⟩
    · intro h1
      simp only [headerData, hlt2, true_and, and_self, if_true, hm0, hm1, if_false, hel, h1]
    · intro h1 letter hmem
      simp only [headerData, hlt2, true_and, and_self, if_true, hm0, hm1, if_false, hel, h1,
        hcomp]
      simp only [List.mem_cons, Prod.mk.injEq, List.mem_singleton, List.mem_nil_iff,
        or_false] at hmem
      rcases hmem with ⟨hc, hl⟩ | ⟨hc, hl⟩ | ⟨hc, hl⟩ | ⟨hc, hl⟩ <;> subst hc <;> subst hl <;> rfl
    · intro h4
      have := component_bound_endReset m section_ el comp hel hcomp
      have := cacheColumns_compCount_le_four el.format h4
      omega

/-- C10 at a failing input: `headerData` tells a single-component attribute
from a multi-component one by the nominal component count, not by the number
of table columns of the attribute. The attribute `s` with the special
encoding BC4 and nominal count 4 is a single-component attribute (one table
column), yet its column is labelled `s.x`, not `s`. The attribute `s` with the
special encoding D24S8 and nominal count 1 has two table columns, components
0 and 1, yet both are labelled `s`, not `s.x` and `s.y`. For attributes
without a special encoding the labels are as described: VTX, IDX, pos.x,
pos.y, pos.z, id in the mesh sample table. -/
theorem headerData_nominal_count_labels :
    columnCount (sampleAttributeTable eSpecial_BC4 4) = 1 ∧
    headerData (sampleAttributeTable eSpecial_BC4 4) 0 .Horizontal .DisplayRole
      = some (.QString "s.x") ∧
    columnCount (sampleAttributeTable eSpecial_D24S8 1) = 2 ∧
    (sampleAttributeTable eSpecial_D24S8 1).componentLookup = [0, 1] ∧
    headerData (sampleAttributeTable eSpecial_D24S8 1) 0 .Horizontal .DisplayRole
      = some (.QString "s") ∧
    headerData (sampleAttributeTable eSpecial_D24S8 1) 1 .Horizontal .DisplayRole
      = some (.QString "s") ∧
    [(0 : Int), 1, 2, 3, 4, 5].map
        (fun section_ => headerData (endReset sampleMeshModel) section_ .Horizontal .DisplayRole)
      = [some (.QString "VTX"), some (.QString "IDX"), some (.QString "pos.x"),
         some (.QString "pos.y"), some (.QString "pos.z"), some (.QString "id")] := by
  refine ⟨by decide, by decide, by decide, by decide, by decide, by decide, by decide⟩

/-! ### Stride, event changes -/

theorem foldl_stride_eq_sum (byteSize : FormatElement → Nat) (columns : List FormatElement)
    (acc : Nat) :
    columns.foldl (fun stride el => stride + byteSize el) acc
      = acc + (columns.map byteSize).sum := by
  induction columns generalizing acc with
  | nil => simp
  | cons el rest ih =>
    simp only [List.foldl_cons, List.map_cons, List.sum_cons, ih]
    omega

theorem OnEventChanged_stride_eq (byteSize : FormatElement → Nat)
    (columns : List FormatElement) :
    OnEventChanged_stride byteSize columns = max 1 (columns.map byteSize).sum := by
  unfold OnEventChanged_stride qMax
  rw [foldl_stride_eq_sum, Nat.zero_add]
  split <;> omega

/-- C11 fails as stated: in the raw sample table with the stride of its buffer
set to 0, row 1 of column 3 is decoded at `4096 + 12`, the same address as
row 0, and not at `4096 + 1*1 + 12` as with a unit stride. -/
theorem data_stride_zero_not_unit :
    data_data { sampleRawModel with buffers := [⟨4096, 4128, 0⟩] } sampleElement
      ⟨4096, 4128, 0⟩ 1 = 4096 + 12 ∧
    data sampleFormatter sampleDecoder sampleMemory
      (endReset { sampleRawModel with buffers := [⟨4096, 4128, 0⟩] }) ⟨1, 3, true⟩ .DisplayRole
      = some (.QString "0x100f0e0d") ∧
    data sampleFormatter sampleDecoder sampleMemory
      (endReset { sampleRawModel with buffers := [⟨4096, 4128, 0⟩] }) ⟨0, 3, true⟩ .DisplayRole
      = some (.QString "0x100f0e0d") ∧
    data sampleFormatter sampleDecoder sampleMemory
      (endReset { sampleRawModel with buffers := [⟨4096, 4128, 1⟩] }) ⟨1, 3, true⟩ .DisplayRole
      = some (.QString "0x11100f0e") := by
  refine ⟨by decide, by decide, by decide, by decide⟩

/-- C11 as amended: the raw-view stride that `OnEventChanged` computes is
`max(1, total byte size)`, so 1 for an attribute list of total byte size 0,
and it is the stride of the buffer that is pushed; a buffer whose stride is 1
is addressed at `i*1 + offset` for the vertex or instance index `i`; and
`data` does not coerce a stored stride of 0: such a buffer is addressed at
`offset` for every index. The addresses are pointers: the sums are taken in
64 bits, and are the plain sums whenever those are below `2 ^ 64`. -/
theorem data_stride_coercion :
    (∀ (byteSize : FormatElement → Nat) (ev : EventInputs) (m : BufferItemModel),
      OnEventChanged_stride byteSize m.columns = max 1 (m.columns.map byteSize).sum ∧
      ((m.columns.map byteSize).sum = 0 → OnEventChanged_stride byteSize m.columns = 1) ∧
      (m.meshView = false →
        (OnEventChanged byteSize ev m).buffers = m.buffers ++
          [⟨ev.rawData.addr, ev.rawData.addr + ev.rawData.count,
            OnEventChanged_stride byteSize m.columns⟩])) ∧
    (∀ (F : Formatter) (gv : Decoder) (mem : Memory) (m : BufferItemModel) (index : QModelIndex)
      (el : FormatElement) (buf : BufferData) (comp i : Nat),
      index.isValid = true →
      reservedColumnCount m ≤ index.c → index.c < m.m_ColumnCount →
      toUInt32 index.r < m.numRows →
      (m.indices.data = 0 ∨ m.indices.data + toUInt32 index.r * 4 + 1 ≤ m.indices.end_) →
      columnForIndex m index.c = some el → componentForIndex m index.c = some comp →
      m.buffers[el.buffer]? = some buf →
      i = (if el.perinstance then data_instIdx m el else data_idx mem m (toUInt32 index.r)) →
      (buf.stride = 1 →
        data F gv mem m index .DisplayRole =
          (match (gv el mem ((buf.data + i * 1 + el.offset) % 2 ^ 64) buf.end_)[comp]? with
          | none => some .Invalid
          | some v => some (.QString (data_ret F el v))) ∧
        (buf.data + i * 1 + el.offset < 2 ^ 64 →
          data F gv mem m index .DisplayRole =
            match (gv el mem (buf.data + i * 1 + el.offset) buf.end_)[comp]? with
            | none => some .Invalid
            | some v => some (.QString (data_ret F el v)))) ∧
      (buf.stride = 0 →
        data F gv mem m index .DisplayRole =
          (match (gv el mem ((buf.data + el.offset) % 2 ^ 64) buf.end_)[comp]? with
          | none => some .Invalid
          | some v => some (.QString (data_ret F el v))) ∧
        (buf.data + el.offset < 2 ^ 64 →
          data F gv mem m index .DisplayRole =
            match (gv el mem (buf.data + el.offset) buf.end_)[comp]? with
            | none => some .Invalid
            | some v => some (.QString (data_ret F el v))))) := by
  constructor
  · intro byteSize ev m
    refine ⟨OnEventChanged_stride_eq byteSize m.columns, ?_, ?_⟩
    · intro h
      rw [OnEventChanged_stride_eq, h]
      rfl
    · intro hm
      simp only [OnEventChanged, hm, Bool.false_eq_true, if_false]
      rfl
  · intro F gv mem m index el buf comp i hv hlo hhi hrow hidx hel hcomp hbuf hi
    have hcell := data_display_cell F gv mem m index el buf comp hlo hhi hrow hidx hel hcomp hbuf
    rw [data_eq_data_display F gv mem m index hv, hcell, data_data_eq, ← hi]
    constructor
    · intro hs
      have hpos : buf.data + buf.stride * i + el.offset = buf.data + i * 1 + el.offset := by
        rw [hs, Nat.one_mul, Nat.mul_one]
      rw [hpos]
      refine ⟨rfl, ?_⟩
      intro hlt
      rw [Nat.mod_eq_of_lt hlt]
    · intro hs
      have hpos : buf.data + buf.stride * i + el.offset = buf.data + el.offset := by
        rw [hs, Nat.zero_mul, Nat.add_zero]
      rw [hpos]
      refine ⟨rfl, ?_⟩
      intro hlt
      rw [Nat.mod_eq_of_lt hlt]

/-- Witness for C11: an attribute list of total byte size 0 gets stride 1, and
column 3 of row 1 of the raw sample table with a stride-0 buffer is decoded
at the start of the buffer plus the offset. -/
theorem data_stride_coercion_witness :
    OnEventChanged_stride (fun _ => 0) sampleRawModel.columns = 1 ∧
    data sampleFormatter sampleDecoder sampleMemory
        (endReset { sampleRawModel with buffers := [⟨4096, 4128, 0⟩] }) ⟨1, 3, true⟩
        .DisplayRole =
      match (sampleDecoder sampleElement sampleMemory (4096 + sampleElement.offset) 4128)[0]? with
      | none => some .Invalid
      | some v => some (.QString (data_ret sampleFormatter sampleElement v)) :=
  ⟨(data_stride_coercion.1 (fun _ => 0) (sampleEvent 4096) sampleRawModel).2.1 (by decide),
   ((data_stride_coercion.2 sampleFormatter sampleDecoder sampleMemory
      (endReset { sampleRawModel with buffers := [⟨4096, 4128, 0⟩] }) ⟨1, 3, true⟩
      sampleElement ⟨4096, 4128, 0⟩ 0 1 (by decide) (by decide) (by decide) (by decide)
      (by decide) (by decide) (by decide) (by decide) (by decide)).2 rfl).2 (by decide)⟩

theorem RT_FetchMeshData_buffers_eq (ev : EventInputs) (l : List (Nat × Nat))
    (m : BufferItemModel) :
    (l.foldl
      (fun s p =>
        let used := s.columns.any (fun col => col.buffer == p.1)
        let buf : BufferData :=
          if used then
            ⟨(ev.fetched p.1).addr, (ev.fetched p.1).addr + (ev.fetched p.1).count, p.2⟩
          else {}
        { s with buffers := s.buffers ++ [buf] })
      m).buffers =
    m.buffers ++ l.map (fun p =>
      if m.columns.any (fun col => col.buffer == p.1) then
        (⟨(ev.fetched p.1).addr, (ev.fetched p.1).addr + (ev.fetched p.1).count, p.2⟩ : BufferData)
      else {}) := by
  induction l generalizing m with
  | nil => simp
  | cons p rest ih =>
    rw [List.foldl_cons, ih]
    simp

/-- In mesh view the buffers after `OnEventChanged` are those of this event
alone, one for each bound vertex buffer, whatever the table held before. -/
theorem OnEventChanged_mesh_buffers (ev : EventInputs) (m : BufferItemModel) :
    (OnEventChanged_mesh ev m).buffers =
      ev.vbs.enum.map (fun p =>
        if ((ev.vinputs.filter (fun a => a.Used)).map
              (fun a => (⟨a.Name, a.Format, a.VertexBuffer, a.RelativeByteOffset, a.PerInstance,
                a.InstanceRate, false⟩ : FormatElement))).any (fun col => col.buffer == p.1) then
          (⟨(ev.fetched p.1).addr, (ev.fetched p.1).addr + (ev.fetched p.1).count, p.2⟩ :
            BufferData)
        else {}) := by
  have h : (OnEventChanged_mesh ev m).buffers =
      (RT_FetchMeshData ev (ConfigureMeshColumns ev
        { ClearModels (CalcColumnWidth ev (ClearModels m)) with
          curInstance := ev.curInstance })).buffers := rfl
  rw [h]
  unfold RT_FetchMeshData RT_FetchMeshData_buffers
  rw [RT_FetchMeshData_buffers_eq]
  simp [ConfigureMeshColumns, ClearModels, endReset, cacheColumns]

/-- In raw view `OnEventChanged` keeps every buffer that the table held and
adds one. -/
theorem OnEventChanged_raw_buffers (byteSize : FormatElement → Nat) (ev : EventInputs)
    (m : BufferItemModel) :
    (OnEventChanged_raw byteSize ev m).buffers =
      m.buffers ++ [⟨ev.rawData.addr, ev.rawData.addr + ev.rawData.count,
        OnEventChanged_stride byteSize m.columns⟩] := rfl

/-- C12 at a failing input: in a raw view, after a first event that fetched 32
bytes to address 4096 and a second event that fetched 32 bytes to address
8192, the buffer list holds two buffers, and the one at index 0, which the
columns name, is the buffer of the first event. -/
theorem OnEventChanged_raw_keeps_old_buffers :
    (OnEventChanged sampleByteSize (sampleEvent 4096) sampleRawStart).buffers
      = [⟨4096, 4128, 16⟩] ∧
    (OnEventChanged sampleByteSize (sampleEvent 8192)
      (OnEventChanged sampleByteSize (sampleEvent 4096) sampleRawStart)).buffers
      = [⟨4096, 4128, 16⟩, ⟨8192, 8224, 16⟩] ∧
    (OnEventChanged sampleByteSize (sampleEvent 8192)
      (OnEventChanged sampleByteSize (sampleEvent 4096) sampleRawStart)).buffers[0]?
      = some ⟨4096, 4128, 16⟩ ∧
    (OnEventChanged sampleByteSize (sampleEvent 8192)
      (OnEventChanged sampleByteSize (sampleEvent 4096) sampleRawStart)).columns.map
        (fun el => el.buffer) = [0, 0] := by
  refine ⟨by decide, by decide, by decide, by decide⟩

/-! ### Cameras -/

theorem qAbs_eq_abs (t : ℚ) : qAbs t = |t| := by
  unfold qAbs
  split
  · rw [abs_of_nonneg]
    assumption
  · rw [abs_of_neg]
    linarith

theorem qMax_eq_max (a b : ℚ) : qMax a b = max a b := by
  unfold qMax
  split
  · rw [max_eq_right]
    linarith
  · rw [max_eq_left]
    linarith

/-- C13 fails as stated: `SetDistance(0)` and `Reset(pos, 0)` store the
distance 0, which is not `max(1e-6, |0|)` and is not strictly positive. -/
theorem SetDistance_zero_not_clamped :
    (ArcballWrapper.SetDistance {} 0).m_Distance = 0 ∧
    (ArcballWrapper.SetDistance {} 0).m_Distance ≠ max (1 / 1000000) |(0 : ℚ)| ∧
    ¬ 0 < (ArcballWrapper.SetDistance {} 0).m_Distance ∧
    ¬ 0 < (ArcballWrapper.Reset {} {} 0).m_Distance := by
  have h1 : (ArcballWrapper.SetDistance {} 0).m_Distance = 0 := by
    simp [ArcballWrapper.SetDistance, qAbs]
  have h2 : (ArcballWrapper.Reset {} {} 0).m_Distance = 0 := by
    simp [ArcballWrapper.Reset, ArcballWrapper.SetDistance, ArcballWrapper.setLookAtPos, qAbs]
  refine ⟨h1, ?_, ?_, ?_⟩
  · rw [h1]
    norm_num
  · rw [h1]
    exact lt_irrefl 0
  · rw [h2]
    exact lt_irrefl 0

/-- C13 as amended: after `SetDistance(d)`, and after `Reset(pos, d)`, the
stored distance is `|d|`: it is never negative, it is strictly positive
exactly when `d` is not 0, and it equals `max(1e-6, |d|)` whenever
`|d| >= 1e-6`. -/
theorem SetDistance_stores_abs (s : ArcballWrapper) (pos : FloatVector) (d : ℚ) :
    (s.SetDistance d).m_Distance = |d| ∧
    (s.Reset pos d).m_Distance = |d| ∧
    0 ≤ (s.SetDistance d).m_Distance ∧
    (0 < (s.SetDistance d).m_Distance ↔ d ≠ 0) ∧
    (0 < (s.Reset pos d).m_Distance ↔ d ≠ 0) ∧
    (1 / 1000000 ≤ |d| → (s.SetDistance d).m_Distance = max (1 / 1000000) |d|) := by
  have h1 : (s.SetDistance d).m_Distance = |d| := by
    simp only [ArcballWrapper.SetDistance, qAbs_eq_abs]
  have h2 : (s.Reset pos d).m_Distance = |d| := by
    simp only [ArcballWrapper.Reset, ArcballWrapper.SetDistance, qAbs_eq_abs]
  refine ⟨h1, h2, ?_, ?_, ?_, ?_⟩
  · rw [h1]
    exact abs_nonneg d
  · rw [h1]
    exact abs_pos
  · rw [h2]
    exact abs_pos
  · intro h
    rw [h1, max_eq_right h]

/-- Witness for C13 as amended: the distance `-5`. -/
theorem SetDistance_stores_abs_witness :
    (ArcballWrapper.SetDistance {} (-5)).m_Distance = max (1 / 1000000) |(-5 : ℚ)| :=
  (SetDistance_stores_abs {} {} (-5)).2.2.2.2.2 (by norm_num)

/-- C14: after `MouseWheel` the stored distance is
`max(1e-6, dist * (1 - delta/2500))` for every distance `dist` and every wheel
delta; it is at least `1e-6`, and it is `1e-6` when `dist >= 0` and
`delta >= 2500`. -/
theorem MouseWheel_distance (s : ArcballWrapper) (e : QWheelEvent) :
    (s.MouseWheel e).m_Distance
      = max (1 / 1000000) (s.m_Distance * (1 - (e.delta : ℚ) / 2500)) ∧
    1 / 1000000 ≤ (s.MouseWheel e).m_Distance ∧
    (0 ≤ s.m_Distance → 2500 ≤ e.delta → (s.MouseWheel e).m_Distance = 1 / 1000000) := by
  have h : (s.MouseWheel e).m_Distance
      = max (1 / 1000000) (s.m_Distance * (1 - (e.delta : ℚ) / 2500)) := by
    simp only [ArcballWrapper.MouseWheel, ArcballWrapper.SetDistance, qAbs_eq_abs, qMax_eq_max]
    apply abs_of_nonneg
    apply le_trans _ (le_max_left _ _)
    norm_num
  refine ⟨h, ?_, ?_⟩
  · rw [h]
    exact le_max_left _ _
  · intro hd he
    rw [h]
    apply max_eq_left
    have he2 : (2500 : ℚ) ≤ (e.delta : ℚ) := by exact_mod_cast he
    have hm : 1 - (e.delta : ℚ) / 2500 ≤ 0 := by
      rw [sub_nonpos, le_div_iff₀ (by norm_num)]
      linarith
    have := mul_nonpos_of_nonneg_of_nonpos hd hm
    linarith

/-- Witness for C14: the default arcball (distance 10) and a wheel delta of
5000. -/
theorem MouseWheel_distance_witness :
    (ArcballWrapper.MouseWheel {} ⟨5000⟩).m_Distance = 1 / 1000000 :=
  (MouseWheel_distance {} ⟨5000⟩).2.2 (by norm_num) (by norm_num)

/-- C15: `ArcballWrapper::Update` returns false and changes nothing but the
stored window size; `FlycamWrapper::Update` returns true exactly when one of
the forward, horizontal and vertical pending moves is not 0, and when it
returns false it leaves the position, and the whole state, unchanged. -/
theorem Update_reports_change :
    (∀ (s : ArcballWrapper) (size : QRect),
      (s.Update size).2 = false ∧ (s.Update size).1 = { s with m_WinSize := size }) ∧
    (∀ (Camera_GetBasis : Camera → Basis) (s : FlycamWrapper) (size : QRect),
      ((s.Update Camera_GetBasis size).2 = true ↔
        (s.move .Fwd ≠ 0 ∨ s.move .Horiz ≠ 0 ∨ s.move .Vert ≠ 0)) ∧
      ((s.Update Camera_GetBasis size).2 = false →
        (s.Update Camera_GetBasis size).1.m_Position = s.m_Position ∧
        (s.Update Camera_GetBasis size).1 = s)) := by
  constructor
  · intro s size
    exact ⟨rfl, rfl⟩
  · intro gb s size
    by_cases hh : s.move .Horiz = 0 <;> by_cases hvv : s.move .Vert = 0 <;>
      by_cases hf : s.move .Fwd = 0 <;>
      simp [FlycamWrapper.Update, hh, hvv, hf]

/-- Witness for C15: the fly camera at rest. -/
theorem Update_reports_change_witness :
    (FlycamWrapper.Update (fun _ => ⟨{}, {}, {}, {}⟩) {} {}).1.m_Position = ({} : FlycamWrapper).m_Position ∧
    (FlycamWrapper.Update (fun _ => ⟨{}, {}, {}, {}⟩) {} {}).1 = {} :=
  (Update_reports_change.2 (fun _ => ⟨{}, {}, {}, {}⟩) {} {}).2 (by decide)

theorem move_setSpeed (s : CameraWrapper) (e : QKeyEvent) (d : Direction) :
    (s.setSpeed e).move d = s.move d := by
  unfold CameraWrapper.setSpeed
  split <;> cases d <;> rfl

theorem move_setMove (s : CameraWrapper) (d d' : Direction) (v : Int) :
    (s.setMove d v).move d' = if d = d' then v else s.move d' := by
  cases d <;> cases d' <;> rfl

theorem move_ite (c : Prop) [Decidable c] (a b : CameraWrapper) (d : Direction) :
    (if c then a else b).move d = if c then a.move d else b.move d := by
  split <;> rfl

theorem CameraWrapper_KeyDown_moves (s : CameraWrapper) (e : QKeyEvent) :
    (s.KeyDown e).move .Fwd
      = (if e.key = Qt.Key_W then 1 else if e.key = Qt.Key_S then -1 else s.move .Fwd) ∧
    (s.KeyDown e).move .Vert
      = (if e.key = Qt.Key_Q then 1 else if e.key = Qt.Key_E then -1 else s.move .Vert) ∧
    (s.KeyDown e).move .Horiz
      = (if e.key = Qt.Key_D then 1 else if e.key = Qt.Key_A then -1 else s.move .Horiz) := by
  simp only [CameraWrapper.KeyDown, move_setSpeed, move_ite, move_setMove, reduceCtorEq,
    if_false, if_true, ite_self]
  refine ⟨?_, ?_, ?_⟩
  · by_cases hW : e.key = Qt.Key_W
    · have hS : ¬ Qt.Key_W = Qt.Key_S := by decide
      simp [hW, hS]
    · simp [hW]
  · by_cases hQ : e.key = Qt.Key_Q
    · have hE : ¬ Qt.Key_Q = Qt.Key_E := by decide
      simp [hQ, hE]
    · simp [hQ]
  · by_cases hD : e.key = Qt.Key_D
    · have hA : ¬ Qt.Key_D = Qt.Key_A := by decide
      simp [hD, hA]
    · simp [hD]

theorem CameraWrapper_KeyUp_moves (s : CameraWrapper) (e : QKeyEvent) :
    (s.KeyUp e).move .Fwd
      = (if e.key = Qt.Key_W ∨ e.key = Qt.Key_S then 0 else s.move .Fwd) ∧
    (s.KeyUp e).move .Vert
      = (if e.key = Qt.Key_Q ∨ e.key = Qt.Key_E then 0 else s.move .Vert) ∧
    (s.KeyUp e).move .Horiz
      = (if e.key = Qt.Key_A ∨ e.key = Qt.Key_D then 0 else s.move .Horiz) := by
  simp only [CameraWrapper.KeyUp, move_setSpeed, move_ite, move_setMove, reduceCtorEq,
    if_false, if_true, ite_self]
  exact ⟨trivial, trivial, trivial⟩

theorem CameraWrapper_key_other_fields (s : CameraWrapper) (e : QKeyEvent) :
    (s.KeyDown e).SpeedMultiplier = s.SpeedMultiplier ∧
    (s.KeyDown e).m_DragStartPos = s.m_DragStartPos ∧
    (s.KeyDown e).m_CurrentSpeed = (if e.modifiers ≠ 0 then 3 else 1) ∧
    (s.KeyUp e).SpeedMultiplier = s.SpeedMultiplier ∧
    (s.KeyUp e).m_DragStartPos = s.m_DragStartPos ∧
    (s.KeyUp e).m_CurrentSpeed = (if e.modifiers ≠ 0 then 3 else 1) := by
  have hshift : Qt.ShiftModifier ≠ 0 := by decide
  have h1 : ∀ (c : CameraWrapper), (c.setSpeed e).SpeedMultiplier = c.SpeedMultiplier ∧
      (c.setSpeed e).m_DragStartPos = c.m_DragStartPos ∧
      (c.setSpeed e).m_CurrentSpeed = (if e.modifiers ≠ 0 then 3 else 1) := by
    intro c
    unfold CameraWrapper.setSpeed
    by_cases hm : e.modifiers = 0 <;> simp [hm, hshift]
  have h2 : ∀ (c : CameraWrapper) (d : Direction) (v : Int),
      (c.setMove d v).SpeedMultiplier = c.SpeedMultiplier ∧
      (c.setMove d v).m_DragStartPos = c.m_DragStartPos := by
    intro c d v
    cases d <;> exact ⟨rfl, rfl⟩
  have h3 : ∀ (p : Prop) [Decidable p] (c : CameraWrapper) (d : Direction) (v : Int),
      (if p then c.setMove d v else c).SpeedMultiplier = c.SpeedMultiplier ∧
      (if p then c.setMove d v else c).m_DragStartPos = c.m_DragStartPos := by
    intro p _ c d v
    split
    · exact h2 c d v
    · exact ⟨rfl, rfl⟩
  refine ⟨?_, ?_, (h1 _).2.2, ?_, ?_, (h1 _).2.2⟩
  · simp only [CameraWrapper.KeyDown, (h1 _).1, (h3 _ _ _ _).1]
  · simp only [CameraWrapper.KeyDown, (h1 _).2.1, (h3 _ _ _ _).2]
  · simp only [CameraWrapper.KeyUp, (h1 _).1, (h3 _ _ _ _).1]
  · simp only [CameraWrapper.KeyUp, (h1 _).2.1, (h3 _ _ _ _).2]

theorem key_step_range (s : CameraWrapper) (k : KeyInput)
    (h : ∀ d, s.move d = -1 ∨ s.move d = 0 ∨ s.move d = 1) :
    ∀ d, (s.keyInputs [k]).move d = -1 ∨ (s.keyInputs [k]).move d = 0 ∨
      (s.keyInputs [k]).move d = 1 := by
  intro d
  cases k with
  | press e =>
    obtain ⟨hF, hV, hH⟩ := CameraWrapper_KeyDown_moves s e
    show (s.KeyDown e).move d = -1 ∨ (s.KeyDown e).move d = 0 ∨ (s.KeyDown e).move d = 1
    cases d
    · rw [hF]
      split_ifs
      · right; right; rfl
      · left; rfl
      · exact h _
    · rw [hH]
      split_ifs
      · right; right; rfl
      · left; rfl
      · exact h _
    · rw [hV]
      split_ifs
      · right; right; rfl
      · left; rfl
      · exact h _
  | release e =>
    obtain ⟨hF, hV, hH⟩ := CameraWrapper_KeyUp_moves s e
    show (s.KeyUp e).move d = -1 ∨ (s.KeyUp e).move d = 0 ∨ (s.KeyUp e).move d = 1
    cases d
    · rw [hF]
      split_ifs
      · right; left; rfl
      · exact h _
    · rw [hH]
      split_ifs
      · right; left; rfl
      · exact h _
    · rw [hV]
      split_ifs
      · right; left; rfl
      · exact h _

theorem key_inputs_range (es : List KeyInput) (s : CameraWrapper)
    (h : ∀ d, s.move d = -1 ∨ s.move d = 0 ∨ s.move d = 1) :
    ∀ d, (s.keyInputs es).move d = -1 ∨ (s.keyInputs es).move d = 0 ∨
      (s.keyInputs es).move d = 1 := by
  induction es generalizing s with
  | nil => exact h
  | cons k rest ih =>
    have hstep := key_step_range s k h
    exact ih (s.keyInputs [k]) hstep

/-- C17: `KeyDown` sets one axis and leaves the other two: W gives Fwd = 1, S
gives Fwd = -1, Q gives Vert = 1, E gives Vert = -1, D gives Horiz = 1, A gives
Horiz = -1; `KeyUp` of W or S gives Fwd = 0, of Q or E gives Vert = 0, of A or
D gives Horiz = 0; any other key changes no axis. Hence from axes in
{-1, 0, 1}, as in the initial state, every axis stays in {-1, 0, 1} over
every sequence of key events. -/
theorem key_events_axes (s : CameraWrapper) (e : QKeyEvent) :
    (e.key = Qt.Key_W → (s.KeyDown e).move .Fwd = 1 ∧
      (s.KeyDown e).move .Horiz = s.move .Horiz ∧ (s.KeyDown e).move .Vert = s.move .Vert) ∧
    (e.key = Qt.Key_S → (s.KeyDown e).move .Fwd = -1 ∧
      (s.KeyDown e).move .Horiz = s.move .Horiz ∧ (s.KeyDown e).move .Vert = s.move .Vert) ∧
    (e.key = Qt.Key_Q → (s.KeyDown e).move .Vert = 1 ∧
      (s.KeyDown e).move .Fwd = s.move .Fwd ∧ (s.KeyDown e).move .Horiz = s.move .Horiz) ∧
    (e.key = Qt.Key_E → (s.KeyDown e).move .Vert = -1 ∧
      (s.KeyDown e).move .Fwd = s.move .Fwd ∧ (s.KeyDown e).move .Horiz = s.move .Horiz) ∧
    (e.key = Qt.Key_D → (s.KeyDown e).move .Horiz = 1 ∧
      (s.KeyDown e).move .Fwd = s.move .Fwd ∧ (s.KeyDown e).move .Vert = s.move .Vert) ∧
    (e.key = Qt.Key_A → (s.KeyDown e).move .Horiz = -1 ∧
      (s.KeyDown e).move .Fwd = s.move .Fwd ∧ (s.KeyDown e).move .Vert = s.move .Vert) ∧
    (e.key ∉ [Qt.Key_W, Qt.Key_S, Qt.Key_Q, Qt.Key_E, Qt.Key_D, Qt.Key_A] →
      ∀ d, (s.KeyDown e).move d = s.move d ∧ (s.KeyUp e).move d = s.move d) ∧
    (e.key = Qt.Key_W ∨ e.key = Qt.Key_S → (s.KeyUp e).move .Fwd = 0 ∧
      (s.KeyUp e).move .Horiz = s.move .Horiz ∧ (s.KeyUp e).move .Vert = s.move .Vert) ∧
    (e.key = Qt.Key_Q ∨ e.key = Qt.Key_E → (s.KeyUp e).move .Vert = 0 ∧
      (s.KeyUp e).move .Fwd = s.move .Fwd ∧ (s.KeyUp e).move .Horiz = s.move .Horiz) ∧
    (e.key = Qt.Key_A ∨ e.key = Qt.Key_D → (s.KeyUp e).move .Horiz = 0 ∧
      (s.KeyUp e).move .Fwd = s.move .Fwd ∧ (s.KeyUp e).move .Vert = s.move .Vert) ∧
    (∀ es : List KeyInput, ∀ d,
      (({} : CameraWrapper).keyInputs es).move d = -1 ∨
      (({} : CameraWrapper).keyInputs es).move d = 0 ∨
      (({} : CameraWrapper).keyInputs es).move d = 1) ∧
    (∀ es : List KeyInput, (∀ d, s.move d = -1 ∨ s.move d = 0 ∨ s.move d = 1) →
      ∀ d, (s.keyInputs es).move d = -1 ∨ (s.keyInputs es).move d = 0 ∨
        (s.keyInputs es).move d = 1) := by
  obtain ⟨hdF, hdV, hdH⟩ := CameraWrapper_KeyDown_moves s e
  obtain ⟨huF, huV, huH⟩ := CameraWrapper_KeyUp_moves s e
  rw [hdF, hdV, hdH, huF, huV, huH]
  refine ⟨?_, ?_, ?_, ?_, ?_, ?_, ?_, ?_, ?_, ?_, ?_, ?_⟩
  · intro h
    simp [h, Qt.Key_W, Qt.Key_S, Qt.Key_Q, Qt.Key_E, Qt.Key_D, Qt.Key_A]
  · intro h
    simp [h, Qt.Key_W, Qt.Key_S, Qt.Key_Q, Qt.Key_E, Qt.Key_D, Qt.Key_A]
  · intro h
    simp [h, Qt.Key_W, Qt.Key_S, Qt.Key_Q, Qt.Key_E, Qt.Key_D, Qt.Key_A]
  · intro h
    simp [h, Qt.Key_W, Qt.Key_S, Qt.Key_Q, Qt.Key_E, Qt.Key_D, Qt.Key_A]
  · intro h
    simp [h, Qt.Key_W, Qt.Key_S, Qt.Key_Q, Qt.Key_E, Qt.Key_D, Qt.Key_A]
  · intro h
    simp [h, Qt.Key_W, Qt.Key_S, Qt.Key_Q, Qt.Key_E, Qt.Key_D, Qt.Key_A]
  · intro h d
    simp only [List.mem_cons, List.mem_singleton, List.mem_nil_iff, or_false, not_or] at h
    obtain ⟨h1, h2, h3, h4, h5, h6⟩ := h
    cases d
    · rw [hdF, huF]
      simp [h1, h2]
    · rw [hdH, huH]
      simp [h5, h6]
    · rw [hdV, huV]
      simp [h3, h4]
  · intro h
    rcases h with h | h <;>
      simp [h, Qt.Key_W, Qt.Key_S, Qt.Key_Q, Qt.Key_E, Qt.Key_D, Qt.Key_A]
  · intro h
    rcases h with h | h <;>
      simp [h, Qt.Key_W, Qt.Key_S, Qt.Key_Q, Qt.Key_E, Qt.Key_D, Qt.Key_A]
  · intro h
    rcases h with h | h <;>
      simp [h, Qt.Key_W, Qt.Key_S, Qt.Key_Q, Qt.Key_E, Qt.Key_D, Qt.Key_A]
  · intro es
    apply key_inputs_range es {}
    intro d
    cases d <;> (right; left; rfl)
  · intro es h
    exact key_inputs_range es s h

/-- Witness for C17: from rest, W pressed, D pressed, W released. -/
theorem key_events_axes_witness :
    ((CameraWrapper.KeyDown {} ⟨Qt.Key_W, 0⟩).move .Fwd = 1 ∧
      (CameraWrapper.KeyDown {} ⟨Qt.Key_W, 0⟩).move .Horiz = ({} : CameraWrapper).move .Horiz ∧
      (CameraWrapper.KeyDown {} ⟨Qt.Key_W, 0⟩).move .Vert = ({} : CameraWrapper).move .Vert) ∧
    (∀ d, (CameraWrapper.keyInputs {}
        [.press ⟨Qt.Key_W, 0⟩, .press ⟨Qt.Key_D, 0⟩, .release ⟨Qt.Key_W, 0⟩]).move d = -1 ∨
      (CameraWrapper.keyInputs {}
        [.press ⟨Qt.Key_W, 0⟩, .press ⟨Qt.Key_D, 0⟩, .release ⟨Qt.Key_W, 0⟩]).move d = 0 ∨
      (CameraWrapper.keyInputs {}
        [.press ⟨Qt.Key_W, 0⟩, .press ⟨Qt.Key_D, 0⟩, .release ⟨Qt.Key_W, 0⟩]).move d = 1) :=
  ⟨(key_events_axes {} ⟨Qt.Key_W, 0⟩).1 rfl,
   (key_events_axes {} ⟨Qt.Key_W, 0⟩).2.2.2.2.2.2.2.2.2.2.2
     [.press ⟨Qt.Key_W, 0⟩, .press ⟨Qt.Key_D, 0⟩, .release ⟨Qt.Key_W, 0⟩]
     (by intro d; cases d <;> decide)⟩

/-- C18 at a failing input: a `KeyDown` with Ctrl alone, and a `KeyUp` with Alt
alone, in which Shift is not held, set the speed scale to 3; with no modifier
it is 1. -/
theorem key_speed_any_modifier :
    Qt.ControlModifier &&& Qt.ShiftModifier = 0 ∧
    Qt.AltModifier &&& Qt.ShiftModifier = 0 ∧
    (CameraWrapper.KeyDown {} ⟨Qt.Key_W, Qt.ControlModifier⟩).m_CurrentSpeed = 3 ∧
    (CameraWrapper.KeyUp {} ⟨Qt.Key_W, Qt.AltModifier⟩).m_CurrentSpeed = 3 ∧
    (CameraWrapper.KeyDown {} ⟨Qt.Key_W, 0⟩).m_CurrentSpeed = 1 := by
  refine ⟨by decide, by decide, ?_, ?_, ?_⟩
  · rw [(CameraWrapper_key_other_fields {} ⟨Qt.Key_W, Qt.ControlModifier⟩).2.2.1]
    rfl
  · rw [(CameraWrapper_key_other_fields {} ⟨Qt.Key_W, Qt.AltModifier⟩).2.2.2.2.2]
    rfl
  · rw [(CameraWrapper_key_other_fields {} ⟨Qt.Key_W, 0⟩).2.2.1]
    rfl

/-- The drag anchor after a click and after a move: a click stores the
position; a move with the primary button held stores the position; a move
without it stores the sentinel `(-1, -1)`. -/
theorem drag_anchor_transitions (s : CameraWrapper) (e : QMouseEvent) :
    (s.MouseClick e).m_DragStartPos = e.pos ∧
    (e.buttons &&& Qt.LeftButton ≠ 0 → (s.MouseMove e).m_DragStartPos = e.pos) ∧
    (e.buttons &&& Qt.LeftButton = 0 → (s.MouseMove e).m_DragStartPos = ⟨-1, -1⟩) := by
  refine ⟨rfl, ?_, ?_⟩
  · intro h
    simp only [CameraWrapper.MouseMove, h, ne_eq, not_false_eq_true, if_true]
  · intro h
    simp only [CameraWrapper.MouseMove, h, ne_eq, not_true_eq_false, if_false]

/-- C19 at a failing input: a primary-button press at `(0, 5)` captures the
anchor `(0, 5)`, whose coordinates are not negative and which the base class
does not read as the sentinel; the next move to `(10, 5)` with the primary
button held finds no valid anchor: the fly camera does not rotate and the
arcball issues no rotation. After a press at `(1, 5)` the same move rotates
both. -/
theorem drag_anchor_at_x_zero :
    (FlycamWrapper.MouseClick {} ⟨⟨0, 5⟩, Qt.LeftButton, 0⟩).dragStartPos = ⟨0, 5⟩ ∧
    ¬ (FlycamWrapper.MouseClick {} ⟨⟨0, 5⟩, Qt.LeftButton, 0⟩).dragStartPos.x < 0 ∧
    ((FlycamWrapper.MouseClick {} ⟨⟨0, 5⟩, Qt.LeftButton, 0⟩).MouseMove
        ⟨⟨10, 5⟩, Qt.LeftButton, 0⟩).m_Rotation = {} ∧
    ((FlycamWrapper.MouseClick {} ⟨⟨0, 5⟩, Qt.LeftButton, 0⟩).MouseMove
        ⟨⟨10, 5⟩, Qt.LeftButton, 0⟩).m_Cam = [] ∧
    ((FlycamWrapper.MouseClick {} ⟨⟨1, 5⟩, Qt.LeftButton, 0⟩).MouseMove
        ⟨⟨10, 5⟩, Qt.LeftButton, 0⟩).m_Rotation.y = -(9 / 300) ∧
    ((ArcballWrapper.MouseClick { m_WinSize := ⟨0, 0, 99, 99⟩ }
        ⟨⟨0, 5⟩, Qt.LeftButton, 0⟩).MouseMove sampleBasis
        ⟨⟨10, 5⟩, Qt.LeftButton, 0⟩).m_Cam = [] ∧
    ((ArcballWrapper.MouseClick { m_WinSize := ⟨0, 0, 99, 99⟩ }
        ⟨⟨1, 5⟩, Qt.LeftButton, 0⟩).MouseMove sampleBasis
        ⟨⟨10, 5⟩, Qt.LeftButton, 0⟩).m_Cam
      = [.RotateArcball (some 0) (some 0) (some (9 / 50)) (some 0)] := by
  refine ⟨rfl, by decide, ?_, ?_, ?_, ?_, ?_⟩
  · simp [FlycamWrapper.MouseMove, FlycamWrapper.MouseClick, CameraWrapper.MouseClick,
      CameraWrapper.dragStartPos]
  · simp [FlycamWrapper.MouseMove, FlycamWrapper.MouseClick, CameraWrapper.MouseClick,
      CameraWrapper.dragStartPos]
  · simp [FlycamWrapper.MouseMove, FlycamWrapper.MouseClick, CameraWrapper.MouseClick,
      CameraWrapper.dragStartPos, Qt.LeftButton]
  · simp [ArcballWrapper.MouseMove, ArcballWrapper.MouseClick, CameraWrapper.MouseClick,
      CameraWrapper.dragStartPos]
  · simp [ArcballWrapper.MouseMove, ArcballWrapper.MouseClick, CameraWrapper.MouseClick,
      CameraWrapper.dragStartPos, Qt.LeftButton, Qt.MiddleButton, Qt.AltModifier,
      ArcballWrapper.RotateArcball, floatDiv, QRect.width, QRect.height]
    norm_num

/-- The test of `FlycamWrapper::MouseMove`: with an anchor whose x is above
zero and exactly the primary button held, yaw and pitch decrease by the cursor
delta over 300 and roll and position stay; in every other case rotation,
position and camera stay. The rotation is (pitch, yaw, roll) = (x, y, z). -/
theorem FlycamWrapper_MouseMove_rotation (s : FlycamWrapper) (e : QMouseEvent) :
    (s.dragStartPos.x > 0 → e.buttons = Qt.LeftButton →
      (s.MouseMove e).m_Rotation.y
        = s.m_Rotation.y - ((e.pos.x - s.dragStartPos.x : Int) : ℚ) / 300 ∧
      (s.MouseMove e).m_Rotation.x
        = s.m_Rotation.x - ((e.pos.y - s.dragStartPos.y : Int) : ℚ) / 300 ∧
      (s.MouseMove e).m_Rotation.z = s.m_Rotation.z ∧
      (s.MouseMove e).m_Position = s.m_Position) ∧
    (¬ s.dragStartPos.x > 0 ∨ e.buttons ≠ Qt.LeftButton →
      (s.MouseMove e).m_Rotation = s.m_Rotation ∧
      (s.MouseMove e).m_Position = s.m_Position ∧
      (s.MouseMove e).m_Cam = s.m_Cam) := by
  constructor
  · intro ha hb
    have hc : s.dragStartPos.x > 0 ∧ e.buttons = Qt.LeftButton := ⟨ha, hb⟩
    simp only [FlycamWrapper.MouseMove, hc, and_self, if_true]
  · intro h
    have hc : ¬ (s.dragStartPos.x > 0 ∧ e.buttons = Qt.LeftButton) := by
      rintro ⟨ha, hb⟩
      rcases h with h | h
      · exact h ha
      · exact h hb
    simp only [FlycamWrapper.MouseMove, hc, if_false]
    exact ⟨trivial, trivial, trivial⟩

/-- C20 at a failing input: a primary-button press at `(0, 40)` stores the
anchor `(0, 40)`, a valid anchor (its coordinates are not negative and it is
not the sentinel); the move to `(30, 10)` with exactly the primary button held
should give yaw `0 - 30/300` and pitch `0 - (10 - 40)/300`, but the rotation
stays `(0, 0, 0)` and no rotation is sent to the camera, because the move
accepts an anchor only when its x is above zero. After a press at `(1, 40)`
the same move gives yaw `-29/300` and pitch `1/10`. -/
theorem FlycamWrapper_MouseMove_anchor_zero :
    (FlycamWrapper.MouseClick {} ⟨⟨0, 40⟩, Qt.LeftButton, 0⟩).dragStartPos = ⟨0, 40⟩ ∧
    ((FlycamWrapper.MouseClick {} ⟨⟨0, 40⟩, Qt.LeftButton, 0⟩).MouseMove
        ⟨⟨30, 10⟩, Qt.LeftButton, 0⟩).m_Rotation = ⟨0, 0, 0, 0⟩ ∧
    ((FlycamWrapper.MouseClick {} ⟨⟨0, 40⟩, Qt.LeftButton, 0⟩).MouseMove
        ⟨⟨30, 10⟩, Qt.LeftButton, 0⟩).m_Rotation.y ≠ 0 - (((30 - 0 : Int) : ℚ)) / 300 ∧
    ((FlycamWrapper.MouseClick {} ⟨⟨0, 40⟩, Qt.LeftButton, 0⟩).MouseMove
        ⟨⟨30, 10⟩, Qt.LeftButton, 0⟩).m_Rotation.x ≠ 0 - (((10 - 40 : Int) : ℚ)) / 300 ∧
    ((FlycamWrapper.MouseClick {} ⟨⟨0, 40⟩, Qt.LeftButton, 0⟩).MouseMove
        ⟨⟨30, 10⟩, Qt.LeftButton, 0⟩).m_Cam = [] ∧
    ((FlycamWrapper.MouseClick {} ⟨⟨1, 40⟩, Qt.LeftButton, 0⟩).MouseMove
        ⟨⟨30, 10⟩, Qt.LeftButton, 0⟩).m_Rotation = ⟨1 / 10, -(29 / 300), 0, 0⟩ := by
  refine ⟨rfl, ?_, ?_, ?_, ?_, ?_⟩
  · simp [FlycamWrapper.MouseMove, FlycamWrapper.MouseClick, CameraWrapper.MouseClick,
      CameraWrapper.dragStartPos]
  · simp [FlycamWrapper.MouseMove, FlycamWrapper.MouseClick, CameraWrapper.MouseClick,
      CameraWrapper.dragStartPos]
  · simp [FlycamWrapper.MouseMove, FlycamWrapper.MouseClick, CameraWrapper.MouseClick,
      CameraWrapper.dragStartPos]
  · simp [FlycamWrapper.MouseMove, FlycamWrapper.MouseClick, CameraWrapper.MouseClick,
      CameraWrapper.dragStartPos]
  · simp [FlycamWrapper.MouseMove, FlycamWrapper.MouseClick, CameraWrapper.MouseClick,
      CameraWrapper.dragStartPos, Qt.LeftButton]
    norm_num


/-! ### Arcball rotation and panning -/

/-- With a window whose smaller side is not zero, `RotateArcball` appends one
rotation call whose first point is the origin and whose second point is the
cursor delta scaled by two over the smaller side, the vertical part negated. -/
theorem RotateArcball_call (s : ArcballWrapper) (from_ to_ : QPoint)
    (h : min s.m_WinSize.width s.m_WinSize.height ≠ 0) :
    s.RotateArcball from_ to_ =
      { s with m_Cam := s.m_Cam ++
          [.RotateArcball (some 0) (some 0)
            (some (2 * ((to_.x - from_.x : Int) : ℚ) /
              ((min s.m_WinSize.width s.m_WinSize.height : Int) : ℚ)))
            (some (-(2 * ((to_.y - from_.y : Int) : ℚ) /
              ((min s.m_WinSize.width s.m_WinSize.height : Int) : ℚ))))] } := by
  have hq : ((min s.m_WinSize.width s.m_WinSize.height : Int) : ℚ) ≠ 0 := by
    exact_mod_cast h
  simp only [ArcballWrapper.RotateArcball, floatDiv, if_neg hq, Option.map_some', neg_zero]
  congr 4 <;> ring_nf

/-- C21: arcball rotation is relative. For a window whose smaller side
`min(w, h)` is above zero, `RotateArcball(from, to)` issues exactly one
rotation, from the point `(0, 0)` to the point
`(2 * (to.x - from.x) / min(w, h), -2 * (to.y - from.y) / min(w, h))`, and
leaves the rest of the state alone; hence moving both `from` and `to` by the
same translation `t` gives the same result. -/
theorem RotateArcball_relative (s : ArcballWrapper) (from_ to_ t : QPoint)
    (h : 0 < min s.m_WinSize.width s.m_WinSize.height) :
    s.RotateArcball from_ to_ =
      { s with m_Cam := s.m_Cam ++
          [.RotateArcball (some 0) (some 0)
            (some (2 * ((to_.x - from_.x : Int) : ℚ) /
              ((min s.m_WinSize.width s.m_WinSize.height : Int) : ℚ)))
            (some (-(2 * ((to_.y - from_.y : Int) : ℚ) /
              ((min s.m_WinSize.width s.m_WinSize.height : Int) : ℚ))))] } ∧
    s.RotateArcball ⟨from_.x + t.x, from_.y + t.y⟩ ⟨to_.x + t.x, to_.y + t.y⟩ =
      s.RotateArcball from_ to_ := by
  have hne : min s.m_WinSize.width s.m_WinSize.height ≠ 0 := ne_of_gt h
  refine ⟨RotateArcball_call s from_ to_ hne, ?_⟩
  rw [RotateArcball_call s _ _ hne, RotateArcball_call s from_ to_ hne]
  have hx : to_.x + t.x - (from_.x + t.x) = to_.x - from_.x := by ring
  have hy : to_.y + t.y - (from_.y + t.y) = to_.y - from_.y := by ring
  simp only [hx, hy]

/-- A sample drag in a 200 by 100 window: from (20, 5) to (30, 10) the
rotation goes from the origin to (1/5, -1/10), and so does the same drag moved
by (7, 11). -/
theorem RotateArcball_relative_witness :
    (({ m_WinSize := ⟨0, 0, 199, 99⟩ } : ArcballWrapper).RotateArcball ⟨20, 5⟩ ⟨30, 10⟩).m_Cam =
        [.RotateArcball (some 0) (some 0) (some (1 / 5)) (some (-(1 / 10)))] ∧
    ({ m_WinSize := ⟨0, 0, 199, 99⟩ } : ArcballWrapper).RotateArcball ⟨27, 16⟩ ⟨37, 21⟩ =
      ({ m_WinSize := ⟨0, 0, 199, 99⟩ } : ArcballWrapper).RotateArcball ⟨20, 5⟩ ⟨30, 10⟩ := by
  have h := RotateArcball_relative { m_WinSize := ⟨0, 0, 199, 99⟩ } ⟨20, 5⟩ ⟨30, 10⟩ ⟨7, 11⟩
    (by decide)
  refine ⟨?_, h.2⟩
  rw [h.1]
  norm_num [QRect.width, QRect.height]


/-- With a window whose smaller side is zero, `RotateArcball` appends one
rotation call whose first point is the origin and whose second point is the
result of the two divisions by zero. -/
theorem RotateArcball_call_zero (s : ArcballWrapper) (from_ to_ : QPoint)
    (h : min s.m_WinSize.width s.m_WinSize.height = 0) :
    s.RotateArcball from_ to_ =
      { s with m_Cam := s.m_Cam ++ [.RotateArcball (some 0) (some 0) none none] } := by
  simp [ArcballWrapper.RotateArcball, floatDiv, h]

/-- C22 fails as stated: in its initial state, before any `Update`, the
arcball has an empty window (width 0 and height 0). A primary-button press at
`(20, 5)` and a move to `(30, 10)` with the button held is not a no-op: the
two divisions by `minDimension = 0` are made (their results are the `none`
arguments), one `Camera_RotateArcball` call is issued with them, and the
camera is no longer what it was. The same happens after `Update` with a window
of width 0 and height 100. -/
theorem RotateArcball_zero_window_not_guarded :
    ({} : ArcballWrapper).m_WinSize.width = 0 ∧
    ({} : ArcballWrapper).m_WinSize.height = 0 ∧
    ((ArcballWrapper.MouseClick {} ⟨⟨20, 5⟩, Qt.LeftButton, 0⟩).MouseMove sampleBasis
        ⟨⟨30, 10⟩, Qt.LeftButton, 0⟩).m_Cam
      = [.RotateArcball (some 0) (some 0) none none] ∧
    ((ArcballWrapper.MouseClick {} ⟨⟨20, 5⟩, Qt.LeftButton, 0⟩).MouseMove sampleBasis
        ⟨⟨30, 10⟩, Qt.LeftButton, 0⟩).m_Cam ≠ ({} : ArcballWrapper).m_Cam ∧
    (ArcballWrapper.Update {} ⟨0, 0, -1, 99⟩).1.m_WinSize.width = 0 ∧
    (ArcballWrapper.Update {} ⟨0, 0, -1, 99⟩).1.m_WinSize.height = 100 ∧
    (((ArcballWrapper.Update {} ⟨0, 0, -1, 99⟩).1.MouseClick
        ⟨⟨20, 5⟩, Qt.LeftButton, 0⟩).MouseMove sampleBasis
        ⟨⟨30, 10⟩, Qt.LeftButton, 0⟩).m_Cam
      = [.RotateArcball (some 0) (some 0) none none] := by
  refine ⟨by decide, by decide, ?_, ?_, by decide, by decide, ?_⟩
  · simp [ArcballWrapper.MouseMove, ArcballWrapper.MouseClick, CameraWrapper.MouseClick,
      CameraWrapper.dragStartPos, ArcballWrapper.RotateArcball, floatDiv, QRect.width,
      QRect.height, Qt.LeftButton, Qt.MiddleButton]
  · simp [ArcballWrapper.MouseMove, ArcballWrapper.MouseClick, CameraWrapper.MouseClick,
      CameraWrapper.dragStartPos, ArcballWrapper.RotateArcball, floatDiv, QRect.width,
      QRect.height, Qt.LeftButton, Qt.MiddleButton]
  · simp [ArcballWrapper.MouseMove, ArcballWrapper.MouseClick, CameraWrapper.MouseClick,
      CameraWrapper.dragStartPos, ArcballWrapper.RotateArcball, floatDiv, QRect.width,
      QRect.height, Qt.LeftButton, Qt.MiddleButton, ArcballWrapper.Update]

/-- C22 as amended: when the smaller side of the stored window is 0 (width 0
or height 0 and the other side not negative, as in the initial state before
the first `Update`), an arcball drag is not guarded. A move with exactly the
primary button held, without Alt, from an anchor that the move accepts makes
the two divisions by `minDimension = 0` and issues one `Camera_RotateArcball`
call from `(0, 0)` to their non-finite results; the window size, the distance
and the look-at point of the wrapper stay as they are, and the position of the
move becomes the next anchor. -/
theorem ArcballWrapper_MouseMove_zero_window (basis : Camera → Basis) (s : ArcballWrapper)
    (e : QMouseEvent) (hz : min s.m_WinSize.width s.m_WinSize.height = 0)
    (ha : s.dragStartPos.x > 0) (hb : e.buttons = Qt.LeftButton)
    (hm : e.modifiers &&& Qt.AltModifier = 0) :
    (s.MouseMove basis e).m_Cam = s.m_Cam ++ [.RotateArcball (some 0) (some 0) none none] ∧
    (s.MouseMove basis e).m_WinSize = s.m_WinSize ∧
    (s.MouseMove basis e).m_Distance = s.m_Distance ∧
    (s.MouseMove basis e).m_LookAt = s.m_LookAt ∧
    (s.MouseMove basis e).dragStartPos = e.pos := by
  have hmid : ¬ Qt.LeftButton = Qt.MiddleButton := by decide
  have hl : Qt.LeftButton &&& Qt.LeftButton ≠ 0 := by decide
  have ha2 : s.m_DragStartPos.x > 0 := ha
  simp only [ArcballWrapper.MouseMove, CameraWrapper.dragStartPos, ha2, hb, hm, if_true, hmid,
    ne_eq, not_true_eq_false, and_false, or_self, if_false, RotateArcball_call_zero s _ _ hz,
    CameraWrapper.MouseMove, hl, not_false_eq_true]
  exact ⟨trivial, trivial, trivial, trivial, trivial⟩

/-- Witness for C22: the arcball in its initial state after a primary-button
press at `(7, 9)`, moved to `(7, 9)` and to `(3, 20)`. -/
theorem ArcballWrapper_MouseMove_zero_window_witness :
    ((ArcballWrapper.MouseClick {} ⟨⟨7, 9⟩, Qt.LeftButton, 0⟩).MouseMove sampleBasis
        ⟨⟨3, 20⟩, Qt.LeftButton, 0⟩).m_Cam
      = (ArcballWrapper.MouseClick {} ⟨⟨7, 9⟩, Qt.LeftButton, 0⟩).m_Cam
        ++ [.RotateArcball (some 0) (some 0) none none] ∧
    ((ArcballWrapper.MouseClick {} ⟨⟨7, 9⟩, Qt.LeftButton, 0⟩).MouseMove sampleBasis
        ⟨⟨7, 9⟩, Qt.LeftButton, 0⟩).m_Cam
      = (ArcballWrapper.MouseClick {} ⟨⟨7, 9⟩, Qt.LeftButton, 0⟩).m_Cam
        ++ [.RotateArcball (some 0) (some 0) none none] :=
  ⟨(ArcballWrapper_MouseMove_zero_window sampleBasis
      (ArcballWrapper.MouseClick {} ⟨⟨7, 9⟩, Qt.LeftButton, 0⟩) ⟨⟨3, 20⟩, Qt.LeftButton, 0⟩
      (by decide) (by decide) rfl (by decide)).1,
   (ArcballWrapper_MouseMove_zero_window sampleBasis
      (ArcballWrapper.MouseClick {} ⟨⟨7, 9⟩, Qt.LeftButton, 0⟩) ⟨⟨7, 9⟩, Qt.LeftButton, 0⟩
      (by decide) (by decide) rfl (by decide)).1⟩

/-- A move with a valid anchor and the middle button alone, or the primary
button alone with Alt: the look-at point moves by the cursor delta since the
anchor, along the right and up vectors of the camera, scaled by
`max(1, distance) / 300`; the camera is repositioned there, and the base class
then stores the next anchor. -/
theorem ArcballWrapper_MouseMove_pan (basis : Camera → Basis) (s : ArcballWrapper)
    (e : QMouseEvent) (ha : s.dragStartPos.x > 0)
    (hb : e.buttons = Qt.MiddleButton ∨
      (e.buttons = Qt.LeftButton ∧ e.modifiers &&& Qt.AltModifier ≠ 0)) :
    (s.MouseMove basis e).m_LookAt =
        { s.m_LookAt with
          x := s.m_LookAt.x
            - (basis s.m_Cam).right.x
              * (((e.pos.x - s.dragStartPos.x : Int) : ℚ) / 300 * max 1 s.m_Distance)
            + (basis s.m_Cam).up.x
              * (((e.pos.y - s.dragStartPos.y : Int) : ℚ) / 300 * max 1 s.m_Distance)
          y := s.m_LookAt.y
            - (basis s.m_Cam).right.y
              * (((e.pos.x - s.dragStartPos.x : Int) : ℚ) / 300 * max 1 s.m_Distance)
            + (basis s.m_Cam).up.y
              * (((e.pos.y - s.dragStartPos.y : Int) : ℚ) / 300 * max 1 s.m_Distance)
          z := s.m_LookAt.z
            - (basis s.m_Cam).right.z
              * (((e.pos.x - s.dragStartPos.x : Int) : ℚ) / 300 * max 1 s.m_Distance)
            + (basis s.m_Cam).up.z
              * (((e.pos.y - s.dragStartPos.y : Int) : ℚ) / 300 * max 1 s.m_Distance) } ∧
    (s.MouseMove basis e).m_Cam =
      s.m_Cam ++ [.SetPosition (s.MouseMove basis e).m_LookAt.x
        (s.MouseMove basis e).m_LookAt.y (s.MouseMove basis e).m_LookAt.z] ∧
    (s.MouseMove basis e).dragStartPos =
      if e.buttons &&& Qt.LeftButton ≠ 0 then e.pos else ⟨-1, -1⟩ := by
  simp only [ArcballWrapper.MouseMove, ha, hb, if_true, qMax_eq_max]
  refine ⟨trivial, trivial, ?_⟩
  simp only [CameraWrapper.dragStartPos, CameraWrapper.MouseMove]
  split_ifs <;> rfl

/-- C23 at a failing input: an arcball in a 100 by 100 window, a press of the
middle button at `(20, 5)`, a move to `(30, 10)` and a move to `(40, 15)`, the
middle button held throughout. The first move pans the look-at point to
`(-1/3, 1/6, 0)` and repositions the camera; it also resets the anchor to
`(-1, -1)`, because the base class keeps an anchor only while the primary
button is held. The second move therefore pans nothing: the look-at point and
the camera calls stay as the first move left them. With the primary button and
Alt the second move pans again, to `(-2/3, 1/3, 0)`. -/
theorem middle_drag_pans_once :
    (((ArcballWrapper.MouseClick { m_WinSize := ⟨0, 0, 99, 99⟩ }
        ⟨⟨20, 5⟩, Qt.MiddleButton, 0⟩).MouseMove sampleBasis
        ⟨⟨30, 10⟩, Qt.MiddleButton, 0⟩).m_LookAt = ⟨-(1 / 3), 1 / 6, 0, 0⟩) ∧
    (((ArcballWrapper.MouseClick { m_WinSize := ⟨0, 0, 99, 99⟩ }
        ⟨⟨20, 5⟩, Qt.MiddleButton, 0⟩).MouseMove sampleBasis
        ⟨⟨30, 10⟩, Qt.MiddleButton, 0⟩).dragStartPos = ⟨-1, -1⟩) ∧
    ((((ArcballWrapper.MouseClick { m_WinSize := ⟨0, 0, 99, 99⟩ }
        ⟨⟨20, 5⟩, Qt.MiddleButton, 0⟩).MouseMove sampleBasis
        ⟨⟨30, 10⟩, Qt.MiddleButton, 0⟩).MouseMove sampleBasis
        ⟨⟨40, 15⟩, Qt.MiddleButton, 0⟩).m_LookAt = ⟨-(1 / 3), 1 / 6, 0, 0⟩) ∧
    ((((ArcballWrapper.MouseClick { m_WinSize := ⟨0, 0, 99, 99⟩ }
        ⟨⟨20, 5⟩, Qt.MiddleButton, 0⟩).MouseMove sampleBasis
        ⟨⟨30, 10⟩, Qt.MiddleButton, 0⟩).MouseMove sampleBasis
        ⟨⟨40, 15⟩, Qt.MiddleButton, 0⟩).m_Cam = [.SetPosition (-(1 / 3)) (1 / 6) 0]) ∧
    ((((ArcballWrapper.MouseClick { m_WinSize := ⟨0, 0, 99, 99⟩ }
        ⟨⟨20, 5⟩, Qt.LeftButton, Qt.AltModifier⟩).MouseMove sampleBasis
        ⟨⟨30, 10⟩, Qt.LeftButton, Qt.AltModifier⟩).MouseMove sampleBasis
        ⟨⟨40, 15⟩, Qt.LeftButton, Qt.AltModifier⟩).m_LookAt = ⟨-(2 / 3), 1 / 3, 0, 0⟩) := by
  refine ⟨?_, ?_, ?_, ?_, ?_⟩
  · simp [ArcballWrapper.MouseMove, ArcballWrapper.MouseClick, CameraWrapper.MouseClick,
      CameraWrapper.dragStartPos, sampleBasis, qMax_eq_max]
    norm_num
  · simp [ArcballWrapper.MouseMove, ArcballWrapper.MouseClick, CameraWrapper.MouseClick,
      CameraWrapper.dragStartPos, CameraWrapper.MouseMove, Qt.MiddleButton, Qt.LeftButton]
  · simp [ArcballWrapper.MouseMove, ArcballWrapper.MouseClick, CameraWrapper.MouseClick,
      CameraWrapper.dragStartPos, CameraWrapper.MouseMove, Qt.MiddleButton, Qt.LeftButton,
      sampleBasis, qMax_eq_max]
    norm_num
  · simp [ArcballWrapper.MouseMove, ArcballWrapper.MouseClick, CameraWrapper.MouseClick,
      CameraWrapper.dragStartPos, CameraWrapper.MouseMove, Qt.MiddleButton, Qt.LeftButton,
      sampleBasis, qMax_eq_max]
    norm_num
  · simp [ArcballWrapper.MouseMove, ArcballWrapper.MouseClick, CameraWrapper.MouseClick,
      CameraWrapper.dragStartPos, CameraWrapper.MouseMove, Qt.MiddleButton, Qt.LeftButton,
      Qt.AltModifier, sampleBasis, qMax_eq_max]
    norm_num


/-! ### Camera guesses -/

/-- The planes after `camGuess_changed`, in closed form: the near plane is the
far guess when that is above zero, else the near guess when that is above
zero, else the stage estimate; the far plane is the near guess when that is
above zero, else the stage estimate. -/
theorem camGuess_changed_planes (ui : GuessControls) (vp : Viewport) (s : GuessState) :
    (camGuess_changed ui vp s).m_Config.position.nearPlane =
        (if ui.farGuess > 0 then ui.farGuess
         else if ui.nearGuess > 0 then ui.nearGuess
         else match s.m_CurStage with
           | eMeshDataStage_VSOut => s.m_PostVS.nearPlane
           | eMeshDataStage_GSOut => s.m_PostGS.nearPlane
           | _ => 1 / 10) ∧
    (camGuess_changed ui vp s).m_Config.position.farPlane =
        (if ui.nearGuess > 0 then ui.nearGuess
         else match s.m_CurStage with
           | eMeshDataStage_VSOut => s.m_PostVS.farPlane
           | eMeshDataStage_GSOut => s.m_PostGS.farPlane
           | _ => 100) := by
  cases hs : s.m_CurStage <;> simp [camGuess_changed, hs]

/-- With no guess above zero `camGuess_changed` uses the stage estimates: 0.1
and 100 for VS input (and an unknown stage), the post-VS or post-GS planes for
the output stages. -/
theorem camGuess_changed_estimates (ui : GuessControls) (vp : Viewport) (s : GuessState)
    (hn : ¬ ui.nearGuess > 0) (hf : ¬ ui.farGuess > 0) :
    (camGuess_changed ui vp s).m_Config.position =
      match s.m_CurStage with
      | eMeshDataStage_VSOut => { s.m_Config.position with
          nearPlane := s.m_PostVS.nearPlane, farPlane := s.m_PostVS.farPlane }
      | eMeshDataStage_GSOut => { s.m_Config.position with
          nearPlane := s.m_PostGS.nearPlane, farPlane := s.m_PostGS.farPlane }
      | _ => { s.m_Config.position with nearPlane := 1 / 10, farPlane := 100 } := by
  cases hs : s.m_CurStage <;> simp [camGuess_changed, hs, hn, hf]

/-- The guesses of `ConfigureMeshColumns`: a near guess above zero becomes the
near plane of both output stages, a far guess above zero their far plane. -/
theorem ConfigureMeshColumns_guesses_planes (ui : GuessControls) (vp : Viewport)
    (s : GuessState) :
    (ConfigureMeshColumns_guesses ui vp s).m_PostVS.nearPlane
      = (if ui.nearGuess > 0 then ui.nearGuess else s.m_PostVS.nearPlane) ∧
    (ConfigureMeshColumns_guesses ui vp s).m_PostGS.nearPlane
      = (if ui.nearGuess > 0 then ui.nearGuess else s.m_PostGS.nearPlane) ∧
    (ConfigureMeshColumns_guesses ui vp s).m_PostVS.farPlane
      = (if ui.farGuess > 0 then ui.farGuess else s.m_PostVS.farPlane) ∧
    (ConfigureMeshColumns_guesses ui vp s).m_PostGS.farPlane
      = (if ui.farGuess > 0 then ui.farGuess else s.m_PostGS.farPlane) := by
  simp only [ConfigureMeshColumns_guesses]
  split_ifs <;> exact ⟨rfl, rfl, rfl, rfl⟩

/-- C24 at a failing input: VS input stage, near guess 1 and far guess 1000.
After `camGuess_changed` the near plane of the display configuration is 1000,
the far guess, and the far plane is 1, the near guess: the two overrides go to
the opposite planes. With a far guess alone (near guess 0) the near plane is
1000 and the far plane stays at the estimate 100; with a near guess alone the
far plane is 1. For the same guesses `ConfigureMeshColumns` stores near 1 and
far 1000. -/
theorem camGuess_changed_swaps_planes :
    (camGuess_changed sampleGuesses sampleViewport {}).m_Config.position.nearPlane = 1000 ∧
    (camGuess_changed sampleGuesses sampleViewport {}).m_Config.position.farPlane = 1 ∧
    (camGuess_changed ⟨0, 90, 0, 0, 1000⟩ sampleViewport {}).m_Config.position
      = ⟨1000, 100⟩ ∧
    (camGuess_changed ⟨0, 90, 0, 1, 0⟩ sampleViewport {}).m_Config.position = ⟨1, 1⟩ ∧
    (ConfigureMeshColumns_guesses sampleGuesses sampleViewport {}).m_PostVS = ⟨1, 1000⟩ ∧
    (ConfigureMeshColumns_guesses sampleGuesses sampleViewport {}).m_PostGS = ⟨1, 1000⟩ := by
  refine ⟨?_, ?_, ?_, ?_, ?_, ?_⟩ <;>
    simp [camGuess_changed, ConfigureMeshColumns_guesses, sampleGuesses]


/-! ### VS-output columns -/

/-- One more round of the first loop of `ConfigureMeshColumns`. -/
theorem ConfigureMeshColumns_build_concat (env : PostVSInputs) (l : List SigParameter)
    (a : SigParameter) :
    ConfigureMeshColumns_build env (l ++ [a]) =
      ((ConfigureMeshColumns_build env l).1 ++ [ConfigureMeshColumns_element a],
       (ConfigureMeshColumns_build env l).2.1 + 1,
       if a.systemValue = env.eAttr_Position then (ConfigureMeshColumns_build env l).2.1
       else (ConfigureMeshColumns_build env l).2.2) := by
  simp only [ConfigureMeshColumns_build, List.foldl_append, List.foldl_cons, List.foldl_nil]

/-- The first loop of `ConfigureMeshColumns`: one element for each parameter,
in order; the counter ends at the length of the signature; `posidx` is -1 when
no parameter is flagged as position and otherwise the index of the last
flagged one. -/
theorem ConfigureMeshColumns_build_spec (env : PostVSInputs) (sig : List SigParameter) :
    (ConfigureMeshColumns_build env sig).1 = sig.map ConfigureMeshColumns_element ∧
    (ConfigureMeshColumns_build env sig).2.1 = (sig.length : Int) ∧
    (((ConfigureMeshColumns_build env sig).2.2 = -1 ∧
        ∀ s ∈ sig, s.systemValue ≠ env.eAttr_Position) ∨
      ∃ (p : Nat) (s : SigParameter),
        (ConfigureMeshColumns_build env sig).2.2 = (p : Int) ∧ sig[p]? = some s ∧
        s.systemValue = env.eAttr_Position ∧
        ∀ (j : Nat) (t : SigParameter), p < j → sig[j]? = some t →
          t.systemValue ≠ env.eAttr_Position) := by
  induction sig using List.reverseRecOn with
  | nil =>
    refine ⟨rfl, rfl, Or.inl ⟨rfl, ?_⟩⟩
    intro s hs
    cases hs
  | append_singleton l a ih =>
    obtain ⟨ih1, ih2, ih3⟩ := ih
    rw [ConfigureMeshColumns_build_concat]
    refine ⟨?_, ?_, ?_⟩
    · simp only [ih1, List.map_append, List.map_cons, List.map_nil]
    · simp only [ih2, List.length_append, List.length_singleton]
      push_cast
      rfl
    · by_cases ha : a.systemValue = env.eAttr_Position
      · refine Or.inr ⟨l.length, a, ?_, ?_, ha, ?_⟩
        · simp only [ha, if_true, ih2]
        · simp
        · intro j t hj hjt
          rw [List.getElem?_append_right (le_of_lt hj)] at hjt
          have : j - l.length ≠ 0 := by omega
          obtain ⟨k, hk⟩ := Nat.exists_eq_succ_of_ne_zero this
          rw [hk] at hjt
          simp at hjt
      · simp only [ha, if_false]
        rcases ih3 with ⟨h1, h2⟩ | ⟨p, s, h1, h2, h3, h4⟩
        · refine Or.inl ⟨h1, ?_⟩
          intro s hs
          rcases List.mem_append.1 hs with hs | hs
          · exact h2 s hs
          · rw [List.mem_singleton.1 hs]
            exact ha
        · have hp : p < l.length := by
            by_contra hc
            rw [List.getElem?_eq_none (not_lt.1 hc)] at h2
            cases h2
          refine Or.inr ⟨p, s, h1, ?_, h3, ?_⟩
          · rw [List.getElem?_append_left hp]
            exact h2
          · intro j t hj hjt
            by_cases hjl : j < l.length
            · rw [List.getElem?_append_left hjl] at hjt
              exact h4 j t hj hjt
            · rw [List.getElem?_append_right (not_lt.1 hjl)] at hjt
              rcases Nat.eq_zero_or_pos (j - l.length) with h0 | h0
              · rw [h0] at hjt
                simp only [List.getElem?_cons_zero, Option.some.injEq] at hjt
                rw [← hjt]
                exact ha
              · obtain ⟨k, hk⟩ := Nat.exists_eq_succ_of_ne_zero (ne_of_gt h0)
                rw [hk] at hjt
                simp at hjt

/-- Storing an element that differs from the one at place `i` only in a part
that `f` forgets does not change the image of the list under `f`. -/
theorem map_set_of_eq {α β : Type} (f : α → β) (l : List α) (i : Nat) (a b : α)
    (h : l[i]? = some a) (hf : f b = f a) : (l.set i b).map f = l.map f := by
  apply List.ext_getElem?
  intro j
  simp only [List.getElem?_map, List.getElem?_set]
  by_cases hij : i = j
  · subst hij
    have hi : i < l.length := by
      by_contra hc
      rw [List.getElem?_eq_none (not_lt.1 hc)] at h
      cases h
    simp only [if_true, hi, h, Option.map_some', hf]
  · simp only [hij, if_false]

/-- The second loop of `ConfigureMeshColumns` changes offsets only: the list
keeps its length, and every element keeps every other field. -/
theorem ConfigureMeshColumns_offsets_spec (env : PostVSInputs) (sig : List SigParameter) :
    ∀ (i offset : Nat) (columns : List FormatElement),
      (ConfigureMeshColumns_offsets env sig i offset columns).length = columns.length ∧
      (ConfigureMeshColumns_offsets env sig i offset columns).map
          (fun c => { c with offset := 0 })
        = columns.map (fun c => { c with offset := 0 }) := by
  induction sig with
  | nil =>
    intro i offset columns
    exact ⟨rfl, rfl⟩
  | cons a rest ih =>
    intro i offset columns
    simp only [ConfigureMeshColumns_offsets]
    cases hc : columns[i]? with
    | none => exact ih _ _ _
    | some el =>
      simp only
      refine ⟨?_, ?_⟩
      · rw [(ih _ _ _).1, List.length_set]
      · rw [(ih _ _ _).2]
        exact map_set_of_eq _ columns i el _ hc rfl


/-- The columns after the two loops are the elements of the signature in
order, each with its stored offset. -/
theorem ConfigureMeshColumns_signatureOrder_spec (env : PostVSInputs)
    (sig : List SigParameter) :
    (ConfigureMeshColumns_signatureOrder env sig).length = sig.length ∧
    (ConfigureMeshColumns_signatureOrder env sig).map (fun c => { c with offset := 0 })
      = sig.map ConfigureMeshColumns_element := by
  have hb := (ConfigureMeshColumns_build_spec env sig).1
  have ho := ConfigureMeshColumns_offsets_spec env sig 0 0 (ConfigureMeshColumns_build env sig).1
  refine ⟨?_, ?_⟩
  · rw [ConfigureMeshColumns_signatureOrder, ho.1, hb, List.length_map]
  · rw [ConfigureMeshColumns_signatureOrder, ho.2, hb, List.map_map]
    apply List.map_congr_left
    intro a _
    rfl

/-- The value of `posidx` when the last parameter flagged as position is at
index `p`. -/
theorem ConfigureMeshColumns_build_posidx (env : PostVSInputs) (sig : List SigParameter)
    (p : Nat) (s : SigParameter) (hp : sig[p]? = some s)
    (hs : s.systemValue = env.eAttr_Position)
    (hlast : ∀ (j : Nat) (t : SigParameter), p < j → sig[j]? = some t →
      t.systemValue ≠ env.eAttr_Position) :
    (ConfigureMeshColumns_build env sig).2.2 = (p : Int) := by
  rcases (ConfigureMeshColumns_build_spec env sig).2.2 with ⟨_, h2⟩ | ⟨q, t, h1, h2, h3, h4⟩
  · exact absurd hs (h2 s (List.mem_iff_getElem?.2 ⟨_, hp⟩))
  · rcases Nat.lt_trichotomy p q with h | h | h
    · exact absurd h3 (hlast q t h h2)
    · rw [h1, h]
    · exact absurd hs (h4 p s h hp)

/-- C25: with a draw call and a vertex shader, `ConfigureMeshColumns` builds
the VS-output columns from the output signature by shifting the position
attribute to the front and keeping the order otherwise. The columns after the
two loops (`ConfigureMeshColumns_signatureOrder`) are the signature's elements
in order with their offsets. The final list has the length of the signature;
when the last parameter flagged as position is at an index `p > 0`, the final
list is the element at `p` followed by the others in their order, every
element with the offset it got at its signature place; when no parameter is
flagged, or the last flagged one is at index 0, the final list is the
signature order. -/
theorem ConfigureMeshColumns_VSOut_position_first (env : PostVSInputs)
    (sig : List SigParameter) (m : BufferItemModel) :
    (ConfigureMeshColumns_signatureOrder env sig).map (fun c => { c with offset := 0 })
      = sig.map ConfigureMeshColumns_element ∧
    (ConfigureMeshColumns_VSOut env true sig m).columns.length = sig.length ∧
    (∀ (p : Nat) (s : SigParameter), 0 < p → sig[p]? = some s →
      s.systemValue = env.eAttr_Position →
      (∀ (j : Nat) (t : SigParameter), p < j → sig[j]? = some t →
        t.systemValue ≠ env.eAttr_Position) →
      ∃ pos, (ConfigureMeshColumns_signatureOrder env sig)[p]? = some pos ∧
        (ConfigureMeshColumns_VSOut env true sig m).columns
          = pos :: (ConfigureMeshColumns_signatureOrder env sig).eraseIdx p) ∧
    ((∀ s ∈ sig, s.systemValue ≠ env.eAttr_Position) →
      (ConfigureMeshColumns_VSOut env true sig m).columns
        = ConfigureMeshColumns_signatureOrder env sig) ∧
    (∀ (s : SigParameter), sig[0]? = some s → s.systemValue = env.eAttr_Position →
      (∀ (j : Nat) (t : SigParameter), 0 < j → sig[j]? = some t →
        t.systemValue ≠ env.eAttr_Position) →
      (ConfigureMeshColumns_VSOut env true sig m).columns
        = ConfigureMeshColumns_signatureOrder env sig) := by
  have hS := ConfigureMeshColumns_signatureOrder_spec env sig
  have hcols : (ConfigureMeshColumns_VSOut env true sig m).columns =
      ConfigureMeshColumns_shift (ConfigureMeshColumns_signatureOrder env sig)
        (ConfigureMeshColumns_build env sig).2.2 := rfl
  have hshift : ∀ (p : Nat), 0 < p → p < sig.length →
      (ConfigureMeshColumns_build env sig).2.2 = (p : Int) →
      ∃ pos, (ConfigureMeshColumns_signatureOrder env sig)[p]? = some pos ∧
        (ConfigureMeshColumns_VSOut env true sig m).columns
          = pos :: (ConfigureMeshColumns_signatureOrder env sig).eraseIdx p := by
    intro p hp0 hpl hidx
    have hlt : p < (ConfigureMeshColumns_signatureOrder env sig).length := by
      rw [hS.1]
      exact hpl
    refine ⟨(ConfigureMeshColumns_signatureOrder env sig)[p], List.getElem?_eq_getElem hlt, ?_⟩
    have hpos : (p : Int) > 0 := by exact_mod_cast hp0
    rw [hcols, hidx, ConfigureMeshColumns_shift, if_pos hpos, Int.toNat_ofNat,
      List.getElem?_eq_getElem hlt]
  refine ⟨hS.2, ?_, ?_, ?_, ?_⟩
  · rcases (ConfigureMeshColumns_build_spec env sig).2.2 with ⟨h1, _⟩ | ⟨q, t, h1, h2, _, _⟩
    · rw [hcols, h1, ConfigureMeshColumns_shift, if_neg (by decide)]
      exact hS.1
    · have hq : q < sig.length := by
        by_contra hc
        rw [List.getElem?_eq_none (not_lt.1 hc)] at h2
        cases h2
      rcases Nat.eq_zero_or_pos q with h0 | h0
      · rw [hcols, h1, h0, ConfigureMeshColumns_shift, if_neg (by decide)]
        exact hS.1
      · obtain ⟨pos, _, hr⟩ := hshift q h0 hq h1
        rw [hr, List.length_cons, List.length_eraseIdx, hS.1, if_pos hq]
        omega
  · intro p s hp0 hp hs hlast
    have hpl : p < sig.length := by
      by_contra hc
      rw [List.getElem?_eq_none (not_lt.1 hc)] at hp
      cases hp
    exact hshift p hp0 hpl (ConfigureMeshColumns_build_posidx env sig p s hp hs hlast)
  · intro hnone
    rcases (ConfigureMeshColumns_build_spec env sig).2.2 with ⟨h1, _⟩ | ⟨q, t, _, h2, h3, _⟩
    · rw [hcols, h1, ConfigureMeshColumns_shift, if_neg (by decide)]
    · exact absurd h3 (hnone t (List.mem_iff_getElem?.2 ⟨_, h2⟩))
  · intro s hp hs hlast
    rw [hcols, ConfigureMeshColumns_build_posidx env sig 0 s hp hs hlast,
      ConfigureMeshColumns_shift, if_neg (by decide)]

/-- The sample signature has the position as its third parameter: the columns
are the position, then the colour and the texture coordinate, with the offsets
32, 0 and 16 of their signature places. Without the position parameter, and
with the signature reversed so that the position comes first, the columns are
in signature order. -/
theorem ConfigureMeshColumns_VSOut_position_first_witness :
    (ConfigureMeshColumns_VSOut samplePostVS true sampleSignature {}).columns.length = 3 ∧
    (ConfigureMeshColumns_VSOut samplePostVS true (sampleSignature.take 2) {}).columns =
      ConfigureMeshColumns_signatureOrder samplePostVS (sampleSignature.take 2) ∧
    (ConfigureMeshColumns_VSOut samplePostVS true sampleSignature.reverse {}).columns =
      ConfigureMeshColumns_signatureOrder samplePostVS sampleSignature.reverse ∧
    (ConfigureMeshColumns_VSOut samplePostVS true sampleSignature {}).columns =
      [⟨"pos", ⟨eSpecial_Unknown, 4⟩, 0, 32, false, 1, false⟩,
       ⟨"col", ⟨eSpecial_Unknown, 3⟩, 0, 0, false, 1, false⟩,
       ⟨"TEXCOORD0", ⟨eSpecial_Unknown, 2⟩, 0, 16, false, 1, false⟩] := by
  have h := ConfigureMeshColumns_VSOut_position_first samplePostVS sampleSignature {}
  refine ⟨h.2.1, ?_, ?_, ?_⟩
  · exact (ConfigureMeshColumns_VSOut_position_first samplePostVS (sampleSignature.take 2)
      {}).2.2.2.1 (by decide)
  · refine (ConfigureMeshColumns_VSOut_position_first samplePostVS sampleSignature.reverse
      {}).2.2.2.2 ⟨"pos", "SV_Position", 4, 3, 1⟩ rfl rfl ?_
    intro j t hj hjt
    match j, hj, hjt with
    | 1, _, h1 =>
      cases h1
      decide
    | 2, _, h2 =>
      cases h2
      decide
    | k + 3, _, h3 => cases h3
  obtain ⟨pos, hpos, hr⟩ := h.2.2.1 2 ⟨"pos", "SV_Position", 4, 3, 1⟩ (by decide) rfl rfl
    (by
      intro j t hj hjt
      have hn : sampleSignature[j]? = none := List.getElem?_eq_none (by
        simp only [sampleSignature, List.length_cons, List.length_nil]
        omega)
      rw [hn] at hjt
      cases hjt)
  rw [hr]
  have hpos2 : some pos = some ⟨"pos", ⟨eSpecial_Unknown, 4⟩, 0, 32, false, 1, false⟩ := by
    rw [← hpos]
    decide
  rw [Option.some.inj hpos2]
  decide


/-! ### Header labels of one attribute -/

theorem label_suffix_inj (name : String) (c1 c2 : Char)
    (h : name ++ "." ++ c1.toString = name ++ "." ++ c2.toString) : c1 = c2 := by
  have hd := congrArg String.data h
  simp only [String.data_append, List.append_assoc, List.append_cancel_left_eq] at hd
  simpa [Char.toString, String.singleton] using hd

theorem mem_enumFrom_fst_ge {α : Type} (l : List α) (n : Nat) (p : Nat × α)
    (h : p ∈ l.enumFrom n) : n ≤ p.1 := by
  induction l generalizing n with
  | nil => cases h
  | cons a l ih =>
    rw [List.enumFrom_cons] at h
    rcases List.mem_cons.1 h with h | h
    · rw [h]
    · exact Nat.le_of_succ_le (ih (n + 1) h)

theorem nodup_layout_from (g : FormatElement → Nat) (l : List FormatElement) (n : Nat) :
    ((l.enumFrom n).flatMap (fun p => (List.range (g p.2)).map (fun c => (p.1, c)))).Nodup := by
  induction l generalizing n with
  | nil => simp
  | cons a l ih =>
    rw [List.enumFrom_cons, List.flatMap_cons, List.nodup_append]
    refine ⟨?_, ih (n + 1), ?_⟩
    · exact (List.nodup_range _).map (fun x y hxy => congrArg Prod.snd hxy)
    · intro x hx1 hx2
      obtain ⟨c, _, hc⟩ := List.mem_map.1 hx1
      obtain ⟨p, hp, hx⟩ := List.mem_flatMap.1 hx2
      obtain ⟨c2, _, hc2⟩ := List.mem_map.1 hx
      have h1 : x.1 = n := by rw [← hc]
      have h2 : x.1 = p.1 := by rw [← hc2]
      have := mem_enumFrom_fst_ge l (n + 1) p hp
      omega

/-- Two different table columns of the same attribute have different
component indices. -/
theorem components_distinct (columns : List FormatElement) (k1 k2 a c1 c2 : Nat)
    (hne : k1 ≠ k2)
    (h1 : (cacheColumns_loop columns).1[k1]? = some a)
    (h2 : (cacheColumns_loop columns).1[k2]? = some a)
    (hc1 : (cacheColumns_loop columns).2[k1]? = some c1)
    (hc2 : (cacheColumns_loop columns).2[k2]? = some c2) : c1 ≠ c2 := by
  intro hc
  have hz1 : ((cacheColumns_loop columns).1.zip (cacheColumns_loop columns).2)[k1]?
      = some (a, c1) := List.getElem?_zip_eq_some.mpr ⟨h1, hc1⟩
  have hz2 : ((cacheColumns_loop columns).1.zip (cacheColumns_loop columns).2)[k2]?
      = some (a, c1) := by
    rw [hc]
    exact List.getElem?_zip_eq_some.mpr ⟨h2, hc2⟩
  have hnd : ((cacheColumns_loop columns).1.zip (cacheColumns_loop columns).2).Nodup := by
    rw [zip_cacheColumns_loop]
    exact nodup_layout_from (fun el => cacheColumns_compCount el.format) columns 0
  obtain ⟨hl1, he1⟩ := List.getElem?_eq_some.1 hz1
  obtain ⟨hl2, he2⟩ := List.getElem?_eq_some.1 hz2
  exact hne ((List.Nodup.getElem_inj_iff hnd).1 (he1.trans he2.symm))

/-- The header of a data column whose attribute has a nominal component count
other than 1 and at most 4: the name, a dot, and the letter of the component
index of the column. -/
theorem headerData_suffixed (m : BufferItemModel) (k a c : Nat) (el : FormatElement)
    (h1 : (cacheColumns_loop m.columns).1[k]? = some a)
    (hc : (cacheColumns_loop m.columns).2[k]? = some c)
    (hel : m.columns[a]? = some el) (hn : el.format.compCount ≠ 1)
    (h4 : el.format.compCount ≤ 4) :
    ∃ ch, comps[c]? = some ch ∧
      headerData (endReset m) (reservedColumnCount m + k) .Horizontal .DisplayRole
        = some (.QString (el.name ++ "." ++ ch.toString)) := by
  obtain ⟨hmv, -, -, hcl, -, -, hlk, hcl2, hcc, hres⟩ := endReset_fields m
  obtain ⟨hk, -⟩ := List.getElem?_eq_some.1 h1
  obtain ⟨el2, hel2, hlt⟩ := lookup_pair_bound m.columns k a c h1 hc
  rw [hel] at hel2
  cases hel2
  have hc4 : c < 4 := lt_of_lt_of_le hlt (cacheColumns_compCount_le_four el.format h4)
  have hr0 : 0 ≤ reservedColumnCount m := by
    unfold reservedColumnCount
    split <;> decide
  have hsec : reservedColumnCount m + (k : Int) < (endReset m).m_ColumnCount := by
    rw [hcc]
    omega
  have hm0 : ¬ (reservedColumnCount m + (k : Int) = 0 ∧ (endReset m).meshView = true) := by
    rintro ⟨h0, hm⟩
    rw [hmv] at hm
    simp only [reservedColumnCount, hm, if_true] at h0
    omega
  have hm1 : ¬ (reservedColumnCount m + (k : Int) = 1 ∧ (endReset m).meshView = true) := by
    rintro ⟨h0, hm⟩
    rw [hmv] at hm
    simp only [reservedColumnCount, hm, if_true] at h0
    omega
  have hkk : ¬ (reservedColumnCount m + (k : Int) - reservedColumnCount m < 0) := by omega
  have hkn : (reservedColumnCount m + (k : Int) - reservedColumnCount m).toNat = k := by omega
  have hcol : columnForIndex (endReset m) (reservedColumnCount m + k) = some el := by
    simp only [columnForIndex, hres, hkk, if_false, hkn, hlk, h1, hcl, hel]
  have hcomp : componentForIndex (endReset m) (reservedColumnCount m + k) = some c := by
    simp only [componentForIndex, hres, hkk, if_false, hkn, hcl2, hc]
  have hch : c < comps.length := hc4
  refine ⟨comps[c], List.getElem?_eq_getElem hch, ?_⟩
  simp only [headerData, hsec, true_and, and_self, if_true, hm0, hm1, if_false, hcol, hn, hcomp,
    List.getElem?_eq_getElem hch]

/-- Where the labels of one attribute are distinct: two different table
columns of the same attribute, whose nominal component count is other than 1
and at most 4, have different header labels. -/
theorem headerData_labels_distinct (m : BufferItemModel) (k1 k2 a : Nat) (el : FormatElement)
    (hne : k1 ≠ k2)
    (h1 : (endReset m).columnLookup[k1]? = some a)
    (h2 : (endReset m).columnLookup[k2]? = some a)
    (hel : m.columns[a]? = some el) (hn : el.format.compCount ≠ 1)
    (h4 : el.format.compCount ≤ 4) :
    headerData (endReset m) (reservedColumnCount m + k1) .Horizontal .DisplayRole ≠
      headerData (endReset m) (reservedColumnCount m + k2) .Horizontal .DisplayRole := by
  obtain ⟨-, -, -, -, -, -, hlk, -, -, -⟩ := endReset_fields m
  rw [hlk] at h1 h2
  obtain ⟨hk1, -⟩ := List.getElem?_eq_some.1 h1
  obtain ⟨hk2, -⟩ := List.getElem?_eq_some.1 h2
  rw [← length_componentLookup] at hk1 hk2
  have hc1 := List.getElem?_eq_getElem hk1
  have hc2 := List.getElem?_eq_getElem hk2
  obtain ⟨ch1, hch1, hd1⟩ := headerData_suffixed m k1 a _ el h1 hc1 hel hn h4
  obtain ⟨ch2, hch2, hd2⟩ := headerData_suffixed m k2 a _ el h2 hc2 hel hn h4
  have hcne := components_distinct m.columns k1 k2 a _ _ hne h1 h2 hc1 hc2
  rw [hd1, hd2]
  intro heq
  have hs : el.name ++ "." ++ ch1.toString = el.name ++ "." ++ ch2.toString := by
    injection heq with heq
    injection heq
  have hch := label_suffix_inj el.name ch1 ch2 hs
  rw [hch] at hch1
  have hnd : comps.Nodup := by decide
  obtain ⟨hl1, he1⟩ := List.getElem?_eq_some.1 hch1
  obtain ⟨hl2, he2⟩ := List.getElem?_eq_some.1 hch2
  exact hcne ((List.Nodup.getElem_inj_iff hnd).1 (he1.trans he2.symm))

/-- C26 at a failing input: a raw table with the single attribute `tex`, of
special encoding BC1 and nominal component count 1. Its effective component
count is 4 and the table has four columns, all of this attribute, but
`headerData` tests the nominal count and labels every one of them `tex`: one
distinct label for four columns. With the nominal count 4 the four labels are
`tex.x`, `tex.y`, `tex.z`, `tex.w`. -/
theorem headerData_special_scalar_labels_collide :
    cacheColumns_compCount ⟨eSpecial_BC1, 1⟩ = 4 ∧
    columnCount (sampleSpecialTable 1) = 4 ∧
    (sampleSpecialTable 1).columnLookup = [0, 0, 0, 0] ∧
    (∀ section_ ∈ [(0 : Int), 1, 2, 3],
      headerData (sampleSpecialTable 1) section_ .Horizontal .DisplayRole
        = some (.QString "tex")) ∧
    [(0 : Int), 1, 2, 3].map
        (fun section_ => headerData (sampleSpecialTable 4) section_ .Horizontal .DisplayRole)
      = [some (.QString "tex.x"), some (.QString "tex.y"), some (.QString "tex.z"),
         some (.QString "tex.w")] := by
  refine ⟨by decide, by decide, by decide, by decide, by decide⟩

end BufferViewer
